import Mathlib

/-!
# Wildlife filters

A shallow embedding of the two libavfilter stages

* `libavfilter/vf_wildlifedetect.c` (motion energy detector), and
* `libavfilter/vf_wildlifefmt.c` (packed 4:2:2 to NV12 converter),

followed by theorems about their row decomposition, pixel kernels and the
retention state machine.

Conventions of the embedding.

* A C `int` is a Lean `Int`.  The energy accumulators (`energy`,
  `total_energy`) are reduced to the signed 32-bit range after every addition
  (`wrap32`), because a frame of more than 8421504 pixels can push the exact
  sum beyond `INT32_MAX`.  The two span products `height * jobnr` and
  `height * (jobnr + 1)` are reduced in the same way, because a tall frame with
  many jobs (height 65536 with 32768 jobs) pushes them beyond `INT32_MAX`.
  Byte offsets of rows inside the frame are kept exact: the size check of the
  host bounds `linesize * height` by `INT32_MAX`.
* A plane is a function from a signed byte offset, relative to the plane's
  `data` pointer, to a byte; `linesize` is the signed stride of the plane.
* A `for` loop over `0 .. n-1` is a left fold over `List.range n`.
* Calls that leave the two source files (frame cloning, the job executor, the
  downstream link, timestamp formatting) are either modelled from the spec or
  supplied as an environment record.
-/

/-- An `uint8_t` sample. -/
abbrev Byte := Fin 256

/-- Largest value of a 32-bit signed `int`. -/
def INT32_MAX : Int := 2147483647

/-- Two's complement reduction of an exact integer to the range of a 32-bit `int`. -/
def wrap32 (x : Int) : Int := (x + 2147483648) % 4294967296 - 2147483648

/-- The `FFMIN` macro: `((a) > (b) ? (b) : (a))`. -/
def FFMIN (a b : Int) : Int := if a > b then b else a

/-- The value of `AVERROR(ENOMEM)`. -/
def AVERROR_ENOMEM : Int := -12

/-- The parts of an `AVFrame` that the two filters touch: the picture size, the
stride and memory of each plane, the presentation timestamp and the metadata
dictionary (a finite map from keys to strings). -/
structure AVFrame where
  width : Int
  height : Int
  linesize : Nat → Int
  data : Nat → Int → Byte
  pts : Int
  metadata : String → Option String

/-- Modelled from the spec: `av_dict_set(meta, key, value, 0)` of libavutil, which
is not part of the sources at hand; the metadata map gets `value` at `key` and
keeps every other entry. -/
def av_dict_set (m : String → Option String) (key value : String) : String → Option String :=
  fun k => if k = key then some value else m k

/-- Modelled from the spec: `av_dict_set_int(meta, key, value, 0)` of libavutil;
stores the decimal rendering of `value` at `key`. -/
def av_dict_set_int (m : String → Option String) (key : String) (value : Int) :
    String → Option String :=
  av_dict_set m key (toString value)

/-- First row of job `jobnr`: `(height * jobnr) / nb_jobs` with the product taken
in 32-bit `int` and C division. -/
def span_start (height jobnr nb_jobs : Int) : Int :=
  Int.tdiv (wrap32 (height * jobnr)) nb_jobs

/-- Row after the last row of job `jobnr`: `(height * (jobnr + 1)) / nb_jobs` with
the product taken in 32-bit `int` and C division. -/
def span_end (height jobnr nb_jobs : Int) : Int :=
  Int.tdiv (wrap32 (height * (jobnr + 1))) nb_jobs

/-- Modelled from the spec: `ctx->internal->execute(ctx, func, arg, NULL, nb_jobs)`,
the external job executor.  It calls `func` once for every job number
`0 .. nb_jobs-1` and returns when all of them are done; the jobs touch
disjoint state, so they are run here in increasing job order. -/
def execute {σ : Type} (func : σ → Int → Int → σ) (st : σ) (nb_jobs : Int) : σ :=
  (List.range nb_jobs.toNat).foldl (fun acc (j : Nat) => func acc (j : Int) nb_jobs) st

namespace WildlifeDetect

/-- The private context of the detector (`WildlifeDetectContext`). -/
structure WildlifeDetectContext where
  nb_threads : Int
  prev_frame : Option AVFrame
  energy_threshold : Int
  noise_threshold : Int
  min_frames : Int
  rem_frames : Int
  th_energy : List Int

/-- The context before `config_input`: the private data is zero-filled and the
three options are stored by the option layer. -/
def init_context (energy_threshold noise_threshold min_frames : Int) :
    WildlifeDetectContext :=
  { nb_threads := 0, prev_frame := none, energy_threshold := energy_threshold,
    noise_threshold := noise_threshold, min_frames := min_frames, rem_frames := 0,
    th_energy := [] }

/-- The function `config_input`: `nb_threads` is the answer of
`ff_filter_get_nb_threads`, `calloc_ok` tells whether `av_calloc` succeeded. -/
def config_input (s : WildlifeDetectContext) (nb_threads : Int) (calloc_ok : Bool) :
    Except Int WildlifeDetectContext :=
  let s1 := { s with nb_threads := nb_threads, rem_frames := -1 }
  if calloc_ok then
    Except.ok { s1 with th_energy := List.replicate nb_threads.toNat 0 }
  else
    Except.error AVERROR_ENOMEM

/-- What one sample pair adds to the energy: `val = abs(a - b)`, counted when
`val >= noise_threshold` (lines 142-144). -/
def pixel_energy (noise_threshold : Int) (a b : Byte) : Int :=
  let val : Int := Int.natAbs ((a.val : Int) - (b.val : Int))
  if val ≥ noise_threshold then val else 0

/-- Body of the inner loop of `energy_counter` at column `x`: `p` and `q` are the
offsets of the current row in the two planes. -/
def pixel_step (noise_threshold : Int) (pmem qmem : Int → Byte) (p q : Int)
    (energy : Int) (x : Nat) : Int :=
  let val : Int := Int.natAbs (((pmem (p + x)).val : Int) - ((qmem (q + x)).val : Int))
  if val ≥ noise_threshold then wrap32 (energy + val) else energy

/-- The inner loop `for (x = 0; x < width; x++)` of `energy_counter`. -/
def row_energy (noise_threshold : Int) (pmem qmem : Int → Byte) (width : Int)
    (p q : Int) (energy : Int) : Int :=
  (List.range width.toNat).foldl (pixel_step noise_threshold pmem qmem p q) energy

/-- Loop state of `energy_counter`: the accumulator and the two row pointers. -/
structure Scan where
  energy : Int
  p : Int
  q : Int

/-- One iteration of the outer loop of `energy_counter`: scan a row, then advance
both row pointers by the stride of the current frame. -/
def scan_row (noise_threshold : Int) (pmem qmem : Int → Byte) (width linesize : Int)
    (st : Scan) : Scan :=
  { energy := row_energy noise_threshold pmem qmem width st.p st.q st.energy,
    p := st.p + linesize,
    q := st.q + linesize }

/-- The job function `energy_counter`.  Both row pointers are stepped with the
stride of the current frame, as in the source.  Without a previous frame the
source would read through a null pointer; `filter_frame` never dispatches the
job in that state and the context is returned unchanged. -/
def energy_counter (cur_frame : AVFrame) (s : WildlifeDetectContext)
    (jobnr nb_jobs : Int) : WildlifeDetectContext :=
  match s.prev_frame with
  | none => s
  | some prev_frame =>
    let linesize := cur_frame.linesize 0
    let width := cur_frame.width
    let height := cur_frame.height
    let start := span_start height jobnr nb_jobs
    let end_ := span_end height jobnr nb_jobs
    let st := (List.range (end_ - start).toNat).foldl
      (fun st (_ : Nat) => scan_row s.noise_threshold (cur_frame.data 0) (prev_frame.data 0)
        width linesize st)
      { energy := 0, p := start * linesize, q := start * linesize }
    { s with th_energy := s.th_energy.set jobnr.toNat st.energy }

/-- The summation loop of `filter_frame`:
`for (i = 0; i < nb_threads; i++) total_energy += th_energy[i]`. -/
def sum_energy (s : WildlifeDetectContext) : Int :=
  (List.range s.nb_threads.toNat).foldl
    (fun total (i : Nat) => wrap32 (total + s.th_energy.getD i 0)) 0

/-- Results of the calls that leave the source file during `filter_frame`:
`av_frame_clone` (absent when the clone fails), the formatted timestamp
`av_ts2timestr(pts, &time_base)`, the return code of the job executor and the
return code of `ff_filter_frame` on the output link. -/
structure Env where
  av_frame_clone : AVFrame → Option AVFrame
  av_ts2timestr : Int → String
  execute_ret : Int
  ff_filter_frame : AVFrame → Int

/-- Everything observable after one call of `filter_frame`: the new context, the
return code, the frame handed to the output link (if any), the frames released
with `av_frame_free`, the metadata of the incoming frame when the call ends,
whether the call wrote the window-start and the window-end entry, and the value
of the local `total_energy`. -/
structure Outcome where
  ctx : WildlifeDetectContext
  ret : Int
  forwarded : Option AVFrame
  freed : List AVFrame
  cur_meta : String → Option String
  start_tag : Bool
  end_tag : Bool
  total_energy : Int

/-- The function `filter_frame` of the detector; `inlink_h` is `inlink->h`. -/
def filter_frame (env : Env) (inlink_h : Int) (s : WildlifeDetectContext)
    (cur_frame : AVFrame) : Outcome :=
  match s.prev_frame with
  | none =>
    { ctx := { s with prev_frame := env.av_frame_clone cur_frame },
      ret := 0, forwarded := none, freed := [cur_frame],
      cur_meta := cur_frame.metadata, start_tag := false, end_tag := false,
      total_energy := 0 }
  | some old_prev =>
    let s1 := execute (energy_counter cur_frame) s (FFMIN inlink_h s.nb_threads)
    let total_energy := sum_energy s1
    let meta1 := av_dict_set_int cur_frame.metadata "lavfi.wildlifedetect.energy" total_energy
    let trigger : Bool := decide (total_energy ≥ s1.energy_threshold)
    let rem1 := if trigger then s1.min_frames else s1.rem_frames
    let meta2 := if trigger then
        av_dict_set meta1 "lavfi.wildlifedetect.start" (env.av_ts2timestr cur_frame.pts)
      else meta1
    let cur2 := { cur_frame with metadata := meta2 }
    let s2 := { s1 with prev_frame := env.av_frame_clone cur2 }
    if rem1 > 0 then
      { ctx := { s2 with rem_frames := rem1 - 1 },
        ret := env.ff_filter_frame cur2, forwarded := some cur2, freed := [old_prev],
        cur_meta := meta2, start_tag := trigger, end_tag := false,
        total_energy := total_energy }
    else if rem1 = 0 then
      let meta3 := av_dict_set meta2 "lavfi.wildlifedetect.end"
        (env.av_ts2timestr cur_frame.pts)
      { ctx := { s2 with rem_frames := rem1 - 1 },
        ret := 0, forwarded := none,
        freed := [old_prev, { cur_frame with metadata := meta3 }],
        cur_meta := meta3, start_tag := trigger, end_tag := true,
        total_energy := total_energy }
    else
      { ctx := { s2 with rem_frames := rem1 },
        ret := 0, forwarded := none, freed := [old_prev, cur2],
        cur_meta := meta2, start_tag := trigger, end_tag := false,
        total_energy := total_energy }

/-- The outcomes of feeding a list of frames to `filter_frame`, one after the other. -/
def run (env : Env) (inlink_h : Int) :
    WildlifeDetectContext → List AVFrame → List Outcome
  | _, [] => []
  | s, f :: fs =>
    let r := filter_frame env inlink_h s f
    r :: run env inlink_h r.ctx fs

/-- What `filter_frame` (lines 182-201) decides from the countdown on arrival and
the total energy of the frame: the countdown after the call and whether the
frame is forwarded, start-tagged and end-tagged. -/
structure Decision where
  rem_frames : Int
  forwarded : Bool
  start_tag : Bool
  end_tag : Bool
deriving DecidableEq

/-- The decision of `filter_frame` read off an outcome. -/
def Outcome.decision (r : Outcome) : Decision :=
  { rem_frames := r.ctx.rem_frames, forwarded := r.forwarded.isSome,
    start_tag := r.start_tag, end_tag := r.end_tag }

/-- The countdown logic of `filter_frame`, lines 182-201, as a function of the
two thresholds, the countdown on arrival and the total energy. -/
def countdown_step (energy_threshold min_frames rem_frames total_energy : Int) : Decision :=
  let trigger : Bool := decide (total_energy ≥ energy_threshold)
  let rem1 := if trigger then min_frames else rem_frames
  if rem1 > 0 then
    { rem_frames := rem1 - 1, forwarded := true, start_tag := trigger, end_tag := false }
  else if rem1 = 0 then
    { rem_frames := rem1 - 1, forwarded := false, start_tag := trigger, end_tag := true }
  else
    { rem_frames := rem1, forwarded := false, start_tag := trigger, end_tag := false }

/-- The countdown logic iterated over the energies of consecutive frames. -/
def countdown_run (energy_threshold min_frames : Int) : Int → List Int → List Decision
  | _, [] => []
  | rem_frames, e :: es =>
    let d := countdown_step energy_threshold min_frames rem_frames e
    d :: countdown_run energy_threshold min_frames d.rem_frames es

end WildlifeDetect

namespace WildlifeFmt

/-- The job argument `WildlifeFmtFrames`. -/
structure WildlifeFmtFrames where
  src : AVFrame
  dst : AVFrame

/-- The inner loop of `format_converter`: `q[x] = p[x * 2]` for `x < width`. -/
def copy_row (src_mem : Int → Byte) (p : Int) (width : Int) (dst_mem : Int → Byte)
    (q : Int) : Int → Byte :=
  (List.range width.toNat).foldl
    (fun m (x : Nat) => Function.update m (q + (x : Int)) (src_mem (p + (x : Int) * 2)))
    dst_mem

/-- Loop state of `format_converter`: the destination luma plane and the two row
pointers. -/
structure Copy where
  mem : Int → Byte
  p : Int
  q : Int

/-- One iteration of the outer loop of `format_converter`. -/
def copy_step (src_mem : Int → Byte) (width src_linesize dst_linesize : Int)
    (st : Copy) : Copy :=
  { mem := copy_row src_mem st.p width st.mem st.q,
    p := st.p + src_linesize,
    q := st.q + dst_linesize }

/-- The call `memset(base, c, n)` on a plane: the `n` bytes from offset `base` on
become `c` (no byte when `n <= 0`).  A negative `n` arises in `format_converter`
only when a span product overflows; C converts it to a huge `size_t` and the
call runs off the plane, which is not modelled: the function then writes
nothing. -/
def memset (m : Int → Byte) (base : Int) (c : Byte) (n : Int) : Int → Byte :=
  fun off => if base ≤ off ∧ off < base + n then c else m off

/-- The job function `format_converter`. -/
def format_converter (frames : WildlifeFmtFrames) (jobnr nb_jobs : Int) :
    WildlifeFmtFrames :=
  let src_linesize := frames.src.linesize 0
  let dst_linesize := frames.dst.linesize 0
  let width := frames.src.width
  let height := frames.src.height
  let start := span_start height jobnr nb_jobs
  let end_ := span_end height jobnr nb_jobs
  let st := (List.range (end_ - start).toNat).foldl
    (fun st (_ : Nat) => copy_step (frames.src.data 0) width src_linesize dst_linesize st)
    { mem := frames.dst.data 0, p := start * src_linesize, q := start * dst_linesize }
  let chroma := memset (frames.dst.data 1)
    (Int.tdiv start 2 * frames.dst.linesize 1) 128
    (Int.tdiv (end_ - start) 2 * frames.dst.linesize 1)
  { frames with
    dst := { frames.dst with
      data := fun k => if k = 0 then st.mem else if k = 1 then chroma
        else frames.dst.data k } }

/-- The private context of the converter (`WildlifeFmtContext`). -/
structure WildlifeFmtContext where
  nb_threads : Int

/-- The function `config_input` of the converter: `nb_threads` is the answer of
`ff_filter_get_nb_threads`. -/
def config_input (s : WildlifeFmtContext) (nb_threads : Int) : Int × WildlifeFmtContext :=
  (0, { s with nb_threads := nb_threads })

/-- Results of the calls that leave the source file during the converter's
`filter_frame`: the frame `av_frame_alloc` returns (absent on failure), the
return code and the frame with its planes after `av_frame_get_buffer`, the
return code and the destination after `av_frame_copy_props`, the return code of
the job executor and the return code of `ff_filter_frame` on the output link. -/
structure Env where
  av_frame_alloc : Option AVFrame
  av_frame_get_buffer : AVFrame → Int × AVFrame
  av_frame_copy_props : AVFrame → AVFrame → Int × AVFrame
  execute_ret : Int
  ff_filter_frame : AVFrame → Int

/-- Everything observable after one call of the converter's `filter_frame`: the
return code, the frame handed to the output link (if any) and the frames
released with `av_frame_free`, in the order of the calls. -/
structure Outcome where
  ret : Int
  forwarded : Option AVFrame
  freed : List AVFrame

/-- The function `filter_frame` of the converter; `inlink_h` is `inlink->h`. -/
def filter_frame (env : Env) (inlink_h : Int) (s : WildlifeFmtContext)
    (src_frame : AVFrame) : Outcome :=
  match env.av_frame_alloc with
  | none => { ret := AVERROR_ENOMEM, forwarded := none, freed := [] }
  | some dst0 =>
    let dst1 := { dst0 with width := src_frame.width, height := src_frame.height }
    let got := env.av_frame_get_buffer dst1
    if got.1 < 0 then
      { ret := got.1, forwarded := none, freed := [src_frame, got.2] }
    else
      let copied := env.av_frame_copy_props got.2 src_frame
      if copied.1 < 0 then
        { ret := copied.1, forwarded := none, freed := [src_frame, copied.2] }
      else
        let frames := execute format_converter { src := src_frame, dst := copied.2 }
          (FFMIN inlink_h s.nb_threads)
        { ret := env.ff_filter_frame frames.dst, forwarded := some frames.dst,
          freed := [frames.src] }

end WildlifeFmt

/-- Sample `x` of row `y` of the luma plane of a planar frame, located with the
stride of that frame. -/
def luma (f : AVFrame) (y x : Int) : Byte := f.data 0 (y * f.linesize 0 + x)

/-- Luma sample `x` of row `y` of a packed 4:2:2 frame: the byte at offset `2x` of
the row. -/
def packed_luma (f : AVFrame) (y x : Int) : Byte := f.data 0 (y * f.linesize 0 + x * 2)

namespace WildlifeDetect

/-- The energy of a frame pair in the words of the spec: the sum over all pixels
`x < W`, `y < H` of the absolute luma difference, counting only differences at
or above the noise threshold. -/
def energy_spec (cur prev : AVFrame) (W H : Int) (noise_threshold : Int) : Int :=
  ((List.range H.toNat).map (fun y : Nat =>
    ((List.range W.toNat).map (fun x : Nat =>
      pixel_energy noise_threshold (luma cur y x) (luma prev y x))).sum)).sum

/-- Exact sum of the contributions of one row scanned by `row_energy`. -/
def row_sum (noise_threshold : Int) (pmem qmem : Int → Byte) (width : Int) (p q : Int) : Int :=
  ((List.range width.toNat).map (fun x : Nat =>
    pixel_energy noise_threshold (pmem (p + x)) (qmem (q + x)))).sum

/-- Exact sum of the contributions of the `n` rows from row `y0` on, both planes
being addressed with the stride `linesize`. -/
def rows_sum (noise_threshold : Int) (pmem qmem : Int → Byte) (width linesize : Int)
    (y0 : Int) (n : Nat) : Int :=
  ((List.range n).map (fun i : Nat =>
    row_sum noise_threshold pmem qmem width ((y0 + i) * linesize) ((y0 + i) * linesize))).sum

end WildlifeDetect

/-! ### Concrete frames and contexts used in the examples -/

/-- A frame whose planes all have stride `ls` and hold the byte `v` everywhere. -/
def const_frame (w h ls : Int) (v : Byte) : AVFrame :=
  { width := w, height := h, linesize := fun _ => ls, data := fun _ _ => v,
    pts := 0, metadata := fun _ => none }

/-- A frame whose planes all have stride `ls` and whose byte at offset `off` is
`off mod 7`. -/
def ramp_frame (w h ls : Int) : AVFrame :=
  { width := w, height := h, linesize := fun _ => ls,
    data := fun _ off => Fin.ofNat (off.toNat % 7),
    pts := 0, metadata := fun _ => none }

/-- A frame of width 1 and height 2 with stride 2 whose padding byte (offset 1)
is 9 while both samples (offsets 0 and 2) are 0. -/
def padded_frame : AVFrame :=
  { width := 1, height := 2, linesize := fun _ => 2,
    data := fun _ off => if off = 1 then 9 else 0,
    pts := 0, metadata := fun _ => none }

namespace WildlifeDetect

/-- A configured detector context with `T` zeroed accumulator slots that holds
`prev` as its previous frame. -/
def ready_context (T : Int) (prev : AVFrame)
    (energy_threshold noise_threshold min_frames rem_frames : Int) : WildlifeDetectContext :=
  { nb_threads := T, prev_frame := some prev, energy_threshold := energy_threshold,
    noise_threshold := noise_threshold, min_frames := min_frames, rem_frames := rem_frames,
    th_energy := List.replicate T.toNat 0 }

end WildlifeDetect

/-- The synthetic packed frame of the conversion test: with stride `ls > 0`, byte
`2x` (and `2x + 1`) of every row is `x mod 256`. -/
def synthetic_packed (w h ls : Int) : AVFrame :=
  { width := w, height := h, linesize := fun _ => ls,
    data := fun _ off => Fin.ofNat ((off % ls) / 2).toNat,
    pts := 0, metadata := fun _ => none }

namespace WildlifeDetect

/-- The context `config_input` leaves behind on success: no previous frame, idle
countdown, `T` zeroed accumulator slots. -/
def configured (T energy_threshold noise_threshold min_frames : Int) : WildlifeDetectContext :=
  { nb_threads := T, prev_frame := none, energy_threshold := energy_threshold,
    noise_threshold := noise_threshold, min_frames := min_frames, rem_frames := -1,
    th_energy := List.replicate T.toNat 0 }

/-- An environment in which cloning succeeds and the output link accepts frames. -/
def plain_env : Env :=
  { av_frame_clone := fun f => some f, av_ts2timestr := fun pts => toString pts,
    execute_ret := 0, ff_filter_frame := fun _ => 0 }

/-- Seven frames of 60 samples, alternately all 200 and all 150: after an all-zero
frame their consecutive energies are 12000 and then six times 3000. -/
def trace_tail : List AVFrame :=
  [const_frame 60 1 60 200, const_frame 60 1 60 150, const_frame 60 1 60 200,
   const_frame 60 1 60 150, const_frame 60 1 60 200, const_frame 60 1 60 150,
   const_frame 60 1 60 200]

/-- The eight frames of the trace: an all-zero baseline followed by `trace_tail`. -/
def trace_frames : List AVFrame := const_frame 60 1 60 0 :: trace_tail

end WildlifeDetect

/-! ### Definitions for the stream-level properties -/

/-- Two frames have the same picture: size, strides and plane memory agree. -/
def same_pixels (f g : AVFrame) : Prop :=
  g.width = f.width ∧ g.height = f.height ∧ g.linesize = f.linesize ∧ g.data = f.data

namespace WildlifeDetect

/-- The context after feeding a list of frames to `filter_frame`, one after the
other. -/
def run_ctx (env : Env) (inlink_h : Int) (s : WildlifeDetectContext) (fs : List AVFrame) :
    WildlifeDetectContext :=
  fs.foldl (fun c f => (filter_frame env inlink_h c f).ctx) s

/-- The total that lines 170-174 of `filter_frame` compute for a current frame
against a previous frame when every accumulator slot starts at zero. -/
def pair_energy (T inlink_h noise_threshold : Int) (cur prev : AVFrame) : Int :=
  sum_energy (execute (energy_counter cur)
    (ready_context T prev 0 noise_threshold 0 0) (FFMIN inlink_h T))

/-- The accumulator array has one slot per worker thread and the slots that no
job of a frame writes (those from `FFMIN(inlink->h, nb_threads)` on) hold 0. -/
def slots_ok (inlink_h : Int) (s : WildlifeDetectContext) : Prop :=
  s.th_energy.length = s.nb_threads.toNat ∧
  ∀ i : Nat, (FFMIN inlink_h s.nb_threads).toNat ≤ i → s.th_energy.getD i 0 = 0


/-- Exact partial sum of job `jobnr`: the contributions of the rows of its span,
both planes addressed with the stride of the current frame as in
`energy_counter`. -/
def job_sum (noise_threshold : Int) (cur prev : AVFrame) (jobnr nb_jobs : Int) : Int :=
  rows_sum noise_threshold (cur.data 0) (prev.data 0) cur.width (cur.linesize 0)
    (span_start cur.height jobnr nb_jobs)
    (span_end cur.height jobnr nb_jobs - span_start cur.height jobnr nb_jobs).toNat

/-- Exact sum of the contributions of all rows of the current frame, both planes
addressed with the stride of the current frame as in `energy_counter`. -/
def frame_sum (noise_threshold : Int) (cur prev : AVFrame) : Int :=
  rows_sum noise_threshold (cur.data 0) (prev.data 0) cur.width (cur.linesize 0)
    0 cur.height.toNat

/-- The value of the accumulator `energy` of `energy_counter` after `i` full rows
of the span that starts at row `start` and the first `m` samples of the next
row. -/
def energy_after (noise_threshold : Int) (cur prev : AVFrame) (start : Int) (i m : Nat) : Int :=
  let st := (List.range i).foldl
    (fun st (_ : Nat) => scan_row noise_threshold (cur.data 0) (prev.data 0)
      cur.width (cur.linesize 0) st)
    { energy := 0, p := start * cur.linesize 0, q := start * cur.linesize 0 }
  (List.range m).foldl (pixel_step noise_threshold (cur.data 0) (prev.data 0) st.p st.q)
    st.energy


/-- The environment `plain_env` with a job executor that reports the error -5. -/
def failing_executor_env : Env := { plain_env with execute_ret := -5 }

end WildlifeDetect

namespace WildlifeFmt

/-- An environment of the converter in which every allocation succeeds: the
destination gets planes of stride `width` filled with 0 and takes over the
timestamp and the metadata of the source; the output link accepts frames. -/
def fmt_env : Env :=
  { av_frame_alloc := some (const_frame 0 0 0 0),
    av_frame_get_buffer := fun f => (0, { f with linesize := fun _ => f.width }),
    av_frame_copy_props := fun d s => (0, { d with pts := s.pts, metadata := s.metadata }),
    execute_ret := 0,
    ff_filter_frame := fun _ => 0 }

/-- The environment `fmt_env` with a failing `av_frame_alloc`. -/
def alloc_fail_env : Env := { fmt_env with av_frame_alloc := none }

/-- The environment `fmt_env` with `av_frame_get_buffer` failing with
`AVERROR(ENOMEM)`. -/
def buffer_fail_env : Env :=
  { fmt_env with av_frame_get_buffer := fun f => (AVERROR_ENOMEM, f) }

/-- The environment `fmt_env` with a job executor that reports the error -5. -/
def fmt_failing_executor_env : Env := { fmt_env with execute_ret := -5 }

end WildlifeFmt

/-! # Theorems -/

/-! ## Row spans -/

theorem wrap32_of_fit {x : Int} (h0 : 0 ≤ x) (h1 : x ≤ INT32_MAX) : wrap32 x = x := by
  unfold INT32_MAX at h1; unfold wrap32; omega

/-- The product of the height with a job number up to `N` fits when the one with
`N` does. -/
theorem span_fit_of_le {H N j : Int} (hH : 0 ≤ H) (hjN : j ≤ N)
    (hfit : H * N ≤ INT32_MAX) : H * j ≤ INT32_MAX :=
  le_trans (Int.mul_le_mul_of_nonneg_left hjN hH) hfit

theorem span_start_eq_ediv {H N j : Int} (hH : 0 ≤ H) (hN : 0 ≤ N) (hj : 0 ≤ j)
    (hfit : H * j ≤ INT32_MAX) :
    span_start H j N = H * j / N := by
  unfold span_start
  rw [wrap32_of_fit (Int.mul_nonneg hH hj) hfit]
  exact Int.tdiv_eq_ediv (Int.mul_nonneg hH hj) hN

theorem span_end_eq_start_succ (H N j : Int) : span_end H j N = span_start H (j + 1) N := rfl

theorem span_start_zero (H N : Int) : span_start H 0 N = 0 := by
  unfold span_start
  rw [mul_zero, show wrap32 0 = 0 by decide]
  exact Int.zero_tdiv N

theorem span_start_last {H N : Int} (hH : 0 ≤ H) (hN : 1 ≤ N) (hfit : H * N ≤ INT32_MAX) :
    span_start H N N = H := by
  rw [span_start_eq_ediv hH (by omega) (by omega) hfit]
  exact Int.mul_ediv_cancel H (by omega)

theorem span_start_mono {H N j k : Int} (hH : 0 ≤ H) (hN : 1 ≤ N) (hj : 0 ≤ j) (hjk : j ≤ k)
    (hfit : H * k ≤ INT32_MAX) :
    span_start H j N ≤ span_start H k N := by
  rw [span_start_eq_ediv hH (by omega) hj (span_fit_of_le hH hjk hfit),
    span_start_eq_ediv hH (by omega) (by omega) hfit]
  exact Int.ediv_le_ediv (by omega) (Int.mul_le_mul_of_nonneg_left hjk hH)

theorem span_start_nonneg {H N j : Int} (hH : 0 ≤ H) (hN : 1 ≤ N) (hj : 0 ≤ j)
    (hfit : H * j ≤ INT32_MAX) :
    0 ≤ span_start H j N := by
  have := span_start_mono hH hN (le_refl 0) hj hfit
  rwa [span_start_zero] at this

theorem span_cover {H N y : Int} (hH : 0 ≤ H) (hN : 1 ≤ N) (hfit : H * N ≤ INT32_MAX)
    (hy0 : 0 ≤ y) (hy : y < H) :
    ∃ j, 0 ≤ j ∧ j < N ∧ span_start H j N ≤ y ∧ y < span_end H j N := by
  have hHpos : 0 < H := by omega
  have hNpos : 0 < N := by omega
  have hj : 0 ≤ (N * (y + 1) - 1) / H := Int.ediv_nonneg (by nlinarith) hH
  have hjN : (N * (y + 1) - 1) / H < N := by
    apply Int.ediv_lt_of_lt_mul hHpos
    nlinarith
  refine ⟨(N * (y + 1) - 1) / H, hj, hjN, ?_, ?_⟩
  · rw [span_start_eq_ediv hH (by omega) hj (span_fit_of_le hH (by omega) hfit)]
    have h1 : (N * (y + 1) - 1) / H * H ≤ N * (y + 1) - 1 := Int.ediv_mul_le _ (by omega)
    have : H * ((N * (y + 1) - 1) / H) / N < y + 1 := by
      apply Int.ediv_lt_of_lt_mul hNpos
      nlinarith
    omega
  · rw [span_end_eq_start_succ,
      span_start_eq_ediv hH (by omega) (by omega) (span_fit_of_le hH (by omega) hfit)]
    have h1 : N * (y + 1) - 1 < ((N * (y + 1) - 1) / H + 1) * H := Int.lt_ediv_add_one_mul_self _ hHpos
    have : y + 1 ≤ H * ((N * (y + 1) - 1) / H + 1) / N := by
      apply Int.le_ediv_of_mul_le hNpos
      nlinarith
    omega

theorem span_unique {H N y j k : Int} (hH : 0 ≤ H) (hN : 1 ≤ N) (hfit : H * N ≤ INT32_MAX)
    (hj : 0 ≤ j) (hjN : j < N) (hk : 0 ≤ k) (hkN : k < N)
    (hj1 : span_start H j N ≤ y) (hj2 : y < span_end H j N)
    (hk1 : span_start H k N ≤ y) (hk2 : y < span_end H k N) : j = k := by
  rw [span_end_eq_start_succ] at hj2 hk2
  by_contra hne
  rcases lt_or_gt_of_ne hne with h | h
  · have := span_start_mono (N := N) hH hN (show 0 ≤ j + 1 by omega) (show j + 1 ≤ k by omega)
      (span_fit_of_le hH (by omega) hfit)
    omega
  · have := span_start_mono (N := N) hH hN (show 0 ≤ k + 1 by omega) (show k + 1 ≤ j by omega)
      (span_fit_of_le hH (by omega) hfit)
    omega

/-- C1 (amended): for a frame height `H >= 1` and a job count `1 <= N <= H` with
`H * N <= 2^31 - 1`, the row spans `[span_start H j N, span_end H j N)`,
`j = 0 .. N-1`, that `energy_counter` and `format_converter` compute tile
`[0, H)`: the first span starts at 0, the last ends at `H`, consecutive spans
meet, no span is reversed, and every row `0 <= y < H` lies in exactly one
span. -/
theorem row_spans_partition (H N : Int) (hH : 1 ≤ H) (hN : 1 ≤ N) (hNH : N ≤ H)
    (hfit : H * N ≤ INT32_MAX) :
    span_start H 0 N = 0 ∧
    span_end H (N - 1) N = H ∧
    (∀ j, 0 ≤ j → j < N - 1 → span_end H j N = span_start H (j + 1) N) ∧
    (∀ j, 0 ≤ j → j < N → span_start H j N ≤ span_end H j N) ∧
    (∀ y, 0 ≤ y → y < H →
      ∃! j, (0 ≤ j ∧ j < N) ∧ span_start H j N ≤ y ∧ y < span_end H j N) := by
  have _ := hNH
  have hH0 : 0 ≤ H := by omega
  refine ⟨span_start_zero H N, ?_, ?_, ?_, ?_⟩
  · rw [span_end_eq_start_succ]
    simpa using span_start_last hH0 hN hfit
  · intro j _ _
    rfl
  · intro j hj hjN
    rw [span_end_eq_start_succ]
    exact span_start_mono hH0 hN hj (by omega) (span_fit_of_le hH0 (by omega) hfit)
  · intro y hy0 hy
    obtain ⟨j, hj0, hjN, h1, h2⟩ := span_cover hH0 hN hfit hy0 hy
    refine ⟨j, ⟨⟨hj0, hjN⟩, h1, h2⟩, ?_⟩
    rintro k ⟨⟨hk0, hkN⟩, hk1, hk2⟩
    exact span_unique hH0 hN hfit hk0 hkN hj0 hjN hk1 hk2 h1 h2

/-- Witness for C1: a frame of height 100 split into 3 jobs; row 33 lies in exactly
one span. -/
theorem row_spans_partition_witness :
    ((1 : Int) ≤ 100 ∧ (1 : Int) ≤ 3 ∧ (3 : Int) ≤ 100 ∧ (100 : Int) * 3 ≤ INT32_MAX) ∧
    span_start 100 0 3 = 0 ∧
    span_end 100 (3 - 1) 3 = 100 ∧
    (∃! j, (0 ≤ j ∧ j < 3) ∧ span_start 100 j 3 ≤ 33 ∧ 33 < span_end 100 j 3) :=
  ⟨by decide,
   (row_spans_partition 100 3 (by decide) (by decide) (by decide) (by decide)).1,
   (row_spans_partition 100 3 (by decide) (by decide) (by decide) (by decide)).2.1,
   (row_spans_partition 100 3 (by decide) (by decide) (by decide) (by decide)).2.2.2.2 33
     (by decide) (by decide)⟩

/-- C1 as stated fails when `H * N` leaves the range of `int`: for `H = 65536` and
`N = 32768` the product `height * (jobnr + 1)` of the last job is `2^31`, which
the 32-bit multiplication turns into `-2^31`; the last span is `[65534, -65536)`
instead of `[65534, 65536)`, so it does not end at `H`, it is reversed, and the
rows 65534 and 65535 lie in no span. -/
theorem row_spans_counterexample :
    ((1 : Int) ≤ 32768 ∧ (32768 : Int) ≤ 65536) ∧
    span_start 65536 32767 32768 = 65534 ∧
    span_end 65536 (32768 - 1) 32768 = -65536 ∧
    span_end 65536 (32768 - 1) 32768 ≠ 65536 ∧
    ¬ (span_start 65536 32767 32768 ≤ span_end 65536 32767 32768) := by
  decide

/-! ## Signed 32-bit arithmetic -/

theorem wrap32_idem (x : Int) : wrap32 (wrap32 x) = wrap32 x := by
  unfold wrap32; omega

theorem wrap32_of_range {x : Int} (h0 : -2147483648 ≤ x) (h1 : x ≤ INT32_MAX) : wrap32 x = x := by
  unfold INT32_MAX at h1; unfold wrap32; omega

theorem wrap32_add_left (a b : Int) : wrap32 (wrap32 a + b) = wrap32 (a + b) := by
  unfold wrap32; omega

theorem wrap32_add_right (a b : Int) : wrap32 (a + wrap32 b) = wrap32 (a + b) := by
  unfold wrap32; omega

theorem wrap32_add_congr {a a' b b' : Int} (ha : wrap32 a = wrap32 a') (hb : wrap32 b = wrap32 b') :
    wrap32 (a + b) = wrap32 (a' + b') := by
  unfold wrap32 at *; omega

namespace WildlifeDetect

/-! ## The energy kernel -/

theorem pixel_energy_nonneg (t : Int) (a b : Byte) : 0 ≤ pixel_energy t a b := by
  unfold pixel_energy
  simp only
  split <;> omega

theorem pixel_energy_le (t : Int) (a b : Byte) : pixel_energy t a b ≤ 255 := by
  unfold pixel_energy
  simp only
  have ha := a.isLt
  have hb := b.isLt
  split <;> omega

theorem pixel_step_eq (t : Int) (pmem qmem : Int → Byte) (p q e : Int) (x : Nat)
    (he : wrap32 e = e) :
    pixel_step t pmem qmem p q e x = wrap32 (e + pixel_energy t (pmem (p + x)) (qmem (q + x))) := by
  unfold pixel_step pixel_energy
  simp only
  split
  · rfl
  · simp [he]

theorem row_fold_eq (t : Int) (pmem qmem : Int → Byte) (p q e : Int) (he : wrap32 e = e) (n : Nat) :
    (List.range n).foldl (pixel_step t pmem qmem p q) e
      = wrap32 (e + ((List.range n).map (fun x : Nat =>
          pixel_energy t (pmem (p + x)) (qmem (q + x)))).sum) := by
  induction n with
  | zero => simp [he]
  | succ n ih =>
    rw [List.range_succ, List.foldl_append, ih, List.map_append, List.sum_append]
    simp only [List.foldl_cons, List.foldl_nil, List.map_cons, List.map_nil, List.sum_cons,
      List.sum_nil, add_zero]
    rw [pixel_step_eq _ _ _ _ _ _ _ (wrap32_idem _), wrap32_add_left, add_assoc]

theorem row_energy_eq (t : Int) (pmem qmem : Int → Byte) (width p q e : Int) (he : wrap32 e = e) :
    row_energy t pmem qmem width p q e = wrap32 (e + row_sum t pmem qmem width p q) :=
  row_fold_eq t pmem qmem p q e he width.toNat

theorem scan_fold_eq (t : Int) (pmem qmem : Int → Byte) (width linesize y0 e : Int)
    (he : wrap32 e = e) (n : Nat) :
    (List.range n).foldl (fun st _ => scan_row t pmem qmem width linesize st)
        { energy := e, p := y0 * linesize, q := y0 * linesize }
      = { energy := wrap32 (e + rows_sum t pmem qmem width linesize y0 n),
          p := (y0 + n) * linesize, q := (y0 + n) * linesize } := by
  induction n with
  | zero => simp [rows_sum, he]
  | succ n ih =>
    rw [List.range_succ, List.foldl_append, ih]
    simp only [List.foldl_cons, List.foldl_nil, scan_row]
    rw [row_energy_eq _ _ _ _ _ _ _ (wrap32_idem _), wrap32_add_left]
    simp only [rows_sum, List.range_succ, List.map_append, List.sum_append, List.map_cons,
      List.map_nil, List.sum_cons, List.sum_nil, add_zero]
    congr 1
    · rw [add_assoc]
    · push_cast; ring
    · push_cast; ring

theorem rows_sum_append (t : Int) (pmem qmem : Int → Byte) (width linesize y0 : Int) (n m : Nat) :
    rows_sum t pmem qmem width linesize y0 (n + m)
      = rows_sum t pmem qmem width linesize y0 n
        + rows_sum t pmem qmem width linesize (y0 + n) m := by
  induction m with
  | zero => simp [rows_sum]
  | succ m ih =>
    rw [← add_assoc]
    simp only [rows_sum, List.range_succ, List.map_append, List.sum_append, List.map_cons,
      List.map_nil, List.sum_cons, List.sum_nil, add_zero] at ih ⊢
    rw [ih]
    have hc : (y0 + ((n + m : Nat) : Int)) = y0 + (n : Int) + (m : Int) := by push_cast; ring
    rw [hc, add_assoc]

theorem row_sum_nonneg (t : Int) (pmem qmem : Int → Byte) (width p q : Int) :
    0 ≤ row_sum t pmem qmem width p q := by
  unfold row_sum
  apply List.sum_nonneg
  intro v hv
  simp only [List.mem_map] at hv
  obtain ⟨x, _, rfl⟩ := hv
  exact pixel_energy_nonneg _ _ _

theorem rows_sum_nonneg (t : Int) (pmem qmem : Int → Byte) (width linesize y0 : Int) (n : Nat) :
    0 ≤ rows_sum t pmem qmem width linesize y0 n := by
  unfold rows_sum
  apply List.sum_nonneg
  intro v hv
  simp only [List.mem_map] at hv
  obtain ⟨x, _, rfl⟩ := hv
  exact row_sum_nonneg _ _ _ _ _ _


/-- Exact energy of the span of job `j`, as `energy_counter` scans it. -/
theorem energy_counter_eq (cur prev : AVFrame) (s : WildlifeDetectContext) (j N : Int)
    (hp : s.prev_frame = some prev) :
    energy_counter cur s j N
      = { s with
          th_energy := s.th_energy.set j.toNat
            (wrap32 (rows_sum s.noise_threshold (cur.data 0) (prev.data 0) cur.width
              (cur.linesize 0) (span_start cur.height j N)
              (span_end cur.height j N - span_start cur.height j N).toNat)) } := by
  unfold energy_counter
  rw [hp]
  simp only
  rw [scan_fold_eq _ _ _ _ _ _ 0 (by decide)]
  simp

theorem execute_energy_counter_eq (cur prev : AVFrame) (s : WildlifeDetectContext) (N : Int)
    (hp : s.prev_frame = some prev) (k : Nat) :
    (List.range k).foldl (fun acc (j : Nat) => energy_counter cur acc (j : Int) N) s
      = { s with
          th_energy := (List.range k).foldl (fun th (j : Nat) => th.set j
            (wrap32 (rows_sum s.noise_threshold (cur.data 0) (prev.data 0) cur.width
              (cur.linesize 0) (span_start cur.height j N)
              (span_end cur.height j N - span_start cur.height j N).toNat))) s.th_energy } := by
  induction k with
  | zero => simp
  | succ k ih =>
    rw [List.range_succ, List.foldl_append, List.foldl_append, ih]
    simp only [List.foldl_cons, List.foldl_nil]
    rw [energy_counter_eq cur prev _ _ _ (by simpa using hp)]
    simp

theorem getD_fold_set (E : Nat → Int) (l : List Int) (k : Nat) (hk : k ≤ l.length) (i : Nat) :
    ((List.range k).foldl (fun th (j : Nat) => th.set j (E j)) l).getD i 0
      = if i < k then E i else l.getD i 0 := by
  induction k with
  | zero => simp
  | succ k ih =>
    have hlen : ∀ m : Nat, ((List.range m).foldl (fun th (j : Nat) => th.set j (E j)) l).length
        = l.length := by
      intro m
      induction m with
      | zero => simp
      | succ m ihm => rw [List.range_succ, List.foldl_append]; simpa using ihm
    rw [List.range_succ, List.foldl_append]
    simp only [List.foldl_cons, List.foldl_nil]
    have ih' := ih (by omega)
    rw [List.getD_eq_getElem?_getD] at ih' ⊢
    rw [List.getElem?_set]
    by_cases hik : k = i
    · subst hik
      have : k < ((List.range k).foldl (fun th (j : Nat) => th.set j (E j)) l).length := by
        rw [hlen]; omega
      simp [this]
    · simp only [hik, if_false]
      rw [ih']
      by_cases h1 : i < k
      · have : i < k + 1 := by omega
        simp [h1, this]
      · have : ¬ i < k + 1 := by omega
        simp [h1, this]

theorem wrap_fold_sum (g : Nat → Int) (T : Nat) :
    (List.range T).foldl (fun total i => wrap32 (total + g i)) 0
      = wrap32 (((List.range T).map g).sum) := by
  induction T with
  | zero => simp; decide
  | succ T ih =>
    rw [List.range_succ, List.foldl_append, ih, List.map_append, List.sum_append]
    simp [wrap32_add_left]

theorem wrap32_sum_congr (f g : Nat → Int) (n : Nat)
    (h : ∀ i, i < n → wrap32 (f i) = wrap32 (g i)) :
    wrap32 (((List.range n).map f).sum) = wrap32 (((List.range n).map g).sum) := by
  induction n with
  | zero => rfl
  | succ n ih =>
    rw [List.range_succ, List.map_append, List.map_append, List.sum_append, List.sum_append]
    apply wrap32_add_congr
    · exact ih (fun i hi => h i (by omega))
    · simpa using h n (by omega)

theorem sum_range_split (f : Nat → Int) (N d : Nat) (h : ∀ i, N ≤ i → f i = 0) :
    ((List.range (N + d)).map f).sum = ((List.range N).map f).sum := by
  induction d with
  | zero => rfl
  | succ d ih =>
    rw [← add_assoc, List.range_succ, List.map_append, List.sum_append, ih]
    simp [h (N + d) (by omega)]

theorem spans_telescope (t : Int) (pmem qmem : Int → Byte) (W ls H N : Int)
    (hH : 0 ≤ H) (hN : 1 ≤ N) (k : Nat) (hfit : H * (k : Int) ≤ INT32_MAX) :
    ((List.range k).map (fun j : Nat => rows_sum t pmem qmem W ls (span_start H j N)
        (span_end H j N - span_start H j N).toNat)).sum
      = rows_sum t pmem qmem W ls 0 (span_start H k N).toNat := by
  induction k with
  | zero => simp [span_start_zero, rows_sum]
  | succ k ih =>
    have hc : (((k + 1 : Nat) : Int)) = (k : Int) + 1 := by push_cast; ring
    rw [hc] at hfit
    have hfitk : H * (k : Int) ≤ INT32_MAX := span_fit_of_le hH (by omega) hfit
    rw [List.range_succ, List.map_append, List.sum_append, ih hfitk]
    simp only [List.map_cons, List.map_nil, List.sum_cons, List.sum_nil, add_zero]
    have h0 : 0 ≤ span_start H k N := span_start_nonneg hH hN (by omega) hfitk
    have h1 : span_start H k N ≤ span_start H ((k : Int) + 1) N :=
      span_start_mono hH hN (by omega) (by omega) hfit
    rw [span_end_eq_start_succ, hc]
    have hsplit : (span_start H ((k : Int) + 1) N).toNat
        = (span_start H k N).toNat
          + (span_start H ((k : Int) + 1) N - span_start H k N).toNat := by omega
    rw [hsplit, rows_sum_append]
    congr 2
    omega

theorem rows_sum_eq_spec (cur prev : AVFrame) (t : Int) (hls : prev.linesize 0 = cur.linesize 0) :
    rows_sum t (cur.data 0) (prev.data 0) cur.width (cur.linesize 0) 0 cur.height.toNat
      = energy_spec cur prev cur.width cur.height t := by
  simp [rows_sum, row_sum, energy_spec, luma, hls]

/-- The total that `filter_frame` reads back after the fan-out, for any number of
slots `T >= N` whose slots from `N` on hold zero: the sum of the exact partial
sums of the `N` jobs, each over the span the job computes, reduced to 32 bits. -/
theorem sum_energy_execute_jobs (cur prev : AVFrame) (s : WildlifeDetectContext) (N : Int)
    (hp : s.prev_frame = some prev)
    (hT : N ≤ s.nb_threads) (hlen : s.th_energy.length = s.nb_threads.toNat)
    (hz : ∀ i : Nat, N.toNat ≤ i → s.th_energy.getD i 0 = 0) :
    sum_energy (execute (energy_counter cur) s N)
      = wrap32 (((List.range N.toNat).map (fun j : Nat =>
          rows_sum s.noise_threshold (cur.data 0) (prev.data 0) cur.width (cur.linesize 0)
            (span_start cur.height j N)
            (span_end cur.height j N - span_start cur.height j N).toNat)).sum) := by
  unfold execute sum_energy
  rw [execute_energy_counter_eq cur prev s N hp]
  simp only
  rw [wrap_fold_sum]
  have hsplit : s.nb_threads.toNat = N.toNat + (s.nb_threads.toNat - N.toNat) := by omega
  have hget : ∀ i : Nat, (List.foldl (fun th (j : Nat) => th.set j
        (wrap32 (rows_sum s.noise_threshold (cur.data 0) (prev.data 0) cur.width
          (cur.linesize 0) (span_start cur.height j N)
          (span_end cur.height j N - span_start cur.height j N).toNat))) s.th_energy
        (List.range N.toNat)).getD i 0
      = if i < N.toNat then wrap32 (rows_sum s.noise_threshold (cur.data 0) (prev.data 0)
          cur.width (cur.linesize 0) (span_start cur.height i N)
          (span_end cur.height i N - span_start cur.height i N).toNat)
        else s.th_energy.getD i 0 := by
    intro i
    exact getD_fold_set _ _ _ (by omega) i
  rw [hsplit, sum_range_split _ _ _ (fun i hi => by rw [hget i, if_neg (Nat.not_lt.mpr hi)]; exact hz i hi)]
  rw [wrap32_sum_congr _ (fun j : Nat => rows_sum s.noise_threshold (cur.data 0) (prev.data 0)
      cur.width (cur.linesize 0) (span_start cur.height j N)
      (span_end cur.height j N - span_start cur.height j N).toNat) _
    (fun i hi => by rw [hget i, if_pos hi]; exact wrap32_idem _)]

/-- The total that `filter_frame` reads back after the fan-out when the span
products fit 32 bits (`height * N <= INT32_MAX`): the exact sum over the rows
`[0, H)`, both planes addressed with the stride of the current frame, reduced to
32 bits. -/
theorem sum_energy_execute (cur prev : AVFrame) (s : WildlifeDetectContext) (N : Int)
    (hp : s.prev_frame = some prev) (hH : 0 ≤ cur.height) (hN : 1 ≤ N)
    (hfit : cur.height * N ≤ INT32_MAX)
    (hT : N ≤ s.nb_threads) (hlen : s.th_energy.length = s.nb_threads.toNat)
    (hz : ∀ i : Nat, N.toNat ≤ i → s.th_energy.getD i 0 = 0) :
    sum_energy (execute (energy_counter cur) s N)
      = wrap32 (rows_sum s.noise_threshold (cur.data 0) (prev.data 0) cur.width
          (cur.linesize 0) 0 cur.height.toNat) := by
  have hc : ((N.toNat : Nat) : Int) = N := by omega
  rw [sum_energy_execute_jobs cur prev s N hp hT hlen hz,
    spans_telescope _ _ _ _ _ _ _ hH hN _ (by rw [hc]; exact hfit), hc,
    span_start_last hH hN hfit]


/-! ## The retention state machine -/

theorem execute_energy_counter_fields (cur : AVFrame) (s : WildlifeDetectContext) (N : Int) :
    (execute (energy_counter cur) s N).nb_threads = s.nb_threads ∧
    (execute (energy_counter cur) s N).prev_frame = s.prev_frame ∧
    (execute (energy_counter cur) s N).energy_threshold = s.energy_threshold ∧
    (execute (energy_counter cur) s N).noise_threshold = s.noise_threshold ∧
    (execute (energy_counter cur) s N).min_frames = s.min_frames ∧
    (execute (energy_counter cur) s N).rem_frames = s.rem_frames := by
  cases hp : s.prev_frame with
  | none =>
    have h : ∀ k : Nat,
        (List.range k).foldl (fun acc (j : Nat) => energy_counter cur acc (j : Int) N) s = s := by
      intro k
      induction k with
      | zero => rfl
      | succ k ih =>
        rw [List.range_succ, List.foldl_append, ih]
        simp [energy_counter, hp]
    unfold execute
    rw [h]
    simp [hp]
  | some prev =>
    unfold execute
    rw [execute_energy_counter_eq cur prev s N hp]
    simp [hp]

/-- The first call on a stream: nothing but the previous-frame slot changes. -/
theorem filter_frame_first (env : Env) (h : Int) (s : WildlifeDetectContext) (cur : AVFrame)
    (hp : s.prev_frame = none) :
    filter_frame env h s cur
      = { ctx := { s with prev_frame := env.av_frame_clone cur },
          ret := 0, forwarded := none, freed := [cur],
          cur_meta := cur.metadata, start_tag := false, end_tag := false,
          total_energy := 0 } := by
  unfold filter_frame
  rw [hp]

/-- Every later call: the decision of `filter_frame` is `countdown_step` of the
total energy it computed, and the options are left alone. -/
theorem filter_frame_decision (env : Env) (h : Int) (s : WildlifeDetectContext) (cur : AVFrame)
    (old : AVFrame) (hp : s.prev_frame = some old) :
    (filter_frame env h s cur).decision
        = countdown_step s.energy_threshold s.min_frames s.rem_frames
            (filter_frame env h s cur).total_energy ∧
    (filter_frame env h s cur).total_energy
        = sum_energy (execute (energy_counter cur) s (FFMIN h s.nb_threads)) ∧
    (filter_frame env h s cur).ctx.energy_threshold = s.energy_threshold ∧
    (filter_frame env h s cur).ctx.min_frames = s.min_frames ∧
    (filter_frame env h s cur).ctx.nb_threads = s.nb_threads ∧
    (filter_frame env h s cur).ctx.noise_threshold = s.noise_threshold := by
  obtain ⟨h1, h2, h3, h4, h5, h6⟩ :=
    execute_energy_counter_fields cur s (FFMIN h s.nb_threads)
  unfold filter_frame
  rw [hp]
  simp only [h3, h5, h6, Outcome.decision, countdown_step]
  split_ifs <;> simp_all


/-- The metadata of the incoming frame at the end of a later call, the frame that
is forwarded and the frame that becomes the previous frame. -/
theorem filter_frame_meta (env : Env) (h : Int) (s : WildlifeDetectContext) (cur : AVFrame)
    (old : AVFrame) (hp : s.prev_frame = some old) :
    (filter_frame env h s cur).cur_meta
        = (fun m2 => if (filter_frame env h s cur).end_tag
              then av_dict_set m2 "lavfi.wildlifedetect.end" (env.av_ts2timestr cur.pts)
              else m2)
            ((fun m1 => if (filter_frame env h s cur).start_tag
              then av_dict_set m1 "lavfi.wildlifedetect.start" (env.av_ts2timestr cur.pts)
              else m1)
            (av_dict_set_int cur.metadata "lavfi.wildlifedetect.energy"
              (filter_frame env h s cur).total_energy)) ∧
    (filter_frame env h s cur).forwarded
        = (if (filter_frame env h s cur).forwarded.isSome
            then some { cur with metadata := (filter_frame env h s cur).cur_meta } else none) ∧
    (filter_frame env h s cur).ctx.prev_frame
        = env.av_frame_clone { cur with
            metadata := (fun m1 => if (filter_frame env h s cur).start_tag
                then av_dict_set m1 "lavfi.wildlifedetect.start" (env.av_ts2timestr cur.pts)
                else m1)
              (av_dict_set_int cur.metadata "lavfi.wildlifedetect.energy"
                (filter_frame env h s cur).total_energy) } := by
  unfold filter_frame
  rw [hp]
  simp only
  split_ifs <;> simp_all

theorem run_decisions (env : Env) (h : Int)
    (hclone : ∀ f, (env.av_frame_clone f).isSome = true) :
    ∀ (fs : List AVFrame) (s : WildlifeDetectContext), s.prev_frame.isSome = true →
      (run env h s fs).map Outcome.decision
        = countdown_run s.energy_threshold s.min_frames s.rem_frames
            ((run env h s fs).map (fun r => r.total_energy)) := by
  intro fs
  induction fs with
  | nil => intro s _; rfl
  | cons f fs ih =>
    intro s hs
    obtain ⟨old, hp⟩ := Option.isSome_iff_exists.mp hs
    obtain ⟨hd, _, hthr, hmin, _, _⟩ := filter_frame_decision env h s f old hp
    obtain ⟨_, _, hprev⟩ := filter_frame_meta env h s f old hp
    have hs' : (filter_frame env h s f).ctx.prev_frame.isSome = true := by
      rw [hprev]; exact hclone _
    have ih' := ih (filter_frame env h s f).ctx hs'
    have hrem : (filter_frame env h s f).ctx.rem_frames
        = (countdown_step s.energy_threshold s.min_frames s.rem_frames
            (filter_frame env h s f).total_energy).rem_frames :=
      congrArg Decision.rem_frames hd
    rw [hthr, hmin, hrem] at ih'
    simp only [run, List.map_cons, countdown_run]
    rw [ih', hd]

theorem countdown_run_below (thr mf : Int) :
    ∀ (c : Nat) (es : List Int), es.length = c + 1 → (∀ e ∈ es, e < thr) →
      countdown_run thr mf c es
        = ((List.range c).reverse.map (fun i : Nat =>
            ({ rem_frames := (i : Int), forwarded := true, start_tag := false,
               end_tag := false } : Decision)))
          ++ [{ rem_frames := -1, forwarded := false, start_tag := false, end_tag := true }] := by
  intro c
  induction c with
  | zero =>
    intro es hlen hlt
    match es, hlen with
    | [e], _ =>
      have he : ¬ thr ≤ e := by have := hlt e (by simp); omega
      simp [countdown_run, countdown_step, he]
  | succ c ih =>
    intro es hlen hlt
    match es, hlen with
    | e :: es', hlen' =>
      have he : ¬ thr ≤ e := by have := hlt e (by simp); omega
      have hl : es'.length = c + 1 := by simpa using hlen'
      have ih' := ih es' hl (fun e' he' => hlt e' (by simp [he']))
      have hpos : (0 : Int) < ((c + 1 : Nat) : Int) := by omega
      have hstep : countdown_step thr mf ((c + 1 : Nat) : Int) e
          = { rem_frames := (c : Int), forwarded := true, start_tag := false,
              end_tag := false } := by
        simp only [countdown_step, ge_iff_le, he, decide_False, Bool.false_eq_true, if_false,
          gt_iff_lt, hpos, if_true]
        congr 1
        push_cast
        ring
      rw [countdown_run, hstep]
      simp only
      rw [ih', List.range_succ, List.reverse_append]
      simp

theorem countdown_run_window (thr rem0 e0 : Int) (m : Nat) (es : List Int)
    (he0 : thr ≤ e0) (hlen : es.length = m) (hlt : ∀ e ∈ es, e < thr) :
    (countdown_run thr m rem0 (e0 :: es)).map (fun d => d.forwarded)
        = List.replicate m true ++ [false] ∧
    (countdown_run thr m rem0 (e0 :: es)).map (fun d => d.rem_frames)
        = (List.range m).reverse.map (fun i : Nat => (i : Int)) ++ [-1] ∧
    (countdown_run thr m rem0 (e0 :: es)).map (fun d => d.start_tag)
        = true :: List.replicate m false ∧
    (countdown_run thr m rem0 (e0 :: es)).map (fun d => d.end_tag)
        = List.replicate m false ++ [true] := by
  cases m with
  | zero =>
    have : es = [] := List.length_eq_zero.mp hlen
    subst this
    simp [countdown_run, countdown_step, he0]
  | succ k =>
    have hpos : (0 : Int) < ((k + 1 : Nat) : Int) := by omega
    have hstep : countdown_step thr ((k + 1 : Nat) : Int) rem0 e0
        = { rem_frames := (k : Int), forwarded := true, start_tag := true,
            end_tag := false } := by
      simp only [countdown_step, ge_iff_le, he0, decide_True, if_true, gt_iff_lt, hpos]
      congr 1
      push_cast
      ring
    rw [countdown_run, hstep]
    simp only
    rw [countdown_run_below thr _ k es hlen hlt]
    simp only [List.map_cons, List.map_append, List.map_map, List.map_nil]
    refine ⟨?_, ?_, ?_, ?_⟩
    · simp [List.replicate_succ, Function.comp_def]
    · rw [List.range_succ, List.reverse_append]
      simp [Function.comp_def]
    · simp [List.replicate_succ', Function.comp_def]
    · simp [List.replicate_succ, Function.comp_def]


theorem energy_spec_nonneg (cur prev : AVFrame) (W H t : Int) : 0 ≤ energy_spec cur prev W H t := by
  unfold energy_spec
  apply List.sum_nonneg
  intro v hv
  simp only [List.mem_map] at hv
  obtain ⟨y, _, rfl⟩ := hv
  apply List.sum_nonneg
  intro v hv
  simp only [List.mem_map] at hv
  obtain ⟨x, _, rfl⟩ := hv
  exact pixel_energy_nonneg _ _ _

theorem energy_spec_const (w h ls ls' t : Int) (a b : Byte) :
    energy_spec (const_frame w h ls a) (const_frame w h ls' b) w h t
      = h.toNat * (w.toNat * pixel_energy t a b) := by
  simp [energy_spec, luma, const_frame]

theorem rows_sum_const (t : Int) (a b : Byte) (W ls y0 : Int) (n : Nat) :
    rows_sum t (fun _ => a) (fun _ => b) W ls y0 n = n * (W.toNat * pixel_energy t a b) := by
  simp [rows_sum, row_sum]

/-- The total for a 1x65536 pair that differs by 20 everywhere, computed with 32768
jobs: the product `height * (jobnr + 1)` of the last job is `2^31`, its span is
`[65534, -65536)`, so the rows 65534 and 65535 are never scanned and the total
is `20 * 65534`. -/
theorem sum_energy_last_span_lost :
    sum_energy (execute (energy_counter (const_frame 1 65536 1 20))
      (ready_context 32768 (const_frame 1 65536 1 0) 10000 15 5 (-1)) 32768) = 1310680 := by
  rw [sum_energy_execute_jobs (const_frame 1 65536 1 20) (const_frame 1 65536 1 0)
    (ready_context 32768 (const_frame 1 65536 1 0) 10000 15 5 (-1)) 32768 rfl (le_refl _)
    (List.length_replicate _ _)
    (fun i hi => List.getD_eq_default _ _ (by
      show (List.replicate (32768 : Int).toNat (0 : Int)).length ≤ i
      rw [List.length_replicate]
      exact hi))]
  have hsplit : (32768 : Int).toNat = 32767 + 1 := rfl
  rw [hsplit, List.range_succ, List.map_append, List.sum_append]
  have htel := spans_telescope 15 (fun _ => (20 : Byte)) (fun _ => (0 : Byte)) 1 1 65536 32768
    (by decide) (by decide) 32767 (by decide)
  have hstart : span_start 65536 ((32767 : Nat) : Int) 32768 = 65534 := by decide
  have hend : span_end 65536 ((32767 : Nat) : Int) 32768 = -65536 := by decide
  rw [hstart, rows_sum_const] at htel
  have hlast : rows_sum 15 (fun _ => (20 : Byte)) (fun _ => (0 : Byte)) 1 1
      (span_start 65536 ((32767 : Nat) : Int) 32768)
      (span_end 65536 ((32767 : Nat) : Int) 32768
        - span_start 65536 ((32767 : Nat) : Int) 32768).toNat = 0 := by
    rw [hstart, hend]
    rfl
  show wrap32 (((List.range 32767).map (fun j : Nat =>
      rows_sum 15 (fun _ => (20 : Byte)) (fun _ => (0 : Byte)) 1 1 (span_start 65536 j 32768)
        (span_end 65536 j 32768 - span_start 65536 j 32768).toNat)).sum
    + ([32767].map (fun j : Nat =>
      rows_sum 15 (fun _ => (20 : Byte)) (fun _ => (0 : Byte)) 1 1 (span_start 65536 j 32768)
        (span_end 65536 j 32768 - span_start 65536 j 32768).toNat)).sum) = 1310680
  rw [htel]
  simp only [List.map_cons, List.map_nil, List.sum_cons, List.sum_nil, add_zero]
  rw [hlast]
  decide

/-- C2 (amended): for every frame pair, noise threshold and job count
`1 <= N <= H` with `H * N <= 2^31 - 1`, running `energy_counter` for the jobs
`0 .. N-1` and summing the `N` accumulator slots gives the total obtained with a
single job; when the previous frame has the luma stride of the current frame
and the exact energy of the pair (the sum over all pixels of the absolute luma
difference, restricted to differences at or above the noise threshold) fits a
signed 32-bit `int`, that total is the exact energy, and it is the total
`filter_frame` computes. -/
theorem energy_total_job_invariant (env : Env) (cur prev : AVFrame) (s : WildlifeDetectContext)
    (N : Int) (hp : s.prev_frame = some prev) (hN : 1 ≤ N) (hNH : N ≤ cur.height)
    (hspan : cur.height * N ≤ INT32_MAX)
    (hT : s.nb_threads = N) (hlen : s.th_energy.length = N.toNat) :
    sum_energy (execute (energy_counter cur) s N)
        = sum_energy (execute (energy_counter cur)
            { s with nb_threads := 1, th_energy := [0] } 1) ∧
    (prev.linesize 0 = cur.linesize 0 →
      energy_spec cur prev cur.width cur.height s.noise_threshold ≤ INT32_MAX →
      sum_energy (execute (energy_counter cur) s N)
          = energy_spec cur prev cur.width cur.height s.noise_threshold ∧
      (filter_frame env cur.height s cur).total_energy
          = energy_spec cur prev cur.width cur.height s.noise_threshold) := by
  have hH : 0 ≤ cur.height := by omega
  have hN' := sum_energy_execute cur prev s N hp hH hN hspan (by omega) (by rw [hlen, hT])
    (fun i hi => List.getD_eq_default _ _ (by omega))
  have h1 := sum_energy_execute cur prev { s with nb_threads := 1, th_energy := [0] } 1 hp hH
    (le_refl 1) (span_fit_of_le hH hN hspan) (le_refl 1) rfl
    (fun i hi => List.getD_eq_default _ _ (by simpa using hi))
  refine ⟨by rw [hN', h1], ?_⟩
  intro hls hfit
  have h0 := energy_spec_nonneg cur prev cur.width cur.height s.noise_threshold
  rw [rows_sum_eq_spec cur prev _ hls, wrap32_of_range (by omega) hfit] at hN'
  refine ⟨hN', ?_⟩
  have hmin : FFMIN cur.height s.nb_threads = N := by
    unfold FFMIN
    split <;> omega
  rw [(filter_frame_decision env cur.height s cur prev hp).2.1, hmin, hN']

set_option maxRecDepth 100000 in
/-- Witness for C2: a frame pair of width 2 and height 100, three jobs. -/
theorem energy_total_job_invariant_witness :
    ((const_frame 2 100 2 20).height * 3 ≤ INT32_MAX ∧
      (ramp_frame 2 100 2).linesize 0 = (const_frame 2 100 2 20).linesize 0 ∧
      energy_spec (const_frame 2 100 2 20) (ramp_frame 2 100 2) 2 100 15 ≤ INT32_MAX) ∧
    sum_energy (execute (energy_counter (const_frame 2 100 2 20))
        (ready_context 3 (ramp_frame 2 100 2) 10000 15 5 (-1)) 3)
      = sum_energy (execute (energy_counter (const_frame 2 100 2 20))
          { ready_context 3 (ramp_frame 2 100 2) 10000 15 5 (-1) with
            nb_threads := 1, th_energy := [0] } 1) ∧
    sum_energy (execute (energy_counter (const_frame 2 100 2 20))
        (ready_context 3 (ramp_frame 2 100 2) 10000 15 5 (-1)) 3)
      = energy_spec (const_frame 2 100 2 20) (ramp_frame 2 100 2) 2 100 15 :=
  ⟨⟨by decide, rfl, by decide⟩,
   (energy_total_job_invariant plain_env (const_frame 2 100 2 20) (ramp_frame 2 100 2)
      (ready_context 3 (ramp_frame 2 100 2) 10000 15 5 (-1)) 3 rfl (by decide) (by decide)
      (by decide) rfl rfl).1,
   ((energy_total_job_invariant plain_env (const_frame 2 100 2 20) (ramp_frame 2 100 2)
      (ready_context 3 (ramp_frame 2 100 2) 10000 15 5 (-1)) 3 rfl (by decide) (by decide)
      (by decide) rfl rfl).2 rfl (by decide)).1⟩

/-- C2 as stated fails on three inputs.  With a previous frame of stride 2 against a
current frame of stride 1 the kernel reads the padding byte of the previous
frame (total 9, exact energy 0).  With a 4096x2160 pair that differs by 255
everywhere the exact energy 2256076800 does not fit the 32-bit accumulator.
With a 1x65536 pair that differs by 20 everywhere and 32768 jobs the product
`height * (jobnr + 1)` of the last job overflows, its two rows are skipped, and
the total 1310680 is neither the total 1310720 of a single job nor the exact
energy. -/
theorem energy_total_counterexample :
    (sum_energy (execute (energy_counter (const_frame 1 2 1 0))
        (ready_context 1 padded_frame 10000 5 5 (-1)) 1) = 9 ∧
      energy_spec (const_frame 1 2 1 0) padded_frame 1 2 5 = 0) ∧
    (sum_energy (execute (energy_counter (const_frame 4096 2160 4096 255))
        (ready_context 1 (const_frame 4096 2160 4096 0) 10000 15 5 (-1)) 1) = -2038890496 ∧
      energy_spec (const_frame 4096 2160 4096 255) (const_frame 4096 2160 4096 0) 4096 2160 15
        = 2256076800) ∧
    (((1 : Int) ≤ 32768 ∧ (32768 : Int) ≤ (const_frame 1 65536 1 20).height) ∧
      sum_energy (execute (energy_counter (const_frame 1 65536 1 20))
        (ready_context 32768 (const_frame 1 65536 1 0) 10000 15 5 (-1)) 32768) = 1310680 ∧
      sum_energy (execute (energy_counter (const_frame 1 65536 1 20))
        { ready_context 32768 (const_frame 1 65536 1 0) 10000 15 5 (-1) with
          nb_threads := 1, th_energy := [0] } 1) = 1310720 ∧
      energy_spec (const_frame 1 65536 1 20) (const_frame 1 65536 1 0) 1 65536 15
        = 1310720) := by
  have hspec : energy_spec (const_frame 4096 2160 4096 255) (const_frame 4096 2160 4096 0)
      4096 2160 15 = 2256076800 := by
    rw [energy_spec_const]
    decide
  have hspec2 : energy_spec (const_frame 1 65536 1 20) (const_frame 1 65536 1 0)
      1 65536 15 = 1310720 := by
    rw [energy_spec_const]
    decide
  refine ⟨⟨by decide, by decide⟩, ⟨?_, hspec⟩, ⟨by decide, sum_energy_last_span_lost, ?_, hspec2⟩⟩
  · have h := sum_energy_execute (const_frame 4096 2160 4096 255) (const_frame 4096 2160 4096 0)
      (ready_context 1 (const_frame 4096 2160 4096 0) 10000 15 5 (-1)) 1 rfl (by decide)
      (by decide) (by decide) (by decide) rfl
      (fun i hi => List.getD_eq_default _ _ (by simpa using hi))
    rw [rows_sum_eq_spec (const_frame 4096 2160 4096 255) (const_frame 4096 2160 4096 0) _ rfl] at h
    rw [h]
    show wrap32 (energy_spec (const_frame 4096 2160 4096 255) (const_frame 4096 2160 4096 0)
      4096 2160 15) = _
    rw [hspec]
    decide
  · have h := sum_energy_execute (const_frame 1 65536 1 20) (const_frame 1 65536 1 0)
      { ready_context 32768 (const_frame 1 65536 1 0) 10000 15 5 (-1) with
        nb_threads := 1, th_energy := [0] } 1 rfl (by decide)
      (by decide) (by decide) (by decide) rfl
      (fun i hi => List.getD_eq_default _ _ (by simpa using hi))
    rw [rows_sum_eq_spec (const_frame 1 65536 1 20) (const_frame 1 65536 1 0) _ rfl] at h
    rw [h]
    show wrap32 (energy_spec (const_frame 1 65536 1 20) (const_frame 1 65536 1 0)
      1 65536 15) = _
    rw [hspec2]
    decide

/-- C3: in the inner loop of `energy_counter`, a sample pair whose absolute
difference `d` is at least the noise threshold `t` adds `d` to the 32-bit
accumulator and any other pair leaves it unchanged; so a pair differing by
exactly `t - 1` adds nothing and a pair differing by exactly `t` adds `t`.
The addition is exact whenever the accumulator stays within `[0, INT32_MAX]`. -/
theorem noise_threshold_contribution (t : Int) (pmem qmem : Int → Byte) (p q e : Int) (x : Nat) :
    (t ≤ Int.natAbs (((pmem (p + x)).val : Int) - (qmem (q + x)).val) →
      pixel_step t pmem qmem p q e x
        = wrap32 (e + Int.natAbs (((pmem (p + x)).val : Int) - (qmem (q + x)).val))) ∧
    ((Int.natAbs (((pmem (p + x)).val : Int) - (qmem (q + x)).val) : Int) < t →
      pixel_step t pmem qmem p q e x = e) ∧
    ((Int.natAbs (((pmem (p + x)).val : Int) - (qmem (q + x)).val) : Int) = t - 1 →
      pixel_step t pmem qmem p q e x = e) ∧
    ((Int.natAbs (((pmem (p + x)).val : Int) - (qmem (q + x)).val) : Int) = t →
      pixel_step t pmem qmem p q e x = wrap32 (e + t)) ∧
    (0 ≤ e →
      e + Int.natAbs (((pmem (p + x)).val : Int) - (qmem (q + x)).val) ≤ INT32_MAX →
      wrap32 (e + Int.natAbs (((pmem (p + x)).val : Int) - (qmem (q + x)).val))
        = e + Int.natAbs (((pmem (p + x)).val : Int) - (qmem (q + x)).val)) := by
  refine ⟨?_, ?_, ?_, ?_, ?_⟩
  · intro h
    simp only [pixel_step]
    rw [if_pos h]
  · intro h
    simp only [pixel_step]
    rw [if_neg (by omega)]
  · intro h
    simp only [pixel_step]
    rw [if_neg (by omega)]
  · intro h
    simp only [pixel_step]
    rw [if_pos (by omega), h]
  · intro h0 h1
    exact wrap32_of_range (by omega) h1

end WildlifeDetect

namespace WildlifeFmt

/-! ## The conversion kernel -/

theorem copy_row_fold_apply (src_mem : Int → Byte) (p q : Int) (m : Int → Byte) (n : Nat)
    (off : Int) :
    ((List.range n).foldl
        (fun m (x : Nat) => Function.update m (q + (x : Int)) (src_mem (p + (x : Int) * 2))) m) off
      = if q ≤ off ∧ off < q + n then src_mem (p + (off - q) * 2) else m off := by
  induction n with
  | zero =>
    have : ¬ (q ≤ off ∧ off < q + ((0 : Nat) : Int)) := by omega
    rw [if_neg this]
    rfl
  | succ n ih =>
    rw [List.range_succ, List.foldl_append]
    simp only [List.foldl_cons, List.foldl_nil, Function.update_apply]
    by_cases h : off = q + n
    · have h2 : q ≤ off ∧ off < q + ((n + 1 : Nat) : Int) := by omega
      have h3 : off - q = n := by omega
      rw [if_pos h, if_pos h2, h3]
    · rw [if_neg h, ih]
      by_cases h2 : q ≤ off ∧ off < q + (n : Int)
      · have h3 : q ≤ off ∧ off < q + ((n + 1 : Nat) : Int) := by omega
        rw [if_pos h2, if_pos h3]
      · have h3 : ¬ (q ≤ off ∧ off < q + ((n + 1 : Nat) : Int)) := by omega
        rw [if_neg h2, if_neg h3]

theorem copy_row_apply (src_mem : Int → Byte) (p width : Int) (m : Int → Byte) (q off : Int) :
    copy_row src_mem p width m q off
      = if q ≤ off ∧ off < q + width.toNat then src_mem (p + (off - q) * 2) else m off :=
  copy_row_fold_apply src_mem p q m width.toNat off

theorem row_offset_iff {dls W x y r : Int} (hx0 : 0 ≤ x) (hx : x < W) (hW : W ≤ dls) :
    (r * dls ≤ y * dls + x ∧ y * dls + x < r * dls + W.toNat) ↔ y = r := by
  constructor
  · rintro ⟨h1, h2⟩
    by_contra hne
    rcases lt_or_gt_of_ne hne with h | h
    · have : (y + 1) * dls ≤ r * dls := by nlinarith
      nlinarith
    · have : (r + 1) * dls ≤ y * dls := by nlinarith
      have : ((W.toNat : Nat) : Int) = W := by omega
      nlinarith
  · rintro rfl
    omega

theorem copy_fold_spec (src_mem : Int → Byte) (W sls dls y0 : Int) (m : Int → Byte) (n : Nat) :
    ((List.range n).foldl (fun st (_ : Nat) => copy_step src_mem W sls dls st)
        { mem := m, p := y0 * sls, q := y0 * dls }).p = (y0 + n) * sls ∧
    ((List.range n).foldl (fun st (_ : Nat) => copy_step src_mem W sls dls st)
        { mem := m, p := y0 * sls, q := y0 * dls }).q = (y0 + n) * dls ∧
    ∀ x y : Int, 0 ≤ x → x < W → W ≤ dls →
      ((List.range n).foldl (fun st (_ : Nat) => copy_step src_mem W sls dls st)
        { mem := m, p := y0 * sls, q := y0 * dls }).mem (y * dls + x)
        = if y0 ≤ y ∧ y < y0 + n then src_mem (y * sls + x * 2) else m (y * dls + x) := by
  induction n with
  | zero =>
    refine ⟨by simp, by simp, ?_⟩
    intro x y _ _ _
    have : ¬ (y0 ≤ y ∧ y < y0 + ((0 : Nat) : Int)) := by omega
    rw [if_neg this]
    rfl
  | succ n ih =>
    obtain ⟨ihp, ihq, ihm⟩ := ih
    rw [List.range_succ, List.foldl_append, List.foldl_cons, List.foldl_nil]
    generalize (List.range n).foldl (fun st (_ : Nat) => copy_step src_mem W sls dls st)
      { mem := m, p := y0 * sls, q := y0 * dls } = st at ihp ihq ihm ⊢
    simp only [copy_step]
    refine ⟨by rw [ihp]; push_cast; ring, by rw [ihq]; push_cast; ring, ?_⟩
    intro x y hx0 hx hW
    rw [copy_row_apply, ihp, ihq, ihm x y hx0 hx hW]
    by_cases hy : y = y0 + n
    · have h1 : (y0 + n) * dls ≤ y * dls + x ∧ y * dls + x < (y0 + n) * dls + W.toNat :=
        (row_offset_iff hx0 hx hW).mpr hy
      have h2 : y0 ≤ y ∧ y < y0 + ((n + 1 : Nat) : Int) := by omega
      rw [if_pos h1, if_pos h2]
      subst hy
      congr 1
      ring
    · have h1 : ¬ ((y0 + n) * dls ≤ y * dls + x ∧ y * dls + x < (y0 + n) * dls + W.toNat) :=
        fun h => hy ((row_offset_iff hx0 hx hW).mp h)
      rw [if_neg h1]
      by_cases h2 : y0 ≤ y ∧ y < y0 + (n : Int)
      · have h3 : y0 ≤ y ∧ y < y0 + ((n + 1 : Nat) : Int) := by omega
        rw [if_pos h2, if_pos h3]
      · have h3 : ¬ (y0 ≤ y ∧ y < y0 + ((n + 1 : Nat) : Int)) := by omega
        rw [if_neg h2, if_neg h3]

theorem format_converter_src (frames : WildlifeFmtFrames) (j N : Int) :
    (format_converter frames j N).src = frames.src := rfl

theorem format_converter_linesize (frames : WildlifeFmtFrames) (j N : Int) :
    (format_converter frames j N).dst.linesize = frames.dst.linesize := rfl

theorem format_converter_luma (frames : WildlifeFmtFrames) (j N : Int)
    (x y : Int) (hx0 : 0 ≤ x) (hx : x < frames.src.width)
    (hW : frames.src.width ≤ frames.dst.linesize 0) :
    (format_converter frames j N).dst.data 0 (y * frames.dst.linesize 0 + x)
      = if span_start frames.src.height j N ≤ y ∧ y < span_end frames.src.height j N
        then packed_luma frames.src y x
        else frames.dst.data 0 (y * frames.dst.linesize 0 + x) := by
  have h := (copy_fold_spec (frames.src.data 0) frames.src.width (frames.src.linesize 0)
    (frames.dst.linesize 0) (span_start frames.src.height j N) (frames.dst.data 0)
    (span_end frames.src.height j N - span_start frames.src.height j N).toNat).2.2 x y hx0 hx hW
  have hiff : (span_start frames.src.height j N ≤ y ∧ y < span_start frames.src.height j N
      + ((span_end frames.src.height j N - span_start frames.src.height j N).toNat : Int))
      ↔ (span_start frames.src.height j N ≤ y ∧ y < span_end frames.src.height j N) := by
    omega
  simp only [hiff] at h
  simp only [format_converter, if_true]
  exact h

theorem execute_format_converter (frames : WildlifeFmtFrames) (N : Int)
    (hH : 0 ≤ frames.src.height) (hN : 1 ≤ N)
    (hW : frames.src.width ≤ frames.dst.linesize 0) (k : Nat)
    (hfit : frames.src.height * (k : Int) ≤ INT32_MAX) :
    ((List.range k).foldl (fun acc (j : Nat) => format_converter acc (j : Int) N) frames).src
        = frames.src ∧
    ((List.range k).foldl (fun acc (j : Nat) => format_converter acc (j : Int) N)
        frames).dst.linesize = frames.dst.linesize ∧
    ∀ x y : Int, 0 ≤ x → x < frames.src.width →
      ((List.range k).foldl (fun acc (j : Nat) => format_converter acc (j : Int) N)
          frames).dst.data 0 (y * frames.dst.linesize 0 + x)
        = if 0 ≤ y ∧ y < span_start frames.src.height k N
          then packed_luma frames.src y x
          else frames.dst.data 0 (y * frames.dst.linesize 0 + x) := by
  induction k with
  | zero =>
    refine ⟨rfl, rfl, ?_⟩
    intro x y _ _
    have : ¬ (0 ≤ y ∧ y < span_start frames.src.height ((0 : Nat) : Int) N) := by
      simp [span_start_zero]
    rw [if_neg this]
    rfl
  | succ k ih =>
    have hk1 : (((k + 1 : Nat) : Int)) = (k : Int) + 1 := by push_cast; ring
    rw [hk1] at hfit
    have hfitk : frames.src.height * (k : Int) ≤ INT32_MAX :=
      span_fit_of_le hH (by omega) hfit
    obtain ⟨ihs, ihl, ihd⟩ := ih hfitk
    rw [List.range_succ, List.foldl_append]
    simp only [List.foldl_cons, List.foldl_nil]
    refine ⟨by rw [format_converter_src, ihs], by rw [format_converter_linesize, ihl], ?_⟩
    intro x y hx0 hx
    have h := format_converter_luma
      ((List.range k).foldl (fun acc (j : Nat) => format_converter acc (j : Int) N) frames)
      (k : Int) N x y hx0 (by rw [ihs]; exact hx)
      (by rw [ihs, ihl]; exact hW)
    rw [ihl, ihs] at h
    rw [h, ihd x y hx0 hx]
    have h0 : 0 ≤ span_start frames.src.height k N :=
      span_start_nonneg hH hN (by omega) hfitk
    have h1 : span_start frames.src.height k N ≤ span_end frames.src.height k N := by
      rw [span_end_eq_start_succ]
      exact span_start_mono hH hN (by omega) (by omega) hfit
    have hc : span_start frames.src.height ((k + 1 : Nat) : Int) N
        = span_end frames.src.height k N := by
      rw [span_end_eq_start_succ]; push_cast; rfl
    rw [hc]
    have hpl : packed_luma
        ((List.range k).foldl (fun acc (j : Nat) => format_converter acc (j : Int) N) frames).src
        y x = packed_luma frames.src y x := by rw [ihs]
    by_cases ha : span_start frames.src.height k N ≤ y ∧ y < span_end frames.src.height k N
    · have hb : 0 ≤ y ∧ y < span_end frames.src.height k N := by omega
      rw [if_pos ha, if_pos hb]
    · rw [if_neg ha]
      by_cases hb : 0 ≤ y ∧ y < span_start frames.src.height k N
      · have hd : 0 ≤ y ∧ y < span_end frames.src.height k N := by omega
        rw [if_pos hb, if_pos hd]
      · have hd : ¬ (0 ≤ y ∧ y < span_end frames.src.height k N) := by omega
        rw [if_neg hb, if_neg hd]

/-- A luma sample of a row that lies in the span of none of the first `k` jobs
still holds the byte it held before those jobs ran. -/
theorem execute_format_converter_untouched (frames : WildlifeFmtFrames) (N : Int)
    (hW : frames.src.width ≤ frames.dst.linesize 0) (x y : Int)
    (hx0 : 0 ≤ x) (hx : x < frames.src.width) (k : Nat)
    (hout : ∀ j : Nat, j < k →
      ¬ (span_start frames.src.height j N ≤ y ∧ y < span_end frames.src.height j N)) :
    ((List.range k).foldl (fun acc (j : Nat) => format_converter acc (j : Int) N) frames).src
        = frames.src ∧
    ((List.range k).foldl (fun acc (j : Nat) => format_converter acc (j : Int) N)
        frames).dst.linesize = frames.dst.linesize ∧
    ((List.range k).foldl (fun acc (j : Nat) => format_converter acc (j : Int) N)
        frames).dst.data 0 (y * frames.dst.linesize 0 + x)
      = frames.dst.data 0 (y * frames.dst.linesize 0 + x) := by
  induction k with
  | zero => exact ⟨rfl, rfl, rfl⟩
  | succ k ih =>
    obtain ⟨ihs, ihl, ihd⟩ := ih (fun j hj => hout j (by omega))
    rw [List.range_succ, List.foldl_append]
    simp only [List.foldl_cons, List.foldl_nil]
    refine ⟨by rw [format_converter_src, ihs], by rw [format_converter_linesize, ihl], ?_⟩
    have h := format_converter_luma
      ((List.range k).foldl (fun acc (j : Nat) => format_converter acc (j : Int) N) frames)
      (k : Int) N x y hx0 (by rw [ihs]; exact hx)
      (by rw [ihs, ihl]; exact hW)
    rw [ihl, ihs] at h
    rw [h, if_neg (hout k (by omega)), ihd]


/-- C4 (amended): for a packed source frame of width `W` and height `H` and a job
count `1 <= N <= H` with `H * N <= 2^31 - 1`, once `format_converter` has run
for the jobs `0 .. N-1` on a destination whose luma stride holds a full row
(`W <= linesize[0]`), sample `x` of row `y` of the destination luma plane is
byte `2x` of source row `y`, for all `x < W` and `y < H`; so if byte `2x` of
every source row is `x mod 256`, the destination luma sample at `(x, y)` is
`x mod 256`. -/
theorem luma_conversion (frames : WildlifeFmtFrames) (N : Int)
    (hN : 1 ≤ N) (hNH : N ≤ frames.src.height)
    (hspan : frames.src.height * N ≤ INT32_MAX)
    (hW : frames.src.width ≤ frames.dst.linesize 0) :
    (∀ x y : Int, 0 ≤ x → x < frames.src.width → 0 ≤ y → y < frames.src.height →
      luma (execute format_converter frames N).dst y x = packed_luma frames.src y x) ∧
    ((∀ x y : Int, 0 ≤ x → x < frames.src.width → 0 ≤ y → y < frames.src.height →
        ((packed_luma frames.src y x).val : Int) = x % 256) →
      ∀ x y : Int, 0 ≤ x → x < frames.src.width → 0 ≤ y → y < frames.src.height →
        ((luma (execute format_converter frames N).dst y x).val : Int) = x % 256) := by
  have hH : 0 ≤ frames.src.height := by omega
  have hc : ((N.toNat : Nat) : Int) = N := by omega
  have key : ∀ x y : Int, 0 ≤ x → x < frames.src.width → 0 ≤ y → y < frames.src.height →
      luma (execute format_converter frames N).dst y x = packed_luma frames.src y x := by
    intro x y hx0 hx hy0 hy
    obtain ⟨_, hl, hd⟩ := execute_format_converter frames N hH hN hW N.toNat
      (by rw [hc]; exact hspan)
    unfold luma execute
    rw [hl, hd x y hx0 hx]
    rw [hc, span_start_last hH hN hspan, if_pos ⟨hy0, hy⟩]
  exact ⟨key, fun h x y hx0 hx hy0 hy => by rw [key x y hx0 hx hy0 hy]; exact h x y hx0 hx hy0 hy⟩


/-- Witness for C4: the synthetic 3x4 packed frame converted by two jobs. -/
theorem luma_conversion_witness :
    ((1 : Int) ≤ 2 ∧ (2 : Int) ≤ (synthetic_packed 3 4 6).height ∧
      (synthetic_packed 3 4 6).height * 2 ≤ INT32_MAX ∧
      (synthetic_packed 3 4 6).width ≤ (const_frame 3 4 4 0).linesize 0) ∧
    luma (execute format_converter
        { src := synthetic_packed 3 4 6, dst := const_frame 3 4 4 0 } 2).dst 3 2
      = packed_luma (synthetic_packed 3 4 6) 3 2 ∧
    ((luma (execute format_converter
        { src := synthetic_packed 3 4 6, dst := const_frame 3 4 4 0 } 2).dst 3 2).val : Int)
      = 2 % 256 :=
  ⟨by decide,
   (luma_conversion { src := synthetic_packed 3 4 6, dst := const_frame 3 4 4 0 } 2
      (by decide) (by decide) (by decide) (by decide)).1 2 3
      (by decide) (by decide) (by decide) (by decide),
   (luma_conversion { src := synthetic_packed 3 4 6, dst := const_frame 3 4 4 0 } 2
      (by decide) (by decide) (by decide) (by decide)).2
      (by
        intro x y hx0 hx hy0 hy
        have hx' : x < 3 := hx
        have hy' : y < 4 := hy
        interval_cases x <;> interval_cases y <;> decide)
      2 3 (by decide) (by decide) (by decide) (by decide)⟩

/-- C4 as stated fails when `H * N` leaves the range of `int`: for a packed source
of width 1 and height 65536 that holds 7 everywhere and `N = 32768` jobs, the
product `height * (jobnr + 1)` of the last job overflows, so its span is
`[65534, -65536)`, its row loop never runs and the length it passes to `memset`
is negative; sample 0 of row 65535 of the destination luma plane still holds
the 0 it held before the conversion, not the source byte 7. -/
theorem luma_conversion_counterexample :
    ((1 : Int) ≤ 32768 ∧ (32768 : Int) ≤ (const_frame 1 65536 2 7).height ∧
      (const_frame 1 65536 2 7).width ≤ (const_frame 1 65536 1 0).linesize 0) ∧
    (span_start 65536 32767 32768 = 65534 ∧ span_end 65536 32767 32768 = -65536 ∧
      Int.tdiv (span_end 65536 32767 32768 - span_start 65536 32767 32768) 2
        * (const_frame 1 65536 1 0).linesize 1 = -65535) ∧
    luma (execute format_converter
        { src := const_frame 1 65536 2 7, dst := const_frame 1 65536 1 0 } 32768).dst 65535 0
      = 0 ∧
    packed_luma (const_frame 1 65536 2 7) 65535 0 = 7 := by
  refine ⟨by decide, by decide, ?_, rfl⟩
  have hout : ∀ j : Nat, j < 32768 →
      ¬ (span_start 65536 j 32768 ≤ 65535 ∧ 65535 < span_end 65536 j 32768) := by
    intro j hj
    by_cases hlast : j = 32767
    · subst hlast
      decide
    · have hfit : (65536 : Int) * ((j : Int) + 1) ≤ INT32_MAX := by
        unfold INT32_MAX
        omega
      rw [span_end_eq_start_succ,
        span_start_eq_ediv (by decide) (by decide) (by omega) hfit]
      omega
  have h := (execute_format_converter_untouched
    { src := const_frame 1 65536 2 7, dst := const_frame 1 65536 1 0 } 32768
    (by decide) 0 65535 (by decide) (by decide) 32768 hout).2
  unfold luma execute
  have hN : (32768 : Int).toNat = 32768 := rfl
  rw [hN, h.1]
  exact h.2

/-- C5 at the input `H = 100`, `N = 3` named by the claim (and at `H = 5`, `N = 1`):
after all jobs of `format_converter`, chroma row 32 of the destination still
holds the byte it held before the conversion (0 here), while its neighbours,
rows 31 and 33, hold 128; for the odd height 5 the last chroma row, row 2, is
never written. -/
theorem chroma_fill_gap :
    ((execute format_converter
        { src := const_frame 2 100 4 7, dst := const_frame 2 100 2 0 } 3).dst.data 1 (32 * 2) = 0 ∧
     (execute format_converter
        { src := const_frame 2 100 4 7, dst := const_frame 2 100 2 0 } 3).dst.data 1 (31 * 2) = 128 ∧
     (execute format_converter
        { src := const_frame 2 100 4 7, dst := const_frame 2 100 2 0 } 3).dst.data 1 (33 * 2) = 128) ∧
    ((execute format_converter
        { src := const_frame 2 5 4 7, dst := const_frame 2 5 2 0 } 1).dst.data 1 (2 * 2) = 0 ∧
     (execute format_converter
        { src := const_frame 2 5 4 7, dst := const_frame 2 5 2 0 } 1).dst.data 1 (1 * 2) = 128) := by
  decide

end WildlifeFmt

namespace WildlifeDetect

/-- C6 (amended): with `min_frames = m >= 0`, when a frame reaches the energy
threshold and none of the following `m` frames does, `filter_frame` forwards
exactly `m` consecutive frames (the triggering frame and the `m - 1` frames after
it; none when `m = 0`), leaving the countdown at `m-1, ..., 0`, and the next
frame (the triggering frame itself when `m = 0`) is tagged window-end and
suppressed, leaving the countdown at -1.  In the trace of the spec
(`energy_threshold = 10000`, `min_frames = 3`, frame 1 the baseline, frame 2 with
energy 12000, later frames with energy 3000): frame 2 is forwarded leaving
countdown 2, frames 3 and 4 are forwarded leaving countdown 1 and 0, frame 5 is
end-tagged and suppressed leaving countdown -1, and frames 6, 7, 8 are
suppressed. -/
theorem retention_window :
    (∀ (env : Env) (h : Int) (s : WildlifeDetectContext) (f0 : AVFrame) (fs : List AVFrame)
        (m : Nat),
      (∀ f, (env.av_frame_clone f).isSome = true) →
      s.prev_frame.isSome = true →
      s.min_frames = m →
      fs.length = m →
      s.energy_threshold ≤ (filter_frame env h s f0).total_energy →
      (∀ r ∈ run env h (filter_frame env h s f0).ctx fs, r.total_energy < s.energy_threshold) →
      (run env h s (f0 :: fs)).map (fun r => r.forwarded.isSome)
          = List.replicate m true ++ [false] ∧
      (run env h s (f0 :: fs)).map (fun r => r.ctx.rem_frames)
          = (List.range m).reverse.map (fun i : Nat => (i : Int)) ++ [-1] ∧
      (run env h s (f0 :: fs)).map (fun r => r.start_tag) = true :: List.replicate m false ∧
      (run env h s (f0 :: fs)).map (fun r => r.end_tag) = List.replicate m false ++ [true]) ∧
    (∀ (env : Env) (h : Int) (s : WildlifeDetectContext) (f1 : AVFrame) (fs : List AVFrame),
      (∀ f, (env.av_frame_clone f).isSome = true) →
      s.prev_frame = none → s.rem_frames = -1 →
      s.energy_threshold = 10000 → s.min_frames = 3 →
      (run env h (filter_frame env h s f1).ctx fs).map (fun r => r.total_energy)
          = [12000, 3000, 3000, 3000, 3000, 3000, 3000] →
      (run env h s (f1 :: fs)).map Outcome.decision
          = [{ rem_frames := -1, forwarded := false, start_tag := false, end_tag := false },
             { rem_frames := 2, forwarded := true, start_tag := true, end_tag := false },
             { rem_frames := 1, forwarded := true, start_tag := false, end_tag := false },
             { rem_frames := 0, forwarded := true, start_tag := false, end_tag := false },
             { rem_frames := -1, forwarded := false, start_tag := false, end_tag := true },
             { rem_frames := -1, forwarded := false, start_tag := false, end_tag := false },
             { rem_frames := -1, forwarded := false, start_tag := false, end_tag := false },
             { rem_frames := -1, forwarded := false, start_tag := false, end_tag := false }]) := by
  constructor
  · intro env h s f0 fs m hclone hs hm hlen htrig hbelow
    have hd := run_decisions env h hclone (f0 :: fs) s hs
    have hw := countdown_run_window s.energy_threshold s.rem_frames
      (filter_frame env h s f0).total_energy m
      ((run env h (filter_frame env h s f0).ctx fs).map (fun r => r.total_energy))
      htrig (by rw [List.length_map]; exact (by
        have : ∀ (l : List AVFrame) (c : WildlifeDetectContext),
            (run env h c l).length = l.length := by
          intro l
          induction l with
          | nil => intro c; rfl
          | cons a l ih => intro c; simp [run, ih]
        rw [this, hlen]))
      (by
        intro e he
        obtain ⟨r, hr, rfl⟩ := List.mem_map.mp he
        exact hbelow r hr)
    rw [hm] at hd
    have hrun : (run env h s (f0 :: fs)).map (fun r => r.total_energy)
        = (filter_frame env h s f0).total_energy
          :: (run env h (filter_frame env h s f0).ctx fs).map (fun r => r.total_energy) := rfl
    rw [hrun] at hd
    rw [← hd] at hw
    simpa [List.map_map, Function.comp_def, Outcome.decision] using hw
  · intro env h s f1 fs hclone hp hrem hthr hmin henergy
    have hfirst := filter_frame_first env h s f1 hp
    have hs1 : (filter_frame env h s f1).ctx.prev_frame.isSome = true := by
      rw [hfirst]; exact hclone f1
    have hd := run_decisions env h hclone fs (filter_frame env h s f1).ctx hs1
    rw [henergy] at hd
    have e1 : (filter_frame env h s f1).ctx.energy_threshold = 10000 := by rw [hfirst]; exact hthr
    have e2 : (filter_frame env h s f1).ctx.min_frames = 3 := by rw [hfirst]; exact hmin
    have e3 : (filter_frame env h s f1).ctx.rem_frames = -1 := by rw [hfirst]; exact hrem
    rw [e1, e2, e3] at hd
    have hdec : (filter_frame env h s f1).decision
        = { rem_frames := -1, forwarded := false, start_tag := false, end_tag := false } := by
      rw [hfirst]
      simp [Outcome.decision, hrem]
    simp only [run, List.map_cons]
    rw [hd, hdec]
    decide


set_option maxRecDepth 100000 in
/-- Witness for C6: the window of a detector with `min_frames = 2` fed three
one-sample frames, and the trace of the spec on eight frames of 60 samples. -/
theorem retention_window_witness :
    ((run plain_env 1 (ready_context 1 (const_frame 1 1 1 0) 10 5 2 (-1))
        (const_frame 1 1 1 20 :: [const_frame 1 1 1 20, const_frame 1 1 1 20])).map
        (fun r => r.forwarded.isSome) = List.replicate 2 true ++ [false]) ∧
    ((run plain_env 1 (filter_frame plain_env 1 (configured 1 10000 15 3)
        (const_frame 60 1 60 0)).ctx trace_tail).map (fun r => r.total_energy)
        = [12000, 3000, 3000, 3000, 3000, 3000, 3000]) ∧
    ((run plain_env 1 (configured 1 10000 15 3) (const_frame 60 1 60 0 :: trace_tail)).map
        Outcome.decision
        = [{ rem_frames := -1, forwarded := false, start_tag := false, end_tag := false },
           { rem_frames := 2, forwarded := true, start_tag := true, end_tag := false },
           { rem_frames := 1, forwarded := true, start_tag := false, end_tag := false },
           { rem_frames := 0, forwarded := true, start_tag := false, end_tag := false },
           { rem_frames := -1, forwarded := false, start_tag := false, end_tag := true },
           { rem_frames := -1, forwarded := false, start_tag := false, end_tag := false },
           { rem_frames := -1, forwarded := false, start_tag := false, end_tag := false },
           { rem_frames := -1, forwarded := false, start_tag := false, end_tag := false }]) :=
  ⟨(retention_window.1 plain_env 1 (ready_context 1 (const_frame 1 1 1 0) 10 5 2 (-1))
      (const_frame 1 1 1 20) [const_frame 1 1 1 20, const_frame 1 1 1 20] 2
      (fun _ => rfl) rfl rfl rfl (by decide) (by decide)).1,
   by decide,
   retention_window.2 plain_env 1 (configured 1 10000 15 3) (const_frame 60 1 60 0) trace_tail
      (fun _ => rfl) rfl rfl rfl rfl (by decide)⟩

set_option maxRecDepth 100000 in
/-- C6 as stated fails on the trace of the spec (`energy_threshold = 10000`,
`min_frames = 3`, eight frames with energies 12000 and then 3000): the countdown
after frame 2 is 2, not 3; frame 5 is end-tagged and suppressed, not forwarded;
three frames are forwarded, not four. -/
theorem retention_window_counterexample :
    (run plain_env 1 (configured 1 10000 15 3) trace_frames).map (fun r => r.total_energy)
      = [0, 12000, 3000, 3000, 3000, 3000, 3000, 3000] ∧
    (run plain_env 1 (configured 1 10000 15 3) trace_frames).map (fun r => r.ctx.rem_frames)
      = [-1, 2, 1, 0, -1, -1, -1, -1] ∧
    (run plain_env 1 (configured 1 10000 15 3) trace_frames).map (fun r => r.forwarded.isSome)
      = [false, true, true, true, false, false, false, false] ∧
    (run plain_env 1 (configured 1 10000 15 3) trace_frames).map (fun r => r.end_tag)
      = [false, false, false, false, true, false, false, false] ∧
    (run plain_env 1 (configured 1 10000 15 3) trace_frames).map (fun r => r.ctx.rem_frames)
      ≠ [-1, 3, 2, 1, 0, -1, -1, -1] ∧
    (run plain_env 1 (configured 1 10000 15 3) trace_frames).map (fun r => r.forwarded.isSome)
      ≠ [false, true, true, true, true, false, false, false] := by
  decide

/-- C7 (amended): in any countdown state, a processed frame whose total energy
reaches `energy_threshold` is tagged with the window-start entry; when
`min_frames >= 1` it is forwarded, gets no window-end entry and leaves the
countdown at `min_frames - 1`; when `min_frames = 0` it is also tagged
window-end, is suppressed and leaves the countdown at -1. -/
theorem trigger_step (env : Env) (h : Int) (s : WildlifeDetectContext) (cur old : AVFrame)
    (hp : s.prev_frame = some old)
    (htrig : s.energy_threshold ≤ (filter_frame env h s cur).total_energy) :
    (filter_frame env h s cur).start_tag = true ∧
    (filter_frame env h s cur).cur_meta "lavfi.wildlifedetect.start"
        = some (env.av_ts2timestr cur.pts) ∧
    (1 ≤ s.min_frames →
      (filter_frame env h s cur).forwarded
          = some { cur with metadata := (filter_frame env h s cur).cur_meta } ∧
      (filter_frame env h s cur).end_tag = false ∧
      (filter_frame env h s cur).ctx.rem_frames = s.min_frames - 1) ∧
    (s.min_frames = 0 →
      (filter_frame env h s cur).forwarded = none ∧
      (filter_frame env h s cur).end_tag = true ∧
      (filter_frame env h s cur).ctx.rem_frames = -1) := by
  obtain ⟨hd, _⟩ := filter_frame_decision env h s cur old hp
  obtain ⟨hm, hf, _⟩ := filter_frame_meta env h s cur old hp
  have hstart : (filter_frame env h s cur).start_tag = true := by
    have := congrArg Decision.start_tag hd
    simp only [Outcome.decision, countdown_step] at this
    rw [this]
    split_ifs <;> simp [htrig]
  refine ⟨hstart, ?_, ?_, ?_⟩
  · rw [hm, hstart]
    by_cases he : (filter_frame env h s cur).end_tag = true
    · simp [he, av_dict_set]
    · simp [he, av_dict_set]
  · intro hmin
    have hpos : 0 < s.min_frames := by omega
    have hd' : (filter_frame env h s cur).decision
        = { rem_frames := s.min_frames - 1, forwarded := true, start_tag := true,
            end_tag := false } := by
      rw [hd]
      simp [countdown_step, htrig, hpos]
    have h1 : (filter_frame env h s cur).forwarded.isSome = true :=
      congrArg Decision.forwarded hd'
    refine ⟨?_, congrArg Decision.end_tag hd', congrArg Decision.rem_frames hd'⟩
    rw [hf, h1]
    rfl
  · intro hmin
    have hd' : (filter_frame env h s cur).decision
        = { rem_frames := -1, forwarded := false, start_tag := true, end_tag := true } := by
      rw [hd]
      simp [countdown_step, htrig, hmin]
    have h1 : (filter_frame env h s cur).forwarded.isSome = false :=
      congrArg Decision.forwarded hd'
    refine ⟨?_, congrArg Decision.end_tag hd', congrArg Decision.rem_frames hd'⟩
    rw [hf, h1]
    rfl

/-- Witness for C7: an idle detector with `min_frames = 3` meets a frame of energy
20 against a threshold of 10. -/
theorem trigger_step_witness :
    (ready_context 1 (const_frame 1 1 1 0) 10 5 3 (-1)).energy_threshold
      ≤ (filter_frame plain_env 1 (ready_context 1 (const_frame 1 1 1 0) 10 5 3 (-1))
          (const_frame 1 1 1 20)).total_energy ∧
    (filter_frame plain_env 1 (ready_context 1 (const_frame 1 1 1 0) 10 5 3 (-1))
      (const_frame 1 1 1 20)).start_tag = true ∧
    (filter_frame plain_env 1 (ready_context 1 (const_frame 1 1 1 0) 10 5 3 (-1))
      (const_frame 1 1 1 20)).ctx.rem_frames = 3 - 1 :=
  ⟨by decide,
   (trigger_step plain_env 1 (ready_context 1 (const_frame 1 1 1 0) 10 5 3 (-1))
      (const_frame 1 1 1 20) (const_frame 1 1 1 0) rfl (by decide)).1,
   ((trigger_step plain_env 1 (ready_context 1 (const_frame 1 1 1 0) 10 5 3 (-1))
      (const_frame 1 1 1 20) (const_frame 1 1 1 0) rfl (by decide)).2.2.1 (by decide)).2.2⟩

/-- C7 as stated fails: an idle detector with `min_frames = 3` and
`energy_threshold = 10` that meets a frame of energy 20 ends the call with
countdown 2, not `min_frames`; and with `min_frames = 0` the triggering frame is
not forwarded. -/
theorem trigger_step_counterexample :
    ((filter_frame plain_env 1 (ready_context 1 (const_frame 1 1 1 0) 10 5 3 (-1))
        (const_frame 1 1 1 20)).total_energy = 20 ∧
      (filter_frame plain_env 1 (ready_context 1 (const_frame 1 1 1 0) 10 5 3 (-1))
        (const_frame 1 1 1 20)).ctx.rem_frames = 2 ∧
      (filter_frame plain_env 1 (ready_context 1 (const_frame 1 1 1 0) 10 5 3 (-1))
        (const_frame 1 1 1 20)).ctx.rem_frames
        ≠ (ready_context 1 (const_frame 1 1 1 0) 10 5 3 (-1)).min_frames) ∧
    ((filter_frame plain_env 1 (ready_context 1 (const_frame 1 1 1 0) 10 5 0 (-1))
        (const_frame 1 1 1 20)).total_energy = 20 ∧
      (filter_frame plain_env 1 (ready_context 1 (const_frame 1 1 1 0) 10 5 0 (-1))
        (const_frame 1 1 1 20)).forwarded.isSome = false) := by
  decide


/-- C8: for a processed frame whose total energy is below `energy_threshold`: with
a countdown `c > 0` on arrival the frame is forwarded and the countdown becomes
`c - 1`; with a negative countdown on arrival the frame is suppressed, gets
neither a window-start nor a window-end entry (the two keys keep what the
incoming frame held) and the countdown is unchanged, so the idle value -1 stays
-1. -/
theorem below_threshold_step (env : Env) (h : Int) (s : WildlifeDetectContext)
    (cur old : AVFrame) (hp : s.prev_frame = some old)
    (hlow : (filter_frame env h s cur).total_energy < s.energy_threshold) :
    (0 < s.rem_frames →
      (filter_frame env h s cur).forwarded
          = some { cur with metadata := (filter_frame env h s cur).cur_meta } ∧
      (filter_frame env h s cur).ctx.rem_frames = s.rem_frames - 1) ∧
    (s.rem_frames < 0 →
      (filter_frame env h s cur).forwarded = none ∧
      (filter_frame env h s cur).start_tag = false ∧
      (filter_frame env h s cur).end_tag = false ∧
      (filter_frame env h s cur).cur_meta "lavfi.wildlifedetect.start"
          = cur.metadata "lavfi.wildlifedetect.start" ∧
      (filter_frame env h s cur).cur_meta "lavfi.wildlifedetect.end"
          = cur.metadata "lavfi.wildlifedetect.end" ∧
      (filter_frame env h s cur).ctx.rem_frames = s.rem_frames) ∧
    (s.rem_frames = -1 → (filter_frame env h s cur).ctx.rem_frames = -1) := by
  obtain ⟨hd, _⟩ := filter_frame_decision env h s cur old hp
  obtain ⟨hm, hf, _⟩ := filter_frame_meta env h s cur old hp
  have hnot : ¬ s.energy_threshold ≤ (filter_frame env h s cur).total_energy := by omega
  have hneg : s.rem_frames < 0 →
      (filter_frame env h s cur).decision
        = { rem_frames := s.rem_frames, forwarded := false, start_tag := false,
            end_tag := false } := by
    intro hc
    have h1 : ¬ 0 < s.rem_frames := by omega
    have h2 : ¬ s.rem_frames = 0 := by omega
    rw [hd]
    simp [countdown_step, hnot, h1, h2]
  refine ⟨?_, ?_, ?_⟩
  · intro hc
    have hd' : (filter_frame env h s cur).decision
        = { rem_frames := s.rem_frames - 1, forwarded := true, start_tag := false,
            end_tag := false } := by
      rw [hd]
      simp [countdown_step, hnot, hc]
    have h1 : (filter_frame env h s cur).forwarded.isSome = true :=
      congrArg Decision.forwarded hd'
    refine ⟨?_, congrArg Decision.rem_frames hd'⟩
    rw [hf, h1]
    rfl
  · intro hc
    have hd' := hneg hc
    have h1 : (filter_frame env h s cur).forwarded.isSome = false :=
      congrArg Decision.forwarded hd'
    have h2 : (filter_frame env h s cur).start_tag = false := congrArg Decision.start_tag hd'
    have h3 : (filter_frame env h s cur).end_tag = false := congrArg Decision.end_tag hd'
    refine ⟨?_, h2, h3, ?_, ?_, congrArg Decision.rem_frames hd'⟩
    · rw [hf, h1]
      rfl
    · rw [hm, h2, h3]
      simp [av_dict_set, av_dict_set_int]
    · rw [hm, h2, h3]
      simp [av_dict_set, av_dict_set_int]
  · intro hc
    have hd' := hneg (by omega)
    rw [show (filter_frame env h s cur).ctx.rem_frames = s.rem_frames from
      congrArg Decision.rem_frames hd', hc]

/-- Witness for C8: a frame equal to the previous one (energy 0, threshold 10)
reaches a detector whose countdown is 2, and one that is idle. -/
theorem below_threshold_step_witness :
    (filter_frame plain_env 1 (ready_context 1 (const_frame 1 1 1 0) 10 5 3 2)
        (const_frame 1 1 1 0)).total_energy
      < (ready_context 1 (const_frame 1 1 1 0) 10 5 3 2).energy_threshold ∧
    (filter_frame plain_env 1 (ready_context 1 (const_frame 1 1 1 0) 10 5 3 2)
        (const_frame 1 1 1 0)).ctx.rem_frames = 2 - 1 ∧
    (filter_frame plain_env 1 (ready_context 1 (const_frame 1 1 1 0) 10 5 3 (-1))
        (const_frame 1 1 1 0)).forwarded = none ∧
    (filter_frame plain_env 1 (ready_context 1 (const_frame 1 1 1 0) 10 5 3 (-1))
        (const_frame 1 1 1 0)).ctx.rem_frames = -1 :=
  ⟨by decide,
   ((below_threshold_step plain_env 1 (ready_context 1 (const_frame 1 1 1 0) 10 5 3 2)
      (const_frame 1 1 1 0) (const_frame 1 1 1 0) rfl (by decide)).1 (by decide)).2,
   ((below_threshold_step plain_env 1 (ready_context 1 (const_frame 1 1 1 0) 10 5 3 (-1))
      (const_frame 1 1 1 0) (const_frame 1 1 1 0) rfl (by decide)).2.1 (by decide)).1,
   (below_threshold_step plain_env 1 (ready_context 1 (const_frame 1 1 1 0) 10 5 3 (-1))
      (const_frame 1 1 1 0) (const_frame 1 1 1 0) rfl (by decide)).2.2 rfl⟩

/-- C9 (amended): when the countdown is 0 on arrival and the frame's energy is
below `energy_threshold` (or `min_frames` is 0), the frame is tagged with the
window-end entry, is suppressed, and the countdown becomes -1. -/
theorem closing_step (env : Env) (h : Int) (s : WildlifeDetectContext) (cur old : AVFrame)
    (hp : s.prev_frame = some old) (hzero : s.rem_frames = 0)
    (hcond : (filter_frame env h s cur).total_energy < s.energy_threshold ∨ s.min_frames = 0) :
    (filter_frame env h s cur).end_tag = true ∧
    (filter_frame env h s cur).cur_meta "lavfi.wildlifedetect.end"
        = some (env.av_ts2timestr cur.pts) ∧
    (filter_frame env h s cur).forwarded = none ∧
    (filter_frame env h s cur).ctx.rem_frames = -1 := by
  obtain ⟨hd, _⟩ := filter_frame_decision env h s cur old hp
  obtain ⟨hm, hf, _⟩ := filter_frame_meta env h s cur old hp
  have hd' : (filter_frame env h s cur).decision.rem_frames = -1 ∧
      (filter_frame env h s cur).decision.forwarded = false ∧
      (filter_frame env h s cur).decision.end_tag = true := by
    rw [hd]
    rcases hcond with hlow | hmin
    · have hnot : ¬ s.energy_threshold ≤ (filter_frame env h s cur).total_energy := by omega
      simp [countdown_step, hnot, hzero]
    · by_cases ht : s.energy_threshold ≤ (filter_frame env h s cur).total_energy
      · simp [countdown_step, ht, hmin]
      · simp [countdown_step, ht, hzero]
  obtain ⟨h1, h2, h3⟩ := hd'
  have h2' : (filter_frame env h s cur).forwarded.isSome = false := h2
  have h3' : (filter_frame env h s cur).end_tag = true := h3
  refine ⟨h3', ?_, ?_, h1⟩
  · rw [hm, h3']
    simp [av_dict_set]
  · rw [hf, h2']
    rfl

/-- Witness for C9: a frame equal to the previous one reaches a detector whose
countdown is 0. -/
theorem closing_step_witness :
    ((ready_context 1 (const_frame 1 1 1 0) 10 5 3 0).rem_frames = 0 ∧
      (filter_frame plain_env 1 (ready_context 1 (const_frame 1 1 1 0) 10 5 3 0)
          (const_frame 1 1 1 0)).total_energy
        < (ready_context 1 (const_frame 1 1 1 0) 10 5 3 0).energy_threshold) ∧
    (filter_frame plain_env 1 (ready_context 1 (const_frame 1 1 1 0) 10 5 3 0)
        (const_frame 1 1 1 0)).end_tag = true ∧
    (filter_frame plain_env 1 (ready_context 1 (const_frame 1 1 1 0) 10 5 3 0)
        (const_frame 1 1 1 0)).ctx.rem_frames = -1 :=
  ⟨by decide,
   (closing_step plain_env 1 (ready_context 1 (const_frame 1 1 1 0) 10 5 3 0)
      (const_frame 1 1 1 0) (const_frame 1 1 1 0) rfl rfl (Or.inl (by decide))).1,
   (closing_step plain_env 1 (ready_context 1 (const_frame 1 1 1 0) 10 5 3 0)
      (const_frame 1 1 1 0) (const_frame 1 1 1 0) rfl rfl (Or.inl (by decide))).2.2.2⟩

/-- C9 as stated fails: with countdown 0 on arrival, `min_frames = 3` and
`energy_threshold = 10`, a frame of energy 20 is forwarded, gets no window-end
entry and leaves the countdown at 2. -/
theorem closing_step_counterexample :
    (ready_context 1 (const_frame 1 1 1 0) 10 5 3 0).rem_frames = 0 ∧
    (filter_frame plain_env 1 (ready_context 1 (const_frame 1 1 1 0) 10 5 3 0)
        (const_frame 1 1 1 20)).total_energy = 20 ∧
    (filter_frame plain_env 1 (ready_context 1 (const_frame 1 1 1 0) 10 5 3 0)
        (const_frame 1 1 1 20)).forwarded.isSome = true ∧
    (filter_frame plain_env 1 (ready_context 1 (const_frame 1 1 1 0) 10 5 3 0)
        (const_frame 1 1 1 20)).end_tag = false ∧
    (filter_frame plain_env 1 (ready_context 1 (const_frame 1 1 1 0) 10 5 3 0)
        (const_frame 1 1 1 20)).cur_meta "lavfi.wildlifedetect.end" = none ∧
    (filter_frame plain_env 1 (ready_context 1 (const_frame 1 1 1 0) 10 5 3 0)
        (const_frame 1 1 1 20)).ctx.rem_frames = 2 := by
  decide

/-- C10: on the first call after `config_input` (no previous frame held), whatever
the options and the incoming frame, `filter_frame` forwards nothing, leaves the
metadata of the frame as it came (no energy entry, no tag), leaves the
accumulator slots and the local total at 0 (no energy is computed), leaves the
countdown at its initial value -1, releases the incoming frame and keeps the
result of cloning it as the previous frame, which is the incoming frame when
the clone succeeds. -/
theorem first_frame_noop (env : Env) (h : Int) (s0 s : WildlifeDetectContext) (T : Int)
    (cur : AVFrame) (h0 : s0.prev_frame = none)
    (hcfg : config_input s0 T true = Except.ok s) :
    s.rem_frames = -1 ∧
    (filter_frame env h s cur).forwarded = none ∧
    (filter_frame env h s cur).ret = 0 ∧
    (filter_frame env h s cur).cur_meta = cur.metadata ∧
    (filter_frame env h s cur).start_tag = false ∧
    (filter_frame env h s cur).end_tag = false ∧
    (filter_frame env h s cur).total_energy = 0 ∧
    (filter_frame env h s cur).ctx.th_energy = List.replicate T.toNat 0 ∧
    (filter_frame env h s cur).ctx.rem_frames = -1 ∧
    (filter_frame env h s cur).freed = [cur] ∧
    (filter_frame env h s cur).ctx.prev_frame = env.av_frame_clone cur ∧
    (env.av_frame_clone cur = some cur →
      (filter_frame env h s cur).ctx.prev_frame = some cur) := by
  have hs : s = { s0 with nb_threads := T, rem_frames := -1,
                          th_energy := List.replicate T.toNat 0 } := by
    simp only [config_input, if_true] at hcfg
    injection hcfg with hcfg
    exact hcfg.symm
  have hp : s.prev_frame = none := by rw [hs]; exact h0
  rw [filter_frame_first env h s cur hp]
  subst hs
  exact ⟨rfl, rfl, rfl, rfl, rfl, rfl, rfl, rfl, rfl, rfl, rfl, fun hc => hc⟩

/-- Witness for C10: the default options, two worker threads, a 2x2 frame. -/
theorem first_frame_noop_witness :
    ((init_context 10000 15 5).prev_frame = none ∧
      config_input (init_context 10000 15 5) 2 true = Except.ok (configured 2 10000 15 5)) ∧
    (filter_frame plain_env 2 (configured 2 10000 15 5) (const_frame 2 2 2 9)).forwarded = none ∧
    (filter_frame plain_env 2 (configured 2 10000 15 5) (const_frame 2 2 2 9)).ctx.rem_frames
      = -1 ∧
    (filter_frame plain_env 2 (configured 2 10000 15 5) (const_frame 2 2 2 9)).ctx.prev_frame
      = some (const_frame 2 2 2 9) :=
  ⟨⟨rfl, rfl⟩,
   (first_frame_noop plain_env 2 (init_context 10000 15 5) (configured 2 10000 15 5) 2
      (const_frame 2 2 2 9) rfl rfl).2.1,
   (first_frame_noop plain_env 2 (init_context 10000 15 5) (configured 2 10000 15 5) 2
      (const_frame 2 2 2 9) rfl rfl).2.2.2.2.2.2.2.2.1,
   (first_frame_noop plain_env 2 (init_context 10000 15 5) (configured 2 10000 15 5) 2
      (const_frame 2 2 2 9) rfl rfl).2.2.2.2.2.2.2.2.2.2.2 rfl⟩

end WildlifeDetect

/-- C16 (amended): for a frame height `H >= 1` and a worker count `T >= 1`, with
the job count `N = FFMIN(H, T)` that both `filter_frame` functions pass to the
executor and `H * N <= 2^31 - 1`, no span is empty: `(H*j)/N < (H*(j+1))/N` for
every job `0 <= j < N`. -/
theorem spans_nonempty (H T : Int) (hH : 1 ≤ H) (hT : 1 ≤ T)
    (hfit : H * FFMIN H T ≤ INT32_MAX) :
    ∀ j, 0 ≤ j → j < FFMIN H T →
      span_start H j (FFMIN H T) < span_end H j (FFMIN H T) := by
  intro j hj hjN
  have hN1 : 1 ≤ FFMIN H T := by unfold FFMIN; split <;> omega
  have hNH : FFMIN H T ≤ H := by unfold FFMIN; split <;> omega
  generalize FFMIN H T = N at *
  have hH0 : 0 ≤ H := by omega
  rw [span_end_eq_start_succ,
    span_start_eq_ediv hH0 (by omega) hj (span_fit_of_le hH0 (by omega) hfit),
    span_start_eq_ediv hH0 (by omega) (by omega) (span_fit_of_le hH0 (by omega) hfit)]
  have h1 : H * j / N + 1 = (H * j + N) / N := by
    rw [Int.add_ediv_of_dvd_right (dvd_refl N), Int.ediv_self (by omega)]
  have h2 : (H * j + N) / N ≤ H * (j + 1) / N :=
    Int.ediv_le_ediv (by omega) (by nlinarith)
  omega

/-- Witness for C16: height 100 with 3 worker threads, and height 2 with 8. -/
theorem spans_nonempty_witness :
    ((1 : Int) ≤ 100 ∧ (1 : Int) ≤ 3 ∧ (100 : Int) * FFMIN 100 3 ≤ INT32_MAX ∧
      (1 : Int) < FFMIN 100 3) ∧
    span_start 100 1 (FFMIN 100 3) < span_end 100 1 (FFMIN 100 3) ∧
    span_start 2 1 (FFMIN 2 8) < span_end 2 1 (FFMIN 2 8) :=
  ⟨by decide,
   spans_nonempty 100 3 (by decide) (by decide) (by decide) 1 (by decide) (by decide),
   spans_nonempty 2 8 (by decide) (by decide) (by decide) 1 (by decide) (by decide)⟩

/-- C16 as stated fails when `H * N` leaves the range of `int`: for the height
65536 and 32768 worker threads the job count is 32768, and the last job, 32767,
starts at row 65534 and ends at row -65536, because its product
`height * (jobnr + 1) = 2^31` overflows; its span is empty. -/
theorem spans_nonempty_counterexample :
    ((1 : Int) ≤ 65536 ∧ (1 : Int) ≤ 32768) ∧
    FFMIN 65536 32768 = 32768 ∧
    ((0 : Int) ≤ 32767 ∧ (32767 : Int) < FFMIN 65536 32768) ∧
    span_start 65536 32767 (FFMIN 65536 32768) = 65534 ∧
    span_end 65536 32767 (FFMIN 65536 32768) = -65536 ∧
    ¬ (span_start 65536 32767 (FFMIN 65536 32768)
        < span_end 65536 32767 (FFMIN 65536 32768)) := by
  decide

namespace WildlifeDetect

/-! ## Invariants of the detector along a stream -/

theorem config_input_ok (s0 s : WildlifeDetectContext) (T : Int)
    (hcfg : config_input s0 T true = Except.ok s) :
    s = { s0 with nb_threads := T, rem_frames := -1,
                  th_energy := List.replicate T.toNat 0 } := by
  simp only [config_input, if_true] at hcfg
  injection hcfg with hcfg
  exact hcfg.symm

/-- One call of `filter_frame` never changes the options. -/
theorem filter_frame_options (env : Env) (h : Int) (s : WildlifeDetectContext) (cur : AVFrame) :
    (filter_frame env h s cur).ctx.energy_threshold = s.energy_threshold ∧
    (filter_frame env h s cur).ctx.min_frames = s.min_frames ∧
    (filter_frame env h s cur).ctx.nb_threads = s.nb_threads ∧
    (filter_frame env h s cur).ctx.noise_threshold = s.noise_threshold := by
  cases hp : s.prev_frame with
  | none => rw [filter_frame_first env h s cur hp]; exact ⟨rfl, rfl, rfl, rfl⟩
  | some old =>
    obtain ⟨_, _, h1, h2, h3, h4⟩ := filter_frame_decision env h s cur old hp
    exact ⟨h1, h2, h3, h4⟩

/-- One call of `filter_frame` keeps the countdown at or above -1 when
`min_frames` is not negative. -/
theorem filter_frame_rem_ge (env : Env) (h : Int) (s : WildlifeDetectContext) (cur : AVFrame)
    (hmin : 0 ≤ s.min_frames) (hrem : -1 ≤ s.rem_frames) :
    -1 ≤ (filter_frame env h s cur).ctx.rem_frames := by
  cases hp : s.prev_frame with
  | none => rw [filter_frame_first env h s cur hp]; exact hrem
  | some old =>
    obtain ⟨hd, _⟩ := filter_frame_decision env h s cur old hp
    have hr : (filter_frame env h s cur).ctx.rem_frames
        = (countdown_step s.energy_threshold s.min_frames s.rem_frames
            (filter_frame env h s cur).total_energy).rem_frames :=
      congrArg Decision.rem_frames hd
    rw [hr]
    unfold countdown_step
    simp only
    split_ifs <;> simp only [] <;> omega

/-- C13: with `min_frames >= 0`, the countdown `rem_frames` is -1 after
`config_input` and at least -1 after every call of `filter_frame`, whatever the
frames: its value is always -1 (idle), 0 (last frame of the window) or a
positive number of frames still to forward. -/
theorem countdown_never_below_idle (env : Env) (h : Int) (s0 s : WildlifeDetectContext)
    (T : Int) (fs : List AVFrame) (hmin : 0 ≤ s0.min_frames)
    (hcfg : config_input s0 T true = Except.ok s) :
    s.rem_frames = -1 ∧
    ∀ r ∈ run env h s fs,
      -1 ≤ r.ctx.rem_frames ∧
      (r.ctx.rem_frames = -1 ∨ r.ctx.rem_frames = 0 ∨ 0 < r.ctx.rem_frames) := by
  have hs := config_input_ok s0 s T hcfg
  have hrem0 : s.rem_frames = -1 := by rw [hs]
  have hmin' : 0 ≤ s.min_frames := by rw [hs]; exact hmin
  refine ⟨hrem0, ?_⟩
  have key : ∀ (l : List AVFrame) (c : WildlifeDetectContext), 0 ≤ c.min_frames →
      -1 ≤ c.rem_frames → ∀ r ∈ run env h c l, -1 ≤ r.ctx.rem_frames := by
    intro l
    induction l with
    | nil => intro c _ _ r hr; simp [run] at hr
    | cons f l ih =>
      intro c hc1 hc2 r hr
      have hstep := filter_frame_rem_ge env h c f hc1 hc2
      simp only [run, List.mem_cons] at hr
      rcases hr with rfl | hr
      · exact hstep
      · exact ih (filter_frame env h c f).ctx
          (by rw [(filter_frame_options env h c f).2.1]; exact hc1) hstep r hr
  intro r hr
  have := key fs s hmin' (by omega) r hr
  exact ⟨this, by omega⟩

set_option maxRecDepth 100000 in
/-- Witness for C13: the trace of eight frames with `min_frames = 3`; the
countdown after the fifth frame is -1. -/
theorem countdown_never_below_idle_witness :
    ((0 : Int) ≤ (init_context 10000 15 3).min_frames ∧
      config_input (init_context 10000 15 3) 1 true = Except.ok (configured 1 10000 15 3)) ∧
    (configured 1 10000 15 3).rem_frames = -1 ∧
    (-1 : Int) ≤ (filter_frame plain_env 1 (configured 1 10000 15 3)
        (const_frame 60 1 60 0)).ctx.rem_frames :=
  ⟨⟨by decide, rfl⟩,
   (countdown_never_below_idle plain_env 1 (init_context 10000 15 3) (configured 1 10000 15 3) 1
      trace_frames (by decide) rfl).1,
   ((countdown_never_below_idle plain_env 1 (init_context 10000 15 3) (configured 1 10000 15 3) 1
      trace_frames (by decide) rfl).2 _ (List.mem_cons_self _ _)).1⟩

/-- C19: with `min_frames = 0`, whatever the energy threshold and the frames, no
call of `filter_frame` after `config_input` forwards a frame and the countdown
is -1 after every call; a processed frame whose energy reaches the threshold is
tagged both window-start and window-end, is suppressed and leaves the countdown
at -1. -/
theorem zero_min_frames_forwards_nothing (env : Env) (h : Int) (s0 s : WildlifeDetectContext)
    (T : Int) (fs : List AVFrame) (hmin : s0.min_frames = 0)
    (hcfg : config_input s0 T true = Except.ok s) :
    (∀ r ∈ run env h s fs, r.forwarded = none ∧ r.ctx.rem_frames = -1) ∧
    (∀ (c : WildlifeDetectContext) (old cur : AVFrame), c.min_frames = 0 →
      c.prev_frame = some old →
      c.energy_threshold ≤ (filter_frame env h c cur).total_energy →
      (filter_frame env h c cur).start_tag = true ∧
      (filter_frame env h c cur).end_tag = true ∧
      (filter_frame env h c cur).cur_meta "lavfi.wildlifedetect.start"
          = some (env.av_ts2timestr cur.pts) ∧
      (filter_frame env h c cur).cur_meta "lavfi.wildlifedetect.end"
          = some (env.av_ts2timestr cur.pts) ∧
      (filter_frame env h c cur).forwarded = none ∧
      (filter_frame env h c cur).ctx.rem_frames = -1) := by
  have hs := config_input_ok s0 s T hcfg
  have hrem0 : s.rem_frames = -1 := by rw [hs]
  have hmin' : s.min_frames = 0 := by rw [hs]; exact hmin
  have step : ∀ (c : WildlifeDetectContext) (f : AVFrame), c.min_frames = 0 →
      c.rem_frames = -1 →
      (filter_frame env h c f).forwarded = none ∧ (filter_frame env h c f).ctx.rem_frames = -1 := by
    intro c f hc1 hc2
    cases hp : c.prev_frame with
    | none => rw [filter_frame_first env h c f hp]; exact ⟨rfl, hc2⟩
    | some old =>
      obtain ⟨hd, _⟩ := filter_frame_decision env h c f old hp
      obtain ⟨_, hf, _⟩ := filter_frame_meta env h c f old hp
      have hd' : (filter_frame env h c f).decision.rem_frames = -1 ∧
          (filter_frame env h c f).decision.forwarded = false := by
        rw [hd, hc1, hc2]
        unfold countdown_step
        simp only
        split_ifs <;> simp_all
      have h2 : (filter_frame env h c f).forwarded.isSome = false := hd'.2
      refine ⟨?_, hd'.1⟩
      rw [hf, h2]
      rfl
  constructor
  · have key : ∀ (l : List AVFrame) (c : WildlifeDetectContext), c.min_frames = 0 →
        c.rem_frames = -1 →
        ∀ r ∈ run env h c l, r.forwarded = none ∧ r.ctx.rem_frames = -1 := by
      intro l
      induction l with
      | nil => intro c _ _ r hr; simp [run] at hr
      | cons f l ih =>
        intro c hc1 hc2 r hr
        have hstep := step c f hc1 hc2
        simp only [run, List.mem_cons] at hr
        rcases hr with rfl | hr
        · exact hstep
        · exact ih (filter_frame env h c f).ctx
            (by rw [(filter_frame_options env h c f).2.1]; exact hc1) hstep.2 r hr
    exact key fs s hmin' hrem0
  · intro c old cur hc hp htrig
    obtain ⟨hd, _⟩ := filter_frame_decision env h c cur old hp
    obtain ⟨hm, hf, _⟩ := filter_frame_meta env h c cur old hp
    have hd' : (filter_frame env h c cur).decision
        = { rem_frames := -1, forwarded := false, start_tag := true, end_tag := true } := by
      rw [hd]
      simp [countdown_step, htrig, hc]
    have h1 : (filter_frame env h c cur).start_tag = true := congrArg Decision.start_tag hd'
    have h2 : (filter_frame env h c cur).end_tag = true := congrArg Decision.end_tag hd'
    have h3 : (filter_frame env h c cur).forwarded.isSome = false :=
      congrArg Decision.forwarded hd'
    refine ⟨h1, h2, ?_, ?_, ?_, congrArg Decision.rem_frames hd'⟩
    · rw [hm, h1, h2]
      simp [av_dict_set]
    · rw [hm, h1, h2]
      simp [av_dict_set]
    · rw [hf, h3]
      rfl

/-- Witness for C19: a detector with `min_frames = 0` and threshold 10 meets a
baseline frame and then a frame of energy 20. -/
theorem zero_min_frames_forwards_nothing_witness :
    ((init_context 10 5 0).min_frames = 0 ∧
      config_input (init_context 10 5 0) 1 true = Except.ok (configured 1 10 5 0)) ∧
    (filter_frame plain_env 1
        (filter_frame plain_env 1 (configured 1 10 5 0) (const_frame 1 1 1 0)).ctx
        (const_frame 1 1 1 20)).total_energy = 20 ∧
    ((filter_frame plain_env 1
        (filter_frame plain_env 1 (configured 1 10 5 0) (const_frame 1 1 1 0)).ctx
        (const_frame 1 1 1 20)).forwarded = none ∧
     (filter_frame plain_env 1
        (filter_frame plain_env 1 (configured 1 10 5 0) (const_frame 1 1 1 0)).ctx
        (const_frame 1 1 1 20)).ctx.rem_frames = -1) :=
  ⟨⟨rfl, rfl⟩, by decide,
   (zero_min_frames_forwards_nothing plain_env 1 (init_context 10 5 0) (configured 1 10 5 0) 1
      [const_frame 1 1 1 0, const_frame 1 1 1 20] rfl rfl).1 _
      (List.mem_cons_of_mem _ (List.mem_cons_self _ _))⟩

end WildlifeDetect

namespace WildlifeFmt

/-! ## The converter's `filter_frame` -/

/-- What the converter's `filter_frame` returns, forwards and releases on each of
its four paths. -/
theorem fmt_filter_frame_outcomes (env : Env) (h : Int) (s : WildlifeFmtContext)
    (src : AVFrame) :
    (env.av_frame_alloc = none →
      (filter_frame env h s src).ret = AVERROR_ENOMEM ∧
      (filter_frame env h s src).forwarded = none ∧
      (filter_frame env h s src).freed = []) ∧
    (∀ d0, env.av_frame_alloc = some d0 →
      ((env.av_frame_get_buffer { d0 with width := src.width, height := src.height }).1 < 0 →
        (filter_frame env h s src).ret
            = (env.av_frame_get_buffer { d0 with width := src.width, height := src.height }).1 ∧
        (filter_frame env h s src).forwarded = none ∧
        (filter_frame env h s src).freed
            = [src, (env.av_frame_get_buffer
                { d0 with width := src.width, height := src.height }).2]) ∧
      (0 ≤ (env.av_frame_get_buffer { d0 with width := src.width, height := src.height }).1 →
        (env.av_frame_copy_props (env.av_frame_get_buffer
            { d0 with width := src.width, height := src.height }).2 src).1 < 0 →
        (filter_frame env h s src).ret
            = (env.av_frame_copy_props (env.av_frame_get_buffer
                { d0 with width := src.width, height := src.height }).2 src).1 ∧
        (filter_frame env h s src).forwarded = none ∧
        (filter_frame env h s src).freed
            = [src, (env.av_frame_copy_props (env.av_frame_get_buffer
                { d0 with width := src.width, height := src.height }).2 src).2]) ∧
      (0 ≤ (env.av_frame_get_buffer { d0 with width := src.width, height := src.height }).1 →
        0 ≤ (env.av_frame_copy_props (env.av_frame_get_buffer
            { d0 with width := src.width, height := src.height }).2 src).1 →
        (filter_frame env h s src).forwarded
            = some (execute format_converter
                { src := src,
                  dst := (env.av_frame_copy_props (env.av_frame_get_buffer
                    { d0 with width := src.width, height := src.height }).2 src).2 }
                (FFMIN h s.nb_threads)).dst ∧
        (filter_frame env h s src).ret
            = env.ff_filter_frame (execute format_converter
                { src := src,
                  dst := (env.av_frame_copy_props (env.av_frame_get_buffer
                    { d0 with width := src.width, height := src.height }).2 src).2 }
                (FFMIN h s.nb_threads)).dst ∧
        (filter_frame env h s src).freed
            = [(execute format_converter
                { src := src,
                  dst := (env.av_frame_copy_props (env.av_frame_get_buffer
                    { d0 with width := src.width, height := src.height }).2 src).2 }
                (FFMIN h s.nb_threads)).src])) := by
  refine ⟨?_, ?_⟩
  · intro ha
    simp [filter_frame, ha]
  · intro d0 ha
    refine ⟨?_, ?_, ?_⟩
    · intro h1
      simp [filter_frame, ha, h1]
    · intro h1 h2
      have h1' : ¬ (env.av_frame_get_buffer
          { d0 with width := src.width, height := src.height }).1 < 0 := by omega
      simp [filter_frame, ha, h1', h2]
    · intro h1 h2
      have h1' : ¬ (env.av_frame_get_buffer
          { d0 with width := src.width, height := src.height }).1 < 0 := by omega
      have h2' : ¬ (env.av_frame_copy_props (env.av_frame_get_buffer
          { d0 with width := src.width, height := src.height }).2 src).1 < 0 := by omega
      simp [filter_frame, ha, h1', h2']

/-- C11 at the failing input: when `av_frame_alloc` fails, the converter's
`filter_frame` returns `AVERROR(ENOMEM)` and releases nothing, so the input
frame is not destroyed; when `av_frame_get_buffer` fails instead, the input
frame and the destination are both released, in that order. -/
theorem alloc_failure_leaks_input :
    ((filter_frame alloc_fail_env 2 { nb_threads := 1 } (const_frame 2 2 4 7)).ret
        = AVERROR_ENOMEM ∧
      (filter_frame alloc_fail_env 2 { nb_threads := 1 } (const_frame 2 2 4 7)).forwarded
        = none ∧
      (filter_frame alloc_fail_env 2 { nb_threads := 1 } (const_frame 2 2 4 7)).freed
        = []) ∧
    ((filter_frame buffer_fail_env 2 { nb_threads := 1 } (const_frame 2 2 4 7)).ret
        = AVERROR_ENOMEM ∧
      (filter_frame buffer_fail_env 2 { nb_threads := 1 } (const_frame 2 2 4 7)).freed
        = [const_frame 2 2 4 7, { const_frame 0 0 0 0 with width := 2, height := 2 }]) := by
  refine ⟨⟨rfl, rfl, rfl⟩, rfl, rfl⟩

end WildlifeFmt

/-- C18 (amended): neither `filter_frame` looks at the code the job executor
returns.  Whatever that code is, the detector returns 0 when it forwards
nothing and the return code of `ff_filter_frame` when it forwards the frame,
and the converter returns the return code of `ff_filter_frame` whenever it
forwards the converted frame. -/
theorem executor_code_not_inspected :
    (∀ (env : WildlifeDetect.Env) (h : Int) (s : WildlifeDetect.WildlifeDetectContext)
        (cur : AVFrame) (code : Int),
      WildlifeDetect.filter_frame { env with execute_ret := code } h s cur
          = WildlifeDetect.filter_frame env h s cur ∧
      ((WildlifeDetect.filter_frame env h s cur).forwarded = none →
        (WildlifeDetect.filter_frame env h s cur).ret = 0) ∧
      (∀ f, (WildlifeDetect.filter_frame env h s cur).forwarded = some f →
        (WildlifeDetect.filter_frame env h s cur).ret = env.ff_filter_frame f)) ∧
    (∀ (env : WildlifeFmt.Env) (h : Int) (s : WildlifeFmt.WildlifeFmtContext)
        (src : AVFrame) (code : Int),
      WildlifeFmt.filter_frame { env with execute_ret := code } h s src
          = WildlifeFmt.filter_frame env h s src ∧
      (∀ f, (WildlifeFmt.filter_frame env h s src).forwarded = some f →
        (WildlifeFmt.filter_frame env h s src).ret = env.ff_filter_frame f)) := by
  constructor
  · intro env h s cur code
    refine ⟨rfl, ?_, ?_⟩
    · intro hf
      unfold WildlifeDetect.filter_frame at hf ⊢
      cases hp : s.prev_frame with
      | none => rfl
      | some old =>
        rw [hp] at hf
        simp only at hf ⊢
        split_ifs at hf ⊢ <;> simp_all
    · intro f hf
      unfold WildlifeDetect.filter_frame at hf ⊢
      cases hp : s.prev_frame with
      | none => rw [hp] at hf; simp at hf
      | some old =>
        rw [hp] at hf
        simp only at hf ⊢
        split_ifs at hf ⊢ <;> simp_all
  · intro env h s src code
    refine ⟨rfl, ?_⟩
    intro f hf
    unfold WildlifeFmt.filter_frame at hf ⊢
    cases ha : env.av_frame_alloc with
    | none => rw [ha] at hf; simp at hf
    | some d0 =>
      rw [ha] at hf
      simp only at hf ⊢
      split_ifs at hf ⊢
      simp_all

/-- C18 as stated fails in both components: with an executor that reports -5 and
an output link that returns 0, the detector's `filter_frame` returns 0 both for
a suppressed and for a forwarded frame, and so does the converter's. -/
theorem executor_code_counterexample :
    (WildlifeDetect.failing_executor_env.execute_ret = -5 ∧
      (WildlifeDetect.filter_frame WildlifeDetect.failing_executor_env 1
        (WildlifeDetect.ready_context 1 (const_frame 1 1 1 0) 10 5 3 (-1))
        (const_frame 1 1 1 0)).ret = 0 ∧
      (WildlifeDetect.filter_frame WildlifeDetect.failing_executor_env 1
        (WildlifeDetect.ready_context 1 (const_frame 1 1 1 0) 10 5 3 (-1))
        (const_frame 1 1 1 20)).ret = 0) ∧
    (WildlifeFmt.fmt_failing_executor_env.execute_ret = -5 ∧
      (WildlifeFmt.filter_frame WildlifeFmt.fmt_failing_executor_env 2 { nb_threads := 1 }
        (const_frame 2 2 4 7)).ret = 0) := by
  decide

namespace WildlifeFmt

/-- The chroma bytes one job of `format_converter` leaves behind: 128 on the
bytes of the `memset` call, the old content elsewhere. -/
theorem format_converter_chroma (frames : WildlifeFmtFrames) (j N off : Int) :
    (format_converter frames j N).dst.data 1 off
      = if Int.tdiv (span_start frames.src.height j N) 2 * frames.dst.linesize 1 ≤ off ∧
          off < Int.tdiv (span_start frames.src.height j N) 2 * frames.dst.linesize 1
            + Int.tdiv (span_end frames.src.height j N - span_start frames.src.height j N) 2
              * frames.dst.linesize 1
        then 128 else frames.dst.data 1 off := rfl

/-- C14 at the failing input `H = 100`, `N = 3`, job 1 (span `[33, 66)`): the
claimed chroma rows are `[33/2, 66/2) = [16, 33)`, but job 1 of
`format_converter` fills rows 16 to 31 only; row 32 keeps the byte it held
before the call (0 here). -/
theorem chroma_rows_of_job :
    (Int.tdiv (span_start 100 1 3) 2 = 16 ∧ Int.tdiv (span_end 100 1 3) 2 = 33) ∧
    (format_converter { src := const_frame 2 100 4 7, dst := const_frame 2 100 2 0 } 1 3).dst.data
        1 (16 * 2) = 128 ∧
    (format_converter { src := const_frame 2 100 4 7, dst := const_frame 2 100 2 0 } 1 3).dst.data
        1 (31 * 2 + 1) = 128 ∧
    (format_converter { src := const_frame 2 100 4 7, dst := const_frame 2 100 2 0 } 1 3).dst.data
        1 (32 * 2) = 0 ∧
    (format_converter { src := const_frame 2 100 4 7, dst := const_frame 2 100 2 0 } 1 3).dst.data
        1 (32 * 2 + 1) = 0 := by
  decide

end WildlifeFmt

namespace WildlifeDetect

/-! ## The accumulator slots along a stream -/

theorem length_fold_set (E : Nat → Int) (l : List Int) (k : Nat) :
    ((List.range k).foldl (fun th (j : Nat) => th.set j (E j)) l).length = l.length := by
  induction k with
  | zero => simp
  | succ k ih => rw [List.range_succ, List.foldl_append]; simpa using ih

theorem FFMIN_le_right (a b : Int) : FFMIN a b ≤ b := by
  unfold FFMIN; split <;> omega

theorem FFMIN_ge_one {a b : Int} (ha : 1 ≤ a) (hb : 1 ≤ b) : 1 ≤ FFMIN a b := by
  unfold FFMIN; split <;> omega

/-- The slots after a processed frame: job slots hold the 32-bit partial sums of
this frame, the others are untouched. -/
theorem filter_frame_slots (env : Env) (h : Int) (s : WildlifeDetectContext)
    (cur prev : AVFrame) (hp : s.prev_frame = some prev)
    (hlen : s.th_energy.length = s.nb_threads.toNat) :
    (filter_frame env h s cur).ctx.th_energy.length = s.nb_threads.toNat ∧
    (∀ i : Nat, (filter_frame env h s cur).ctx.th_energy.getD i 0
      = if i < (FFMIN h s.nb_threads).toNat
        then wrap32 (job_sum s.noise_threshold cur prev i (FFMIN h s.nb_threads))
        else s.th_energy.getD i 0) ∧
    (filter_frame env h s cur).total_energy = sum_energy (filter_frame env h s cur).ctx := by
  have hexec := execute_energy_counter_eq cur prev s (FFMIN h s.nb_threads) hp
    (FFMIN h s.nb_threads).toNat
  have hth : (filter_frame env h s cur).ctx.th_energy
      = (execute (energy_counter cur) s (FFMIN h s.nb_threads)).th_energy := by
    unfold filter_frame
    rw [hp]
    simp only
    split_ifs <;> rfl
  have hnb : (filter_frame env h s cur).ctx.nb_threads
      = (execute (energy_counter cur) s (FFMIN h s.nb_threads)).nb_threads := by
    unfold filter_frame
    rw [hp]
    simp only
    split_ifs <;> rfl
  have htot : (filter_frame env h s cur).total_energy
      = sum_energy (execute (energy_counter cur) s (FFMIN h s.nb_threads)) :=
    (filter_frame_decision env h s cur prev hp).2.1
  have hN := FFMIN_le_right h s.nb_threads
  refine ⟨?_, ?_, ?_⟩
  · rw [hth]
    unfold execute
    rw [hexec]
    simp only
    rw [length_fold_set, hlen]
  · intro i
    rw [hth]
    unfold execute
    rw [hexec]
    simp only
    rw [getD_fold_set _ _ _ (by omega)]
    rfl
  · rw [htot]
    unfold sum_energy
    rw [hth, hnb]

theorem slots_ok_config (h : Int) (s0 s : WildlifeDetectContext) (T : Int)
    (hcfg : config_input s0 T true = Except.ok s) : slots_ok h s ∧ s.nb_threads = T := by
  have hs := config_input_ok s0 s T hcfg
  subst hs
  refine ⟨⟨by simp, ?_⟩, rfl⟩
  intro i _
  simp only [List.getD_eq_getElem?_getD, List.getElem?_replicate]
  split <;> rfl

theorem slots_ok_step (env : Env) (h : Int) (s : WildlifeDetectContext) (cur : AVFrame)
    (hs : slots_ok h s) : slots_ok h (filter_frame env h s cur).ctx := by
  obtain ⟨hlen, hz⟩ := hs
  have hnb := (filter_frame_options env h s cur).2.2.1
  cases hp : s.prev_frame with
  | none =>
    rw [filter_frame_first env h s cur hp]
    exact ⟨hlen, hz⟩
  | some prev =>
    obtain ⟨h1, h2, _⟩ := filter_frame_slots env h s cur prev hp hlen
    refine ⟨by rw [h1, hnb], ?_⟩
    intro i hi
    rw [hnb] at hi
    rw [h2 i, if_neg (by omega)]
    exact hz i hi

theorem run_ctx_append (env : Env) (h : Int) (s : WildlifeDetectContext) (pre : List AVFrame)
    (f : AVFrame) :
    run_ctx env h s (pre ++ [f]) = (filter_frame env h (run_ctx env h s pre) f).ctx := by
  unfold run_ctx
  rw [List.foldl_append]
  rfl

theorem run_ctx_invariants (env : Env) (h : Int) (s : WildlifeDetectContext)
    (hs : slots_ok h s) (fs : List AVFrame) :
    slots_ok h (run_ctx env h s fs) ∧
    (run_ctx env h s fs).nb_threads = s.nb_threads ∧
    (run_ctx env h s fs).noise_threshold = s.noise_threshold := by
  induction fs using List.reverseRecOn with
  | nil => exact ⟨hs, rfl, rfl⟩
  | append_singleton pre f ih =>
    obtain ⟨i1, i2, i3⟩ := ih
    rw [run_ctx_append]
    obtain ⟨_, _, o3, o4⟩ := filter_frame_options env h (run_ctx env h s pre) f
    exact ⟨slots_ok_step env h _ f i1, by rw [o3, i2], by rw [o4, i3]⟩

/-- The total of a processed frame from a state whose idle slots hold zero: the
32-bit sum of the exact partial sums of the jobs. -/
theorem filter_frame_total_jobs (env : Env) (h : Int) (s : WildlifeDetectContext)
    (cur prev : AVFrame) (hp : s.prev_frame = some prev) (hs : slots_ok h s) :
    (filter_frame env h s cur).total_energy
      = wrap32 (((List.range (FFMIN h s.nb_threads).toNat).map (fun j : Nat =>
          job_sum s.noise_threshold cur prev j (FFMIN h s.nb_threads))).sum) := by
  rw [(filter_frame_decision env h s cur prev hp).2.1]
  exact sum_energy_execute_jobs cur prev s (FFMIN h s.nb_threads) hp
    (FFMIN_le_right _ _) hs.1 hs.2

/-- The total of a processed frame from a state whose idle slots hold zero, when
the span products fit 32 bits. -/
theorem filter_frame_total (env : Env) (h : Int) (s : WildlifeDetectContext)
    (cur prev : AVFrame) (hp : s.prev_frame = some prev) (hs : slots_ok h s)
    (hh : 1 ≤ h) (hT : 1 ≤ s.nb_threads) (hH : 0 ≤ cur.height)
    (hfit : cur.height * FFMIN h s.nb_threads ≤ INT32_MAX) :
    (filter_frame env h s cur).total_energy
      = wrap32 (frame_sum s.noise_threshold cur prev) := by
  rw [(filter_frame_decision env h s cur prev hp).2.1]
  exact sum_energy_execute cur prev s (FFMIN h s.nb_threads) hp hH (FFMIN_ge_one hh hT) hfit
    (FFMIN_le_right _ _) hs.1 hs.2

theorem pair_energy_jobs (T h nt : Int) (cur prev : AVFrame) :
    pair_energy T h nt cur prev
      = wrap32 (((List.range (FFMIN h T).toNat).map (fun j : Nat =>
          job_sum nt cur prev j (FFMIN h T))).sum) := by
  unfold pair_energy
  exact sum_energy_execute_jobs cur prev (ready_context T prev 0 nt 0 0) (FFMIN h T) rfl
    (FFMIN_le_right _ _) (by simp [ready_context])
    (by
      intro i _
      simp only [ready_context, List.getD_eq_getElem?_getD, List.getElem?_replicate]
      split <;> rfl)

theorem pair_energy_eq (T h nt : Int) (cur prev : AVFrame) (hh : 1 ≤ h) (hT : 1 ≤ T)
    (hH : 0 ≤ cur.height) (hfit : cur.height * FFMIN h T ≤ INT32_MAX) :
    pair_energy T h nt cur prev = wrap32 (frame_sum nt cur prev) := by
  unfold pair_energy
  exact sum_energy_execute cur prev (ready_context T prev 0 nt 0 0) (FFMIN h T) rfl hH
    (FFMIN_ge_one hh hT) hfit (FFMIN_le_right _ _) (by simp [ready_context])
    (by
      intro i _
      simp only [ready_context, List.getD_eq_getElem?_getD, List.getElem?_replicate]
      split <;> rfl)

theorem filter_frame_prev (env : Env) (h : Int) (s : WildlifeDetectContext) (cur : AVFrame) :
    ∃ m, (filter_frame env h s cur).ctx.prev_frame
      = env.av_frame_clone { cur with metadata := m } := by
  cases hp : s.prev_frame with
  | none =>
    rw [filter_frame_first env h s cur hp]
    exact ⟨cur.metadata, rfl⟩
  | some old =>
    exact ⟨_, (filter_frame_meta env h s cur old hp).2.2⟩


/-- C12: when every clone succeeds and keeps the picture, after each call of
`filter_frame` the retained previous frame has the pixel content of the frame
of that call, forwarded or not; so the energy computed for a frame `f` that
follows a frame `f'` is the energy of the pair `(f, f')` alone
(`pair_energy`, the total obtained from zeroed slots with `f'` as previous
frame), whatever came before, and it is the exact pixel sum of that pair when
the span products fit 32 bits (`height * FFMIN(inlink->h, T) <= 2^31 - 1`), the
two frames share their luma stride and the sum fits 32 bits. -/
theorem previous_frame_is_latest (env : Env) (h : Int) (s0 s : WildlifeDetectContext)
    (T : Int)
    (hclone : ∀ f, ∃ g, env.av_frame_clone f = some g ∧ same_pixels f g)
    (hcfg : config_input s0 T true = Except.ok s) (hT : 1 ≤ T) (hh : 1 ≤ h) :
    (∀ (pre : List AVFrame) (f : AVFrame),
      ∃ g, (run_ctx env h s (pre ++ [f])).prev_frame = some g ∧ same_pixels f g) ∧
    (∀ (pre : List AVFrame) (f' f : AVFrame), 0 ≤ f.height →
      (filter_frame env h (run_ctx env h s (pre ++ [f'])) f).total_energy
          = pair_energy T h s.noise_threshold f f' ∧
      (f.height * FFMIN h T ≤ INT32_MAX →
        f'.linesize 0 = f.linesize 0 →
        energy_spec f f' f.width f.height s.noise_threshold ≤ INT32_MAX →
        (filter_frame env h (run_ctx env h s (pre ++ [f'])) f).total_energy
          = energy_spec f f' f.width f.height s.noise_threshold)) := by
  have hprev : ∀ (pre : List AVFrame) (f : AVFrame),
      ∃ g, (run_ctx env h s (pre ++ [f])).prev_frame = some g ∧ same_pixels f g := by
    intro pre f
    rw [run_ctx_append]
    obtain ⟨m, hm⟩ := filter_frame_prev env h (run_ctx env h s pre) f
    obtain ⟨g, hg, hw, hhh, hl, hdta⟩ := hclone { f with metadata := m }
    exact ⟨g, by rw [hm, hg], hw, hhh, hl, hdta⟩
  refine ⟨hprev, ?_⟩
  intro pre f' f hH
  obtain ⟨g, hg, _, _, _, hdta⟩ := hprev pre f'
  obtain ⟨hok, hnt⟩ := slots_ok_config h s0 s T hcfg
  obtain ⟨i1, i2, i3⟩ := run_ctx_invariants env h s hok (pre ++ [f'])
  have htot := filter_frame_total_jobs env h (run_ctx env h s (pre ++ [f'])) f g hg i1
  rw [i2, i3, hnt] at htot
  have hsum : ∀ j : Nat, job_sum s.noise_threshold f g j (FFMIN h T)
      = job_sum s.noise_threshold f f' j (FFMIN h T) := by
    intro j
    unfold job_sum
    rw [hdta]
  simp only [hsum] at htot
  have hpair : (filter_frame env h (run_ctx env h s (pre ++ [f'])) f).total_energy
      = pair_energy T h s.noise_threshold f f' := by
    rw [htot, pair_energy_jobs]
  refine ⟨hpair, ?_⟩
  intro hspan hls hfit
  rw [hpair, pair_energy_eq T h _ f f' hh hT hH hspan]
  unfold frame_sum
  rw [rows_sum_eq_spec f f' _ hls]
  exact wrap32_of_range
    (by have := energy_spec_nonneg f f' f.width f.height s.noise_threshold; omega) hfit

/-- Witness for C12: three one-sample frames 0, 20, 50 through a detector with one
worker thread; the energy of the third frame is 30, the energy of the pair
(50, 20). -/
theorem previous_frame_is_latest_witness :
    (config_input (init_context 10 5 3) 1 true = Except.ok (configured 1 10 5 3)) ∧
    (∃ g, (run_ctx plain_env 1 (configured 1 10 5 3)
        ([const_frame 1 1 1 0] ++ [const_frame 1 1 1 20])).prev_frame = some g ∧
      same_pixels (const_frame 1 1 1 20) g) ∧
    (filter_frame plain_env 1 (run_ctx plain_env 1 (configured 1 10 5 3)
        ([const_frame 1 1 1 0] ++ [const_frame 1 1 1 20])) (const_frame 1 1 1 50)).total_energy
      = pair_energy 1 1 (configured 1 10 5 3).noise_threshold
          (const_frame 1 1 1 50) (const_frame 1 1 1 20) ∧
    pair_energy 1 1 5 (const_frame 1 1 1 50) (const_frame 1 1 1 20) = 30 :=
  ⟨rfl,
   (previous_frame_is_latest plain_env 1 (init_context 10 5 3) (configured 1 10 5 3) 1
      (fun f => ⟨f, rfl, rfl, rfl, rfl, rfl⟩) rfl (by decide) (by decide)).1
      [const_frame 1 1 1 0] (const_frame 1 1 1 20),
   ((previous_frame_is_latest plain_env 1 (init_context 10 5 3) (configured 1 10 5 3) 1
      (fun f => ⟨f, rfl, rfl, rfl, rfl, rfl⟩) rfl (by decide) (by decide)).2
      [const_frame 1 1 1 0] (const_frame 1 1 1 20) (const_frame 1 1 1 50) (by decide)).1,
   by decide⟩

/-- C17: with the accumulator zero-filled to `T >= 1` slots by `config_input` and
`N = FFMIN(inlink->h, T)` jobs per frame (`inlink->h` possibly below `T`),
after every processed frame the array still has `T` slots, each slot `j < N`
holds the partial sum that job `j` computes for that frame from zeroed slots
(nothing is left from earlier frames), each slot `j >= N` is still 0, and the
total that `filter_frame` obtains by summing all `T` slots is the 32-bit sum of
the slots of the `N` jobs alone, which is their exact sum when that sum fits a
signed 32-bit `int`. -/
theorem accumulator_slots (env : Env) (h : Int) (s0 s : WildlifeDetectContext) (T : Int)
    (hcfg : config_input s0 T true = Except.ok s) (hT : 1 ≤ T) :
    ∀ (pre : List AVFrame) (f p : AVFrame),
      (run_ctx env h s pre).prev_frame = some p →
      (filter_frame env h (run_ctx env h s pre) f).ctx.th_energy.length = T.toNat ∧
      (∀ j : Nat, j < (FFMIN h T).toNat →
        (filter_frame env h (run_ctx env h s pre) f).ctx.th_energy.getD j 0
          = (energy_counter f (ready_context T p 0 s.noise_threshold 0 0) j
              (FFMIN h T)).th_energy.getD j 0) ∧
      (∀ j : Nat, (FFMIN h T).toNat ≤ j →
        (filter_frame env h (run_ctx env h s pre) f).ctx.th_energy.getD j 0 = 0) ∧
      (filter_frame env h (run_ctx env h s pre) f).total_energy
        = sum_energy (filter_frame env h (run_ctx env h s pre) f).ctx ∧
      (filter_frame env h (run_ctx env h s pre) f).total_energy
        = (List.range (FFMIN h T).toNat).foldl (fun total (j : Nat) => wrap32 (total +
            (filter_frame env h (run_ctx env h s pre) f).ctx.th_energy.getD j 0)) 0 ∧
      (filter_frame env h (run_ctx env h s pre) f).total_energy
        = wrap32 (((List.range (FFMIN h T).toNat).map (fun j : Nat =>
            (filter_frame env h (run_ctx env h s pre) f).ctx.th_energy.getD j 0)).sum) ∧
      (-2147483648 ≤ ((List.range (FFMIN h T).toNat).map (fun j : Nat =>
            (filter_frame env h (run_ctx env h s pre) f).ctx.th_energy.getD j 0)).sum →
        ((List.range (FFMIN h T).toNat).map (fun j : Nat =>
            (filter_frame env h (run_ctx env h s pre) f).ctx.th_energy.getD j 0)).sum
          ≤ INT32_MAX →
        (filter_frame env h (run_ctx env h s pre) f).total_energy
          = ((List.range (FFMIN h T).toNat).map (fun j : Nat =>
              (filter_frame env h (run_ctx env h s pre) f).ctx.th_energy.getD j 0)).sum) := by
  intro pre f p hp
  obtain ⟨hok, hnt⟩ := slots_ok_config h s0 s T hcfg
  obtain ⟨i1, i2, i3⟩ := run_ctx_invariants env h s hok pre
  obtain ⟨h1, h2, h3⟩ := filter_frame_slots env h (run_ctx env h s pre) f p hp i1.1
  rw [i2, hnt] at h1 h2
  rw [i3] at h2
  have hNT : FFMIN h T ≤ T := FFMIN_le_right h T
  have hzero : ∀ j : Nat, (FFMIN h T).toNat ≤ j →
      (filter_frame env h (run_ctx env h s pre) f).ctx.th_energy.getD j 0 = 0 := by
    intro j hj
    rw [h2 j, if_neg (by omega)]
    have := i1.2 j (by rw [i2, hnt]; exact hj)
    exact this
  have hsum : (filter_frame env h (run_ctx env h s pre) f).total_energy
      = wrap32 (((List.range (FFMIN h T).toNat).map (fun j : Nat =>
          (filter_frame env h (run_ctx env h s pre) f).ctx.th_energy.getD j 0)).sum) := by
    rw [h3]
    unfold sum_energy
    rw [(filter_frame_options env h (run_ctx env h s pre) f).2.2.1, i2, hnt, wrap_fold_sum]
    have hsplit : T.toNat = (FFMIN h T).toNat + (T.toNat - (FFMIN h T).toNat) := by omega
    rw [hsplit, sum_range_split _ _ _ hzero]
  refine ⟨h1, ?_, hzero, h3, ?_, hsum, ?_⟩
  · intro j hj
    rw [h2 j, if_pos hj]
    rw [energy_counter_eq f p (ready_context T p 0 s.noise_threshold 0 0) j (FFMIN h T) rfl]
    simp only [ready_context, Int.toNat_ofNat]
    rw [List.getD_eq_getElem?_getD, List.getElem?_set]
    have hjl : j < (List.replicate T.toNat (0 : Int)).length := by
      rw [List.length_replicate]; omega
    simp only [hjl, if_true]
    rfl
  · rw [hsum, wrap_fold_sum]
  · intro hlo hhi
    rw [hsum]
    exact wrap32_of_range hlo hhi

/-- Witness for C17: three slots, frames of height 2 (two jobs); after the second
frame slot 2 is still 0 and the total 40 is the sum of the two job slots. -/
theorem accumulator_slots_witness :
    (config_input (init_context 10 5 3) 3 true = Except.ok (configured 3 10 5 3) ∧
      (run_ctx plain_env 2 (configured 3 10 5 3) [const_frame 1 2 1 0]).prev_frame
        = some (const_frame 1 2 1 0)) ∧
    (filter_frame plain_env 2 (run_ctx plain_env 2 (configured 3 10 5 3)
        [const_frame 1 2 1 0]) (const_frame 1 2 1 20)).ctx.th_energy.getD 2 0 = 0 ∧
    (filter_frame plain_env 2 (run_ctx plain_env 2 (configured 3 10 5 3)
        [const_frame 1 2 1 0]) (const_frame 1 2 1 20)).total_energy
      = sum_energy (filter_frame plain_env 2 (run_ctx plain_env 2 (configured 3 10 5 3)
          [const_frame 1 2 1 0]) (const_frame 1 2 1 20)).ctx ∧
    (filter_frame plain_env 2 (run_ctx plain_env 2 (configured 3 10 5 3)
        [const_frame 1 2 1 0]) (const_frame 1 2 1 20)).total_energy = 40 :=
  ⟨⟨rfl, rfl⟩,
   (accumulator_slots plain_env 2 (init_context 10 5 3) (configured 3 10 5 3) 3 rfl (by decide)
      [const_frame 1 2 1 0] (const_frame 1 2 1 20) (const_frame 1 2 1 0) rfl).2.2.1 2
      (by decide),
   (accumulator_slots plain_env 2 (init_context 10 5 3) (configured 3 10 5 3) 3 rfl (by decide)
      [const_frame 1 2 1 0] (const_frame 1 2 1 20) (const_frame 1 2 1 0) rfl).2.2.2.1,
   by decide⟩

end WildlifeDetect

namespace WildlifeFmt

/-! ## Which bytes a job touches -/

theorem copy_fold_frame (src_mem : Int → Byte) (W sls dls y0 : Int) (m : Int → Byte) (n : Nat)
    (off : Int)
    (hne : ((List.range n).foldl (fun st (_ : Nat) => copy_step src_mem W sls dls st)
        { mem := m, p := y0 * sls, q := y0 * dls }).mem off ≠ m off) :
    ∃ y x : Int, y0 ≤ y ∧ y < y0 + n ∧ 0 ≤ x ∧ x < W ∧ off = y * dls + x := by
  induction n with
  | zero => exact absurd rfl hne
  | succ n ih =>
    obtain ⟨_, hq, _⟩ := copy_fold_spec src_mem W sls dls y0 m n
    rw [List.range_succ, List.foldl_append, List.foldl_cons, List.foldl_nil] at hne
    generalize (List.range n).foldl (fun st (_ : Nat) => copy_step src_mem W sls dls st)
      { mem := m, p := y0 * sls, q := y0 * dls } = st at hq ih hne
    simp only [copy_step] at hne
    rw [copy_row_apply, hq] at hne
    by_cases hin : (y0 + n) * dls ≤ off ∧ off < (y0 + n) * dls + W.toNat
    · refine ⟨y0 + n, off - (y0 + n) * dls, by omega, by push_cast; omega, by omega, by omega,
        by ring⟩
    · rw [if_neg hin] at hne
      obtain ⟨y, x, h1, h2, h3, h4, h5⟩ := ih hne
      exact ⟨y, x, h1, by push_cast; omega, h3, h4, h5⟩

/-- The luma bytes a job of `format_converter` changes lie in the rows of its own
span, within the first `width` bytes of the row. -/
theorem format_converter_luma_frame (frames : WildlifeFmtFrames) (j N : Int) (off : Int)
    (hne : (format_converter frames j N).dst.data 0 off ≠ frames.dst.data 0 off) :
    ∃ y x : Int, span_start frames.src.height j N ≤ y ∧ y < span_end frames.src.height j N ∧
      0 ≤ x ∧ x < frames.src.width ∧ off = y * frames.dst.linesize 0 + x := by
  have hne' : ((List.range (span_end frames.src.height j N
        - span_start frames.src.height j N).toNat).foldl
      (fun st (_ : Nat) => copy_step (frames.src.data 0) frames.src.width
        (frames.src.linesize 0) (frames.dst.linesize 0) st)
      { mem := frames.dst.data 0,
        p := span_start frames.src.height j N * frames.src.linesize 0,
        q := span_start frames.src.height j N * frames.dst.linesize 0 }).mem off
      ≠ frames.dst.data 0 off := hne
  obtain ⟨y, x, h1, h2, h3, h4, h5⟩ := copy_fold_frame _ _ _ _ _ _ _ _ hne'
  exact ⟨y, x, h1, by omega, h3, h4, h5⟩

/-- The chroma bytes a job of `format_converter` with a span `start <= end`
changes lie in the rows from `start / 2` on, `(end - start) / 2` of them. -/
theorem format_converter_chroma_frame (frames : WildlifeFmtFrames) (j N : Int)
    (hmono : span_start frames.src.height j N ≤ span_end frames.src.height j N) (off : Int)
    (hne : (format_converter frames j N).dst.data 1 off ≠ frames.dst.data 1 off) :
    ∃ r : Int, Int.tdiv (span_start frames.src.height j N) 2 ≤ r ∧
      r < Int.tdiv (span_start frames.src.height j N) 2
        + Int.tdiv (span_end frames.src.height j N - span_start frames.src.height j N) 2 ∧
      r * frames.dst.linesize 1 ≤ off ∧ off < (r + 1) * frames.dst.linesize 1 := by
  rw [format_converter_chroma] at hne
  generalize Int.tdiv (span_start frames.src.height j N) 2 = cs at hne ⊢
  have hcn : 0 ≤ Int.tdiv (span_end frames.src.height j N
      - span_start frames.src.height j N) 2 := by
    rw [Int.tdiv_eq_ediv (by omega) (by omega)]
    omega
  generalize Int.tdiv (span_end frames.src.height j N
      - span_start frames.src.height j N) 2 = cn at hne hcn ⊢
  generalize frames.dst.linesize 1 = ls at hne ⊢
  by_cases hin : cs * ls ≤ off ∧ off < cs * ls + cn * ls
  · obtain ⟨h1, h2⟩ := hin
    have hls : 0 < ls := by
      by_contra hc
      have : cn * ls ≤ 0 := by nlinarith
      omega
    refine ⟨off / ls, ?_, ?_, ?_, ?_⟩
    · exact Int.le_ediv_of_mul_le hls h1
    · apply Int.ediv_lt_of_lt_mul hls
      nlinarith
    · exact Int.ediv_mul_le off (by omega)
    · exact Int.lt_ediv_add_one_mul_self off hls
  · rw [if_neg hin] at hne
    exact absurd rfl hne

end WildlifeFmt

namespace WildlifeDetect

theorem rows_sum_congr (t : Int) (pm qm pm' qm' : Int → Byte) (W ls y0 : Int) (n : Nat)
    (hsame : ∀ y x : Int, y0 ≤ y → y < y0 + n → 0 ≤ x → x < W →
      pm (y * ls + x) = pm' (y * ls + x) ∧ qm (y * ls + x) = qm' (y * ls + x)) :
    rows_sum t pm qm W ls y0 n = rows_sum t pm' qm' W ls y0 n := by
  unfold rows_sum row_sum
  congr 1
  apply List.map_congr_left
  intro i hi
  have hi' : i < n := List.mem_range.mp hi
  congr 1
  apply List.map_congr_left
  intro x hx
  have hx' : x < W.toNat := List.mem_range.mp hx
  obtain ⟨h1, h2⟩ := hsame (y0 + i) x (by omega) (by omega) (by omega) (by omega)
  rw [h1, h2]

end WildlifeDetect

/-- C15 (amended): for a frame height `H` and a job count `1 <= N <= H` with
`H * N <= 2^31 - 1`, two distinct jobs `j` and `k` work on disjoint rows.  The
luma rows `[start, end)` of a job lie in `[0, H)` and those of `j` and `k` do
not meet; the chroma rows `[start/2, start/2 + (end-start)/2)` of a job lie in
`[0, (H+1)/2)`, their number `(end-start)/2` is not negative, and those of `j`
and `k` do not meet; a job of `format_converter` changes luma bytes only in its
luma rows and chroma bytes only in its chroma rows; a job of `energy_counter`
computes its value from the samples of its own rows alone and changes nothing
but its own accumulator slot. -/
theorem jobs_are_disjoint (H N j k : Int) (hN : 1 ≤ N) (hNH : N ≤ H)
    (hfit : H * N ≤ INT32_MAX)
    (hj : 0 ≤ j) (hjN : j < N) (hk : 0 ≤ k) (hkN : k < N) (hjk : j ≠ k) :
    (0 ≤ span_start H j N ∧ span_end H j N ≤ H ∧
      (span_end H j N ≤ span_start H k N ∨ span_end H k N ≤ span_start H j N)) ∧
    (0 ≤ Int.tdiv (span_start H j N) 2 ∧
      0 ≤ Int.tdiv (span_end H j N - span_start H j N) 2 ∧
      Int.tdiv (span_start H j N) 2 + Int.tdiv (span_end H j N - span_start H j N) 2
        ≤ Int.tdiv (H + 1) 2 ∧
      (Int.tdiv (span_start H j N) 2 + Int.tdiv (span_end H j N - span_start H j N) 2
          ≤ Int.tdiv (span_start H k N) 2 ∨
       Int.tdiv (span_start H k N) 2 + Int.tdiv (span_end H k N - span_start H k N) 2
          ≤ Int.tdiv (span_start H j N) 2)) ∧
    (∀ frames : WildlifeFmt.WildlifeFmtFrames, frames.src.height = H →
      (∀ off : Int,
        (WildlifeFmt.format_converter frames j N).dst.data 0 off ≠ frames.dst.data 0 off →
        ∃ y x : Int, span_start H j N ≤ y ∧ y < span_end H j N ∧
          0 ≤ x ∧ x < frames.src.width ∧ off = y * frames.dst.linesize 0 + x) ∧
      (∀ off : Int,
        (WildlifeFmt.format_converter frames j N).dst.data 1 off ≠ frames.dst.data 1 off →
        ∃ r : Int, Int.tdiv (span_start H j N) 2 ≤ r ∧
          r < Int.tdiv (span_start H j N) 2
            + Int.tdiv (span_end H j N - span_start H j N) 2 ∧
          r * frames.dst.linesize 1 ≤ off ∧ off < (r + 1) * frames.dst.linesize 1) ∧
      (WildlifeFmt.format_converter frames j N).src = frames.src) ∧
    (∀ (cur prev : AVFrame) (s : WildlifeDetect.WildlifeDetectContext), cur.height = H →
      s.prev_frame = some prev →
      (∃ v, WildlifeDetect.energy_counter cur s j N
          = { s with th_energy := s.th_energy.set j.toNat v }) ∧
      (∀ i : Nat, i ≠ j.toNat →
        (WildlifeDetect.energy_counter cur s j N).th_energy.getD i 0
          = s.th_energy.getD i 0) ∧
      (∀ (cur' prev' : AVFrame), cur'.width = cur.width → cur'.height = cur.height →
        cur'.linesize 0 = cur.linesize 0 →
        (∀ y x : Int, span_start H j N ≤ y → y < span_end H j N → 0 ≤ x → x < cur.width →
          cur.data 0 (y * cur.linesize 0 + x) = cur'.data 0 (y * cur.linesize 0 + x) ∧
          prev.data 0 (y * cur.linesize 0 + x) = prev'.data 0 (y * cur.linesize 0 + x)) →
        (WildlifeDetect.energy_counter cur' { s with prev_frame := some prev' } j N).th_energy
          = (WildlifeDetect.energy_counter cur s j N).th_energy)) := by
  have hH : 0 ≤ H := by omega
  have hfj : H * (j + 1) ≤ INT32_MAX := span_fit_of_le hH (by omega) hfit
  have hfk : H * (k + 1) ≤ INT32_MAX := span_fit_of_le hH (by omega) hfit
  have hsj : 0 ≤ span_start H j N :=
    span_start_nonneg hH hN hj (span_fit_of_le hH (by omega) hfit)
  have hsk : 0 ≤ span_start H k N :=
    span_start_nonneg hH hN hk (span_fit_of_le hH (by omega) hfit)
  have hmj : span_start H j N ≤ span_end H j N := by
    rw [span_end_eq_start_succ]; exact span_start_mono hH hN hj (by omega) hfj
  have hmk : span_start H k N ≤ span_end H k N := by
    rw [span_end_eq_start_succ]; exact span_start_mono hH hN hk (by omega) hfk
  have hej : span_end H j N ≤ H := by
    have := span_start_mono (N := N) hH hN (show 0 ≤ j + 1 by omega) (show j + 1 ≤ N by omega)
      hfit
    rw [span_start_last hH hN hfit] at this
    rw [span_end_eq_start_succ]; exact this
  have hdis : span_end H j N ≤ span_start H k N ∨ span_end H k N ≤ span_start H j N := by
    rcases lt_or_gt_of_ne hjk with hlt | hgt
    · left
      rw [span_end_eq_start_succ]
      exact span_start_mono hH hN (by omega) (by omega) (span_fit_of_le hH (by omega) hfit)
    · right
      rw [span_end_eq_start_succ]
      exact span_start_mono hH hN (by omega) (by omega) (span_fit_of_le hH (by omega) hfit)
  refine ⟨⟨hsj, hej, hdis⟩, ?_, ?_, ?_⟩
  · rw [Int.tdiv_eq_ediv hsj (by omega), Int.tdiv_eq_ediv hsk (by omega),
      Int.tdiv_eq_ediv (show 0 ≤ span_end H j N - span_start H j N by omega) (by omega),
      Int.tdiv_eq_ediv (show 0 ≤ span_end H k N - span_start H k N by omega) (by omega),
      Int.tdiv_eq_ediv (show 0 ≤ H + 1 by omega) (by omega)]
    refine ⟨by omega, by omega, by omega, ?_⟩
    rcases hdis with h | h
    · left; omega
    · right; omega
  · intro frames hfH
    subst hfH
    exact ⟨fun off hne => WildlifeFmt.format_converter_luma_frame frames j N off hne,
      fun off hne => WildlifeFmt.format_converter_chroma_frame frames j N hmj off hne,
      rfl⟩
  · intro cur prev s hcH hp
    subst hcH
    have heq := WildlifeDetect.energy_counter_eq cur prev s j N hp
    refine ⟨⟨_, heq⟩, ?_, ?_⟩
    · intro i hi
      rw [heq]
      simp only [List.getD_eq_getElem?_getD]
      rw [List.getElem?_set_ne (fun h => hi h.symm)]
    · intro cur' prev' hw hh hl hsame
      rw [heq, WildlifeDetect.energy_counter_eq cur' prev' { s with prev_frame := some prev' }
        j N rfl]
      simp only
      rw [hw, hh, hl]
      rw [WildlifeDetect.rows_sum_congr s.noise_threshold (cur'.data 0) (prev'.data 0)
        (cur.data 0) (prev.data 0) cur.width (cur.linesize 0) (span_start cur.height j N)
        (span_end cur.height j N - span_start cur.height j N).toNat
        (fun y x h1 h2 h3 h4 => by
          obtain ⟨a, b⟩ := hsame y x h1 (by omega) h3 h4
          exact ⟨a.symm, b.symm⟩)]

/-- Witness for C15: jobs 0 and 1 of a frame of height 100 split into 3 jobs. -/
theorem jobs_are_disjoint_witness :
    ((1 : Int) ≤ 3 ∧ (3 : Int) ≤ 100 ∧ (100 : Int) * 3 ≤ INT32_MAX ∧ (0 : Int) ≠ 1) ∧
    (0 ≤ span_start 100 0 3 ∧ span_end 100 0 3 ≤ 100 ∧
      (span_end 100 0 3 ≤ span_start 100 1 3 ∨ span_end 100 1 3 ≤ span_start 100 0 3)) ∧
    (0 ≤ Int.tdiv (span_start 100 0 3) 2 ∧
      0 ≤ Int.tdiv (span_end 100 0 3 - span_start 100 0 3) 2 ∧
      Int.tdiv (span_start 100 0 3) 2 + Int.tdiv (span_end 100 0 3 - span_start 100 0 3) 2
        ≤ Int.tdiv (100 + 1) 2 ∧
      (Int.tdiv (span_start 100 0 3) 2 + Int.tdiv (span_end 100 0 3 - span_start 100 0 3) 2
          ≤ Int.tdiv (span_start 100 1 3) 2 ∨
       Int.tdiv (span_start 100 1 3) 2 + Int.tdiv (span_end 100 1 3 - span_start 100 1 3) 2
          ≤ Int.tdiv (span_start 100 0 3) 2)) :=
  ⟨by decide,
   (jobs_are_disjoint 100 3 0 1 (by decide) (by decide) (by decide) (by decide) (by decide)
      (by decide) (by decide) (by decide)).1,
   (jobs_are_disjoint 100 3 0 1 (by decide) (by decide) (by decide) (by decide) (by decide)
      (by decide) (by decide) (by decide)).2.1⟩

/-- C15 as stated fails when `H * N` leaves the range of `int`.  For `H = 131072`
and `N = 65536` the products of the jobs from 32767 on overflow: job 32768 gets
the span `[0, 2)` of job 0, and both write luma row 0 of the destination; job
32767 gets the span `[-2, 0)` and writes luma row -2 and chroma row -1, before
the planes.  For `H = 65536` and `N = 32768` the last job gets the span
`[65534, -65536)` and passes the negative length `-65535 * linesize[1]` to
`memset`. -/
theorem jobs_are_disjoint_counterexample :
    (((1 : Int) ≤ 65536 ∧ (65536 : Int) ≤ 131072 ∧ (0 : Int) ≠ 32768) ∧
      (span_start 131072 0 65536 = 0 ∧ span_end 131072 0 65536 = 2 ∧
        span_start 131072 32768 65536 = 0 ∧ span_end 131072 32768 65536 = 2) ∧
      ¬ (span_end 131072 0 65536 ≤ span_start 131072 32768 65536 ∨
          span_end 131072 32768 65536 ≤ span_start 131072 0 65536) ∧
      ((WildlifeFmt.format_converter
          { src := const_frame 1 131072 2 7, dst := const_frame 1 131072 1 0 }
          0 65536).dst.data 0 0 = 7 ∧
        (WildlifeFmt.format_converter
          { src := const_frame 1 131072 2 7, dst := const_frame 1 131072 1 0 }
          32768 65536).dst.data 0 0 = 7 ∧
        (const_frame 1 131072 1 0).data 0 0 = 0) ∧
      (span_start 131072 32767 65536 = -2 ∧ span_end 131072 32767 65536 = 0 ∧
        ¬ (0 ≤ span_start 131072 32767 65536) ∧
        (WildlifeFmt.format_converter
          { src := const_frame 1 131072 2 7, dst := const_frame 1 131072 1 0 }
          32767 65536).dst.data 0 (-2) = 7 ∧
        (WildlifeFmt.format_converter
          { src := const_frame 1 131072 2 7, dst := const_frame 1 131072 1 0 }
          32767 65536).dst.data 1 (-1) = 128)) ∧
    (((1 : Int) ≤ 32768 ∧ (32768 : Int) ≤ 65536) ∧
      span_start 65536 32767 32768 = 65534 ∧ span_end 65536 32767 32768 = -65536 ∧
      Int.tdiv (span_end 65536 32767 32768 - span_start 65536 32767 32768) 2
        * (const_frame 1 65536 1 0).linesize 1 = -65535 ∧
      ¬ (0 ≤ Int.tdiv (span_end 65536 32767 32768 - span_start 65536 32767 32768) 2)) := by
  decide

namespace WildlifeDetect

/-! ## Range of the energy -/

theorem sum_range_bounds (g : Nat → Int) (c : Int) (n : Nat)
    (h0 : ∀ i, 0 ≤ g i) (hc : ∀ i, g i ≤ c) :
    0 ≤ ((List.range n).map g).sum ∧ ((List.range n).map g).sum ≤ c * n := by
  induction n with
  | zero => simp
  | succ n ih =>
    rw [List.range_succ, List.map_append, List.sum_append]
    simp only [List.map_cons, List.map_nil, List.sum_cons, List.sum_nil, add_zero]
    have := h0 n
    have := hc n
    push_cast
    constructor
    · omega
    · nlinarith [ih.2]

theorem row_sum_le (t : Int) (pmem qmem : Int → Byte) (width p q : Int) :
    row_sum t pmem qmem width p q ≤ 255 * width.toNat :=
  (sum_range_bounds _ 255 width.toNat (fun _ => pixel_energy_nonneg _ _ _)
    (fun _ => pixel_energy_le _ _ _)).2

theorem rows_sum_le (t : Int) (pmem qmem : Int → Byte) (width linesize y0 : Int) (n : Nat) :
    rows_sum t pmem qmem width linesize y0 n ≤ 255 * width.toNat * n :=
  (sum_range_bounds _ (255 * width.toNat) n (fun _ => row_sum_nonneg _ _ _ _ _ _)
    (fun _ => row_sum_le _ _ _ _ _ _)).2

theorem energy_after_eq (t : Int) (cur prev : AVFrame) (start : Int) (i m : Nat) :
    energy_after t cur prev start i m
      = wrap32 (rows_sum t (cur.data 0) (prev.data 0) cur.width (cur.linesize 0) start i
          + row_sum t (cur.data 0) (prev.data 0) (m : Int)
              ((start + i) * cur.linesize 0) ((start + i) * cur.linesize 0)) := by
  unfold energy_after
  simp only
  rw [scan_fold_eq _ _ _ _ _ _ 0 (by decide)]
  simp only
  rw [row_fold_eq _ _ _ _ _ _ (wrap32_idem _), wrap32_add_left, zero_add]
  rfl

theorem execute_slot (cur prev : AVFrame) (s : WildlifeDetectContext) (N : Int)
    (hp : s.prev_frame = some prev) (hlen : N.toNat ≤ s.th_energy.length) (j : Nat) :
    (execute (energy_counter cur) s N).th_energy.getD j 0
      = if j < N.toNat then wrap32 (job_sum s.noise_threshold cur prev j N)
        else s.th_energy.getD j 0 := by
  unfold execute
  rw [execute_energy_counter_eq cur prev s N hp]
  simp only
  rw [getD_fold_set _ _ _ hlen]
  rfl

theorem job_sum_bounds (t : Int) (cur prev : AVFrame) (N : Int) (j : Nat)
    (hW : 0 ≤ cur.width) (hH : 0 ≤ cur.height) (hN : 1 ≤ N) (hj : (j : Int) < N)
    (hfit : cur.height * N ≤ INT32_MAX) :
    0 ≤ job_sum t cur prev j N ∧ job_sum t cur prev j N ≤ 255 * cur.width * cur.height ∧
    ((span_end cur.height j N - span_start cur.height j N).toNat : Int) ≤ cur.height := by
  have hs : 0 ≤ span_start cur.height j N :=
    span_start_nonneg hH hN (by omega) (span_fit_of_le hH (by omega) hfit)
  have he : span_end cur.height j N ≤ cur.height := by
    have := span_start_mono (N := N) hH hN (show (0 : Int) ≤ (j : Int) + 1 by omega)
      (show (j : Int) + 1 ≤ N by omega) hfit
    rw [span_start_last hH hN hfit] at this
    rw [span_end_eq_start_succ]; exact this
  have hn : ((span_end cur.height j N - span_start cur.height j N).toNat : Int)
      ≤ cur.height := by omega
  refine ⟨rows_sum_nonneg _ _ _ _ _ _ _, ?_, hn⟩
  have h1 := rows_sum_le t (cur.data 0) (prev.data 0) cur.width (cur.linesize 0)
    (span_start cur.height j N) (span_end cur.height j N - span_start cur.height j N).toNat
  have hw : ((cur.width.toNat : Nat) : Int) = cur.width := by omega
  rw [hw] at h1
  unfold job_sum
  have : 255 * cur.width * ((span_end cur.height j N - span_start cur.height j N).toNat : Int)
      ≤ 255 * cur.width * cur.height :=
    mul_le_mul_of_nonneg_left hn (by omega)
  omega

theorem job_sums_telescope (t : Int) (cur prev : AVFrame) (N : Int)
    (hH : 0 ≤ cur.height) (hN : 1 ≤ N) (k : Nat) (hfit : cur.height * (k : Int) ≤ INT32_MAX) :
    ((List.range k).map (fun j : Nat => job_sum t cur prev j N)).sum
      = rows_sum t (cur.data 0) (prev.data 0) cur.width (cur.linesize 0) 0
          (span_start cur.height k N).toNat :=
  spans_telescope t (cur.data 0) (prev.data 0) cur.width (cur.linesize 0) cur.height N hH hN k
    hfit

theorem frame_sum_zero (t : Int) (cur prev : AVFrame) (hsame : prev.data 0 = cur.data 0)
    (ht : 1 ≤ t) : frame_sum t cur prev = 0 := by
  unfold frame_sum rows_sum row_sum
  rw [hsame]
  apply List.sum_eq_zero
  intro v hv
  obtain ⟨i, _, rfl⟩ := List.mem_map.mp hv
  apply List.sum_eq_zero
  intro w hw
  obtain ⟨x, _, rfl⟩ := List.mem_map.mp hw
  unfold pixel_energy
  simp only [sub_self, Int.natAbs_zero, Nat.cast_zero]
  rw [if_neg (by omega)]


/-- C20 (amended): for a frame pair of width `W >= 0` and height `H` with 8-bit
samples, any noise threshold and any job count `1 <= N <= H` with
`H * N <= 2^31 - 1`, the exact partial sum of every job and the exact total lie
in `[0, 255*W*H]`, each slot written by
`energy_counter` and the total computed by `filter_frame` are these sums reduced
to 32 bits, and the total is 0 when the two planes are identical and
`noise_threshold >= 1`.  Whenever `255*W*H <= 2^31 - 1`, every value the
accumulator of `energy_counter` takes (after `i` rows and `m` samples) and every
value the total takes during the summation of `filter_frame` is the exact sum
of what was added so far and lies in `[0, 255*W*H]`, so no addition overflows,
and the slots and the total are the exact sums. -/
theorem energy_range (env : Env) (cur prev : AVFrame) (s : WildlifeDetectContext) (N : Int)
    (hp : s.prev_frame = some prev) (hW : 0 ≤ cur.width) (hN : 1 ≤ N) (hNH : N ≤ cur.height)
    (hspan : cur.height * N ≤ INT32_MAX)
    (hT : s.nb_threads = N) (hlen : s.th_energy.length = N.toNat) :
    (∀ j : Nat, j < N.toNat →
      0 ≤ job_sum s.noise_threshold cur prev j N ∧
      job_sum s.noise_threshold cur prev j N ≤ 255 * cur.width * cur.height ∧
      (execute (energy_counter cur) s N).th_energy.getD j 0
        = wrap32 (job_sum s.noise_threshold cur prev j N)) ∧
    (0 ≤ frame_sum s.noise_threshold cur prev ∧
      frame_sum s.noise_threshold cur prev ≤ 255 * cur.width * cur.height ∧
      (filter_frame env cur.height s cur).total_energy
        = wrap32 (frame_sum s.noise_threshold cur prev)) ∧
    (prev.data 0 = cur.data 0 → 1 ≤ s.noise_threshold →
      (filter_frame env cur.height s cur).total_energy = 0) ∧
    (255 * cur.width * cur.height ≤ INT32_MAX →
      (∀ j : Nat, j < N.toNat →
        (execute (energy_counter cur) s N).th_energy.getD j 0
          = job_sum s.noise_threshold cur prev j N ∧
        ∀ i m : Nat,
          i < (span_end cur.height j N - span_start cur.height j N).toNat →
          m ≤ cur.width.toNat →
          energy_after s.noise_threshold cur prev (span_start cur.height j N) i m
            = rows_sum s.noise_threshold (cur.data 0) (prev.data 0) cur.width
                (cur.linesize 0) (span_start cur.height j N) i
              + row_sum s.noise_threshold (cur.data 0) (prev.data 0) (m : Int)
                  ((span_start cur.height j N + i) * cur.linesize 0)
                  ((span_start cur.height j N + i) * cur.linesize 0) ∧
          0 ≤ energy_after s.noise_threshold cur prev (span_start cur.height j N) i m ∧
          energy_after s.noise_threshold cur prev (span_start cur.height j N) i m
            ≤ 255 * cur.width * cur.height) ∧
      (∀ k : Nat, k ≤ N.toNat →
        (List.range k).foldl (fun total (i : Nat) => wrap32 (total +
            (execute (energy_counter cur) s N).th_energy.getD i 0)) 0
          = ((List.range k).map (fun i : Nat =>
              job_sum s.noise_threshold cur prev i N)).sum ∧
        0 ≤ ((List.range k).map (fun i : Nat => job_sum s.noise_threshold cur prev i N)).sum ∧
        ((List.range k).map (fun i : Nat => job_sum s.noise_threshold cur prev i N)).sum
          ≤ 255 * cur.width * cur.height) ∧
      (filter_frame env cur.height s cur).total_energy
        = frame_sum s.noise_threshold cur prev) := by
  have hH : 0 ≤ cur.height := by omega
  have hw : ((cur.width.toNat : Nat) : Int) = cur.width := by omega
  have hslot : ∀ j : Nat, j < N.toNat →
      (execute (energy_counter cur) s N).th_energy.getD j 0
        = wrap32 (job_sum s.noise_threshold cur prev j N) := by
    intro j hj
    rw [execute_slot cur prev s N hp (by omega) j, if_pos hj]
  have hmin : FFMIN cur.height s.nb_threads = N := by
    unfold FFMIN
    split <;> omega
  have htot : (filter_frame env cur.height s cur).total_energy
      = wrap32 (frame_sum s.noise_threshold cur prev) := by
    rw [(filter_frame_decision env cur.height s cur prev hp).2.1, hmin]
    exact sum_energy_execute cur prev s N hp hH hN hspan (by omega) (by rw [hlen, hT])
      (fun i hi => List.getD_eq_default _ _ (by omega))
  have hf0 : 0 ≤ frame_sum s.noise_threshold cur prev := rows_sum_nonneg _ _ _ _ _ _ _
  have hf1 : frame_sum s.noise_threshold cur prev ≤ 255 * cur.width * cur.height := by
    have h1 := rows_sum_le s.noise_threshold (cur.data 0) (prev.data 0) cur.width
      (cur.linesize 0) 0 cur.height.toNat
    have hh : ((cur.height.toNat : Nat) : Int) = cur.height := by omega
    rw [hw, hh] at h1
    exact h1
  have hpre : ∀ k : Nat, k ≤ N.toNat →
      0 ≤ ((List.range k).map (fun i : Nat => job_sum s.noise_threshold cur prev i N)).sum ∧
      ((List.range k).map (fun i : Nat => job_sum s.noise_threshold cur prev i N)).sum
        ≤ 255 * cur.width * cur.height := by
    intro k hk
    have hfk : cur.height * (k : Int) ≤ INT32_MAX := span_fit_of_le hH (by omega) hspan
    rw [job_sums_telescope _ _ _ _ hH hN k hfk]
    refine ⟨rows_sum_nonneg _ _ _ _ _ _ _, ?_⟩
    have h1 := rows_sum_le s.noise_threshold (cur.data 0) (prev.data 0) cur.width
      (cur.linesize 0) 0 (span_start cur.height k N).toNat
    rw [hw] at h1
    have h2 : span_start cur.height k N ≤ cur.height := by
      have := span_start_mono (N := N) hH hN (show (0 : Int) ≤ (k : Int) by omega)
        (show (k : Int) ≤ N by omega) hspan
      rwa [span_start_last hH hN hspan] at this
    have h3 : 0 ≤ span_start cur.height k N := span_start_nonneg hH hN (by omega) hfk
    have h4 : 255 * cur.width * (((span_start cur.height k N).toNat : Nat) : Int)
        ≤ 255 * cur.width * cur.height :=
      mul_le_mul_of_nonneg_left (by omega) (by omega)
    omega
  refine ⟨?_, ⟨hf0, hf1, htot⟩, ?_, ?_⟩
  · intro j hj
    obtain ⟨b0, b1, _⟩ :=
      job_sum_bounds s.noise_threshold cur prev N j hW hH hN (by omega) hspan
    exact ⟨b0, b1, hslot j hj⟩
  · intro hsame ht
    rw [htot, frame_sum_zero _ _ _ hsame ht]
    decide
  · intro hfit
    refine ⟨?_, ?_, ?_⟩
    · intro j hj
      obtain ⟨b0, b1, bn⟩ :=
        job_sum_bounds s.noise_threshold cur prev N j hW hH hN (by omega) hspan
      refine ⟨by rw [hslot j hj]; exact wrap32_of_range (by omega) (by omega), ?_⟩
      intro i m hi hm
      have e0 : 0 ≤ rows_sum s.noise_threshold (cur.data 0) (prev.data 0) cur.width
          (cur.linesize 0) (span_start cur.height j N) i := rows_sum_nonneg _ _ _ _ _ _ _
      have e1 := rows_sum_le s.noise_threshold (cur.data 0) (prev.data 0) cur.width
          (cur.linesize 0) (span_start cur.height j N) i
      have r0 : 0 ≤ row_sum s.noise_threshold (cur.data 0) (prev.data 0) (m : Int)
          ((span_start cur.height j N + i) * cur.linesize 0)
          ((span_start cur.height j N + i) * cur.linesize 0) := row_sum_nonneg _ _ _ _ _ _
      have r1 := row_sum_le s.noise_threshold (cur.data 0) (prev.data 0) (m : Int)
          ((span_start cur.height j N + i) * cur.linesize 0)
          ((span_start cur.height j N + i) * cur.linesize 0)
      rw [hw] at e1
      rw [Int.toNat_ofNat] at r1
      have hmw : (m : Int) ≤ cur.width := by omega
      have hi1 : (i : Int) + 1 ≤ cur.height := by omega
      have hbound : 255 * cur.width * (i : Int) + 255 * (m : Int)
          ≤ 255 * cur.width * cur.height := by
        have : 255 * cur.width * ((i : Int) + 1) ≤ 255 * cur.width * cur.height :=
          mul_le_mul_of_nonneg_left hi1 (by omega)
        nlinarith
      have hexact := energy_after_eq s.noise_threshold cur prev (span_start cur.height j N) i m
      rw [wrap32_of_range (by omega) (by omega)] at hexact
      exact ⟨hexact, by rw [hexact]; omega, by rw [hexact]; omega⟩
    · intro k hk
      obtain ⟨p0, p1⟩ := hpre k hk
      refine ⟨?_, p0, p1⟩
      rw [wrap_fold_sum]
      rw [wrap32_sum_congr _ (fun i : Nat => job_sum s.noise_threshold cur prev i N) k
        (fun i hi => by rw [hslot i (by omega)]; exact wrap32_idem _)]
      exact wrap32_of_range (by omega) (by omega)
    · rw [htot]
      exact wrap32_of_range (by omega) (by omega)

set_option maxRecDepth 100000 in
/-- Witness for C20: a pair of 3x4 frames, all 20 against the ramp, two jobs. -/
theorem energy_range_witness :
    ((0 : Int) ≤ (const_frame 3 4 3 20).width ∧ (2 : Int) ≤ (const_frame 3 4 3 20).height ∧
      (const_frame 3 4 3 20).height * 2 ≤ INT32_MAX ∧
      255 * (const_frame 3 4 3 20).width * (const_frame 3 4 3 20).height ≤ INT32_MAX) ∧
    (execute (energy_counter (const_frame 3 4 3 20))
        (ready_context 2 (ramp_frame 3 4 3) 10000 15 5 (-1)) 2).th_energy.getD 1 0
      = job_sum (ready_context 2 (ramp_frame 3 4 3) 10000 15 5 (-1)).noise_threshold
          (const_frame 3 4 3 20) (ramp_frame 3 4 3) ((1 : Nat) : Int) 2 ∧
    (filter_frame plain_env (const_frame 3 4 3 20).height
        (ready_context 2 (ramp_frame 3 4 3) 10000 15 5 (-1)) (const_frame 3 4 3 20)).total_energy
      = frame_sum (ready_context 2 (ramp_frame 3 4 3) 10000 15 5 (-1)).noise_threshold
          (const_frame 3 4 3 20) (ramp_frame 3 4 3) ∧
    (filter_frame plain_env (const_frame 3 4 3 20).height
        (ready_context 2 (const_frame 3 4 3 20) 10000 15 5 (-1))
        (const_frame 3 4 3 20)).total_energy = 0 :=
  ⟨by decide,
   (((energy_range plain_env (const_frame 3 4 3 20) (ramp_frame 3 4 3)
      (ready_context 2 (ramp_frame 3 4 3) 10000 15 5 (-1)) 2 rfl (by decide) (by decide)
      (by decide) (by decide) rfl rfl).2.2.2 (by decide)).1 1 (by decide)).1,
   ((energy_range plain_env (const_frame 3 4 3 20) (ramp_frame 3 4 3)
      (ready_context 2 (ramp_frame 3 4 3) 10000 15 5 (-1)) 2 rfl (by decide) (by decide)
      (by decide) (by decide) rfl rfl).2.2.2 (by decide)).2.2,
   (energy_range plain_env (const_frame 3 4 3 20) (const_frame 3 4 3 20)
      (ready_context 2 (const_frame 3 4 3 20) 10000 15 5 (-1)) 2 rfl (by decide) (by decide)
      (by decide) (by decide) rfl rfl).2.2.1 rfl (by decide)⟩

/-- C20 as stated fails on two inputs.  For a 4096x2160 pair that differs by
255 everywhere, one job, the slot written by `energy_counter` and the total
computed by `filter_frame` are -2038890496, outside `[0, 255*W*H]`; here
`255*W*H = 2256076800` exceeds `2^31 - 1`.  For a 1x65536 pair that differs by
20 everywhere and 32768 jobs, `255*W*H = 16711680` is below `2^31 - 1`, but the
product `height * (jobnr + 1)` of the last job overflows: the slot of job 32767
is 0 although its rows 65534 and 65535 hold the energy 40, and the total is
1310680, not the exact integer sum 1310720. -/
theorem energy_range_counterexample :
    ((execute (energy_counter (const_frame 4096 2160 4096 255))
        (ready_context 1 (const_frame 4096 2160 4096 0) 10000 15 5 (-1)) 1).th_energy.getD 0 0
      = -2038890496 ∧
    (filter_frame plain_env 2160 (ready_context 1 (const_frame 4096 2160 4096 0) 10000 15 5 (-1))
        (const_frame 4096 2160 4096 255)).total_energy = -2038890496 ∧
    ¬ (0 ≤ (filter_frame plain_env 2160
        (ready_context 1 (const_frame 4096 2160 4096 0) 10000 15 5 (-1))
        (const_frame 4096 2160 4096 255)).total_energy) ∧
    (255 * 4096 * 2160 : Int) = 2256076800 ∧ INT32_MAX < 255 * 4096 * 2160) ∧
    (((1 : Int) ≤ 32768 ∧ (32768 : Int) ≤ (const_frame 1 65536 1 20).height ∧
        (255 * 1 * 65536 : Int) ≤ INT32_MAX) ∧
      (execute (energy_counter (const_frame 1 65536 1 20))
        (ready_context 32768 (const_frame 1 65536 1 0) 10000 15 5 (-1))
        32768).th_energy.getD 32767 0 = 0 ∧
      rows_sum 15 ((const_frame 1 65536 1 20).data 0) ((const_frame 1 65536 1 0).data 0)
        1 1 65534 2 = 40 ∧
      (filter_frame plain_env 65536
        (ready_context 32768 (const_frame 1 65536 1 0) 10000 15 5 (-1))
        (const_frame 1 65536 1 20)).total_energy = 1310680 ∧
      frame_sum 15 (const_frame 1 65536 1 20) (const_frame 1 65536 1 0) = 1310720) := by
  have hspec : energy_spec (const_frame 4096 2160 4096 255) (const_frame 4096 2160 4096 0)
      4096 2160 15 = 2256076800 := by
    rw [energy_spec_const]
    decide
  have hframe : frame_sum 15 (const_frame 4096 2160 4096 255) (const_frame 4096 2160 4096 0)
      = 2256076800 := by
    unfold frame_sum
    rw [rows_sum_eq_spec (const_frame 4096 2160 4096 255) (const_frame 4096 2160 4096 0) _ rfl]
    exact hspec
  have hjob : job_sum 15 (const_frame 4096 2160 4096 255) (const_frame 4096 2160 4096 0)
      ((0 : Nat) : Int) 1 = 2256076800 := by
    rw [← hframe]
    unfold job_sum frame_sum
    have h1 : span_start (const_frame 4096 2160 4096 255).height ((0 : Nat) : Int) 1 = 0 := by
      decide
    have h2 : (span_end (const_frame 4096 2160 4096 255).height ((0 : Nat) : Int) 1
        - span_start (const_frame 4096 2160 4096 255).height ((0 : Nat) : Int) 1).toNat
        = (const_frame 4096 2160 4096 255).height.toNat := by decide
    rw [h2, h1]
  have hslot := execute_slot (const_frame 4096 2160 4096 255) (const_frame 4096 2160 4096 0)
    (ready_context 1 (const_frame 4096 2160 4096 0) 10000 15 5 (-1)) 1 rfl (by decide) 0
  rw [if_pos (by decide)] at hslot
  have hnt : (ready_context 1 (const_frame 4096 2160 4096 0) 10000 15 5 (-1)).noise_threshold
      = 15 := rfl
  rw [hnt, hjob] at hslot
  have htot := filter_frame_total plain_env 2160
    (ready_context 1 (const_frame 4096 2160 4096 0) 10000 15 5 (-1))
    (const_frame 4096 2160 4096 255) (const_frame 4096 2160 4096 0) rfl
    ⟨rfl, fun i hi => List.getD_eq_default _ _ (by
      have : (FFMIN 2160 (ready_context 1 (const_frame 4096 2160 4096 0) 10000 15 5
        (-1)).nb_threads).toNat = 1 := by decide
      rw [this] at hi
      simpa [ready_context] using hi)⟩
    (by decide) (by decide) (by decide) (by decide)
  rw [hnt, hframe] at htot
  have hw : wrap32 2256076800 = -2038890496 := by decide
  rw [hw] at hslot htot
  refine ⟨⟨hslot, htot, ?_, by decide, by decide⟩, by decide, ?_, ?_, ?_, ?_⟩
  · rw [htot]
    decide
  · have hlen : (32768 : Int).toNat
        ≤ (ready_context 32768 (const_frame 1 65536 1 0) 10000 15 5 (-1)).th_energy.length := by
      show (32768 : Int).toNat ≤ (List.replicate (32768 : Int).toNat (0 : Int)).length
      rw [List.length_replicate]
    have h := execute_slot (const_frame 1 65536 1 20) (const_frame 1 65536 1 0)
      (ready_context 32768 (const_frame 1 65536 1 0) 10000 15 5 (-1)) 32768 rfl hlen 32767
    have hN : (32768 : Int).toNat = 32768 := rfl
    rw [hN, if_pos (by decide)] at h
    rw [h]
    unfold job_sum
    have hstart : span_start (const_frame 1 65536 1 20).height ((32767 : Nat) : Int) 32768
        = 65534 := by decide
    have hend : span_end (const_frame 1 65536 1 20).height ((32767 : Nat) : Int) 32768
        = -65536 := by decide
    rw [hstart, hend]
    rfl
  · show rows_sum 15 (fun _ => (20 : Byte)) (fun _ => (0 : Byte)) 1 1 65534 2 = 40
    rw [rows_sum_const]
    decide
  · rw [(filter_frame_decision plain_env 65536
      (ready_context 32768 (const_frame 1 65536 1 0) 10000 15 5 (-1))
      (const_frame 1 65536 1 20) (const_frame 1 65536 1 0) rfl).2.1]
    have hmin : FFMIN 65536
        (ready_context 32768 (const_frame 1 65536 1 0) 10000 15 5 (-1)).nb_threads
        = 32768 := by decide
    rw [hmin]
    exact sum_energy_last_span_lost
  · unfold frame_sum
    show rows_sum 15 (fun _ => (20 : Byte)) (fun _ => (0 : Byte)) 1 1 0
      (65536 : Int).toNat = 1310720
    rw [rows_sum_const]
    decide

end WildlifeDetect
